import Mathlib

/-!
# Meeus, Astronomical Algorithms, chapter 7: calendar dates and Julian Dates

A shallow embedding of `julian.c` / `julian.h` / `meeus_error.h`.

Modelling conventions common to both readings below.
* C `/` and `%` on integer operands are C's truncating division and remainder
  (`Int.tdiv`, `Int.tmod`).
* `floor` is the libm function: a real in, an integer-valued real out.
* A conversion from a real to an integer type (assignment or cast) truncates
  toward zero (`truncToInt`).
* A function with output parameters takes the content of each caller slot
  before the call and returns the status together with the content of each
  slot after the call.
* `assert` is active (no `NDEBUG`): a failed assertion ends the run, which is
  the outcome `Call.abort`.

The source is read twice.
* Exact reading (`Meeus.cal_to_julian_date`, `Meeus.julian_date_to_cal`,
  `Meeus.day_of_week`, ...): `long` and `int` values are mathematical integers
  and `float` and `double` values are exact rationals, the decimal constants
  being the rationals they denote. It is used for the control flow, for the
  functions that compute with small whole numbers, and as the reference that
  the machine reading is compared with.
* Machine reading (`Meeus.Machine.cal_to_julian_date`,
  `Meeus.Machine.julian_date_to_cal`, `Meeus.Machine.day_of_week_jd`,
  `Meeus.Machine.day_of_week`): a `float` is a binary32 number and a `double`
  a binary64 number, every constant, conversion and arithmetic operation is
  rounded to nearest, ties to even (`to_float`, `to_double`), and an `int` is
  a 32-bit two's complement number (`to_int32`). A `long` has 64 bits and is
  kept as an integer, and the exponent range of the floating-point formats is
  not bounded: the statements about values computed in machine arithmetic are
  restricted to inputs far below 2^63 and the overflow threshold.
  `is_pre_gregorian` is shared by the two readings: it computes only in year
  1582, where, for the days used below (a `float` day that is whole or at
  least 1, below 2^31), its `double` sum of small whole numbers and the day
  is exact and fits the `int` it is stored in.

The theorems `machine_cal_to_julian_date_exact`,
`machine_julian_date_to_cal_exact` and `machine_day_of_week_exact` give the
inputs on which the two readings return the same result.
-/

set_option linter.unusedVariables false

namespace Meeus

/-- Error codes of `meeus_error.h`. -/
inductive meeus_err where
  | MeeusError_Unknown
  | MeeusError_Failure
  | MeeusError_Success
  | MeeusError_NoMemory
  | MeeusError_InvalidInput
  | MeeusError_InvalidDate
  deriving DecidableEq, Repr

open meeus_err

/-- Outcome of a call of a function that contains an `assert`: the run is
aborted, or the function returns a status and the final content of its output
slot. -/
inductive Call (α : Type) where
  | abort : Call α
  | ret : meeus_err → α → Call α
  deriving DecidableEq, Repr

/-- Conversion of a real value to a C integer type: the fractional part is
discarded (truncation toward zero). -/
def truncToInt (x : ℚ) : Int :=
  if 0 ≤ x then Int.floor x else Int.ceil x

/-- The libm function `floor`, with its real-valued result. -/
def floor (x : ℚ) : ℚ := ((Int.floor x : Int) : ℚ)

/-- The table `DAYS_IN_MONTH`. -/
def DAYS_IN_MONTH : List Int := [31, 28, 31, 30, 31, 30, 31, 31, 30, 31, 30, 31]

/-- The table `MONTH_NAMES_3LETTER`. -/
def MONTH_NAMES_3LETTER : List String :=
  ["Jan", "Feb", "Mar", "Apr", "May", "Jun", "Jul", "Aug", "Sep", "Oct", "Nov", "Dec"]

/-- The table `MONTH_NAMES`. -/
def MONTH_NAMES : List String :=
  ["January", "February", "March", "April", "May", "June",
   "July", "August", "September", "October", "November", "December"]

/-- `is_julian_leap`: `year % 4 == 0`. -/
def is_julian_leap (year : Int) : Bool :=
  year.tmod 4 == 0

/-- `is_gregorian_leap`: `(year % 4 == 0 && year % 100 != 0) || year % 400 == 0`. -/
def is_gregorian_leap (year : Int) : Bool :=
  (year.tmod 4 == 0 && year.tmod 100 != 0) || year.tmod 400 == 0

/-- `is_leap`: Julian rule before 1582, Gregorian rule from 1582 on. -/
def is_leap (year : Int) : Bool :=
  if year < 1582 then is_julian_leap year else is_gregorian_leap year

/-- `cal_to_day_of_year`: the slot `day_of_year` is written on every path. The
right-hand side is a `double`, stored into an `int`. -/
def cal_to_day_of_year (year month : Int) (day : ℚ) (day_of_year : Int) : meeus_err × Int :=
  let k : Int := if is_leap year then 1 else 2
  let day_of_year : Int :=
    truncToInt (floor (((275 * month).tdiv 9 : Int) : ℚ) -
      (k : ℚ) * floor (((month + 9).tdiv 12 : Int) : ℚ) + day - 30)
  (MeeusError_Success, day_of_year)

/-- `is_pre_gregorian`: true if the date is before the Gregorian transition.
The locals `oct15_doy` and `doy` are uninitialised in the source and are
overwritten by `cal_to_day_of_year` before they are read; they start at 0
here. -/
def is_pre_gregorian (year month : Int) (day : ℚ) : Bool :=
  if year > 1582 then false
  else if year < 1582 then true
  else
    let oct15_doy : Int := (cal_to_day_of_year 1582 10 15 0).2
    let doy : Int := (cal_to_day_of_year 1582 month day 0).2
    decide (doy < oct15_doy)

/-- `is_missing_gregorian_date`: the date is in [5 Oct 1582, 14 Oct 1582]. -/
def is_missing_gregorian_date (year month : Int) (day : ℚ) : Bool :=
  if year == 1582 && month == 10 && (decide (day ≥ 5) && decide (day ≤ 14)) then true
  else false

/-- `cal_to_julian_date`, eq. 7-1, in the exact reading. `jd` is the caller's
slot before the call. The reading with a `float` day and binary64 arithmetic
is `Machine.cal_to_julian_date`. -/
def cal_to_julian_date (year month : Int) (day : ℚ) (jd : ℚ) : Call ℚ :=
  if ¬ (year ≥ -4712) then Call.abort
  else if year < -4712 ∨ is_missing_gregorian_date year month day = true then
    Call.ret MeeusError_InvalidDate jd
  else
    let ym : Int × Int := if month < 3 then (year - 1, month + 12) else (year, month)
    let year := ym.1
    let month := ym.2
    let b : Int :=
      if is_pre_gregorian year month day then 0
      else
        let a : Int := truncToInt (floor ((year.tdiv 100 : Int) : ℚ))
        truncToInt (((2 - a : Int) : ℚ) + floor ((a.tdiv 4 : Int) : ℚ))
    Call.ret MeeusError_Success
      (floor (365.25 * ((year + 4716 : Int) : ℚ)) +
        floor (30.6001 * ((month + 1 : Int) : ℚ)) +
        day + (b : ℚ) - 1524.5)

/-- `julian_date_to_cal`, pg. 63, in the exact reading. Returns the status and
the final content of the slots `year`, `month`, `day`. The reading with
binary64 arithmetic and a `float` day slot is `Machine.julian_date_to_cal`. -/
def julian_date_to_cal (jd : ℚ) (year month : Int) (day : ℚ) : meeus_err × Int × Int × ℚ :=
  let jd : ℚ := jd + 0.5
  let z : Int := truncToInt jd
  let f : ℚ := jd - (z : ℚ)
  let a : ℚ :=
    if z < 2299161 then (z : ℚ)
    else
      let alpha : ℚ := floor (((z : ℚ) - 1867216.25) / 36524.25)
      (z : ℚ) + 1 + alpha - floor (alpha / 4.0)
  let b : ℚ := a + 1524
  let c : ℚ := floor ((b - 122.1) / 365.25)
  let d : ℚ := floor (365.25 * c)
  let e : ℚ := floor ((b - d) / 30.6001)
  let day : ℚ := b - d - floor (30.6001 * e) + f
  let month : Int := if e < 14 then truncToInt (e - 1) else truncToInt (e - 13)
  let year : Int := if month > 2 then truncToInt (c - 4716) else truncToInt (c - 4715)
  (MeeusError_Success, year, month, day)

/-- `short_month_name`. -/
def short_month_name (m : Int) : String :=
  if m < 1 ∨ m > 12 then "UNK"
  else MONTH_NAMES_3LETTER.getD (m - 1).toNat ""

/-- `month_name`: the parameter `name` is a pointer passed by value; the
assignment `name = MONTH_NAMES[m-1]` changes the local copy only. The second
component is the string the caller observes through its own pointer after the
call. -/
def month_name (m : Int) (name : String) : meeus_err × String :=
  if m < 1 ∨ m > 12 then (MeeusError_InvalidInput, name)
  else
    let local_name : String := MONTH_NAMES.getD (m - 1).toNat ""
    (MeeusError_Success, name)

/-- `day_of_year_to_cal`, pg. 66. `month` and `day` are the caller's slots
before the call. -/
def day_of_year_to_cal (year : Int) (day_of_year : Int) (month : Int) (day : ℚ) :
    meeus_err × Int × ℚ :=
  let n : Int := day_of_year
  let leap : Bool := is_leap year
  if n < 1 ∨ (leap = true ∧ n > 366) ∨ n > 365 then (MeeusError_InvalidDate, month, day)
  else
    let k : Int := if leap then 1 else 2
    let m : Int :=
      if n < 32 then 1
      else truncToInt (floor ((((9 * (k + n) : Int) : ℚ) / 275.0) + 0.98))
    let d : Int :=
      truncToInt ((n : ℚ) - floor (((275 * m : Int) : ℚ) / 9.0) +
        ((k : ℚ) * floor (((m + 9 : Int) : ℚ) / 12.0)) + 30)
    (MeeusError_Success, m, (d : ℚ))

/-- `days_in_month`. `days` is the caller's slot before the call. -/
def days_in_month (year month : Int) (days : Int) : meeus_err × Int :=
  if month < 1 ∨ month > 12 then (MeeusError_InvalidDate, days)
  else
    let days : Int := DAYS_IN_MONTH.getD (month - 1).toNat 0
    let days : Int := if month == 2 && is_leap year then days + 1 else days
    (MeeusError_Success, days)

/-- `day_of_week_jd` in the exact reading: `z = (int)jd + 2; return z % 7`. The
reading with a 32-bit `int` is `Machine.day_of_week_jd`. -/
def day_of_week_jd (jd : ℚ) : Int :=
  let z : Int := truncToInt jd + 2
  z.tmod 7

/-- `day_of_week` in the exact reading. `dow` is the caller's slot before the
call. The local `jd` is uninitialised in the source and is read only after
`cal_to_julian_date` has succeeded and written it; it starts at 0 here. The
reading with a `float` day and a 32-bit `int` is `Machine.day_of_week`. -/
def day_of_week (year month : Int) (day : ℚ) (dow : Int) : Call Int :=
  let day : ℚ := ((truncToInt day : Int) : ℚ)
  match cal_to_julian_date year month day 0 with
  | Call.abort => Call.abort
  | Call.ret err jd =>
    if MeeusError_Success ≠ err then Call.ret err dow
    else Call.ret MeeusError_Success (day_of_week_jd jd)

/-- Status of a call; `none` when the run was aborted. -/
def Call.status {α : Type} : Call α → Option meeus_err
  | Call.abort => none
  | Call.ret err _ => some err

/-- Integer form of the Gregorian adjustment of `julian_date_to_cal`: the value
`a` computed from the integer part `z` of `jd + 0.5`. -/
def gregorian_adjust (z : Int) : Int :=
  if z < 2299161 then z
  else
    let alpha : Int := (4 * z - 7468865) / 146097
    z + 1 + alpha - alpha / 4

/-- Integer form of the second half of `julian_date_to_cal`: year, month and
whole day computed from `a`. -/
def cal_of_adjusted (a : Int) : Int × Int × Int :=
  let b : Int := a + 1524
  let c : Int := (20 * b - 2442) / 7305
  let d : Int := (1461 * c) / 4
  let e : Int := (10000 * (b - d)) / 306001
  let day : Int := b - d - (306001 * e) / 10000
  let month : Int := if e < 14 then e - 1 else e - 13
  let year : Int := if month > 2 then c - 4716 else c - 4715
  (year, month, day)

/-- Integer form of `julian_date_to_cal` on a whole day number `z` (the integer
part of `jd + 0.5`): every `floor` of the source is written as an integer
floor division. Proved equal to the source function in
`julian_date_to_cal_eq`. -/
def cal_of_day_number (z : Int) : Int × Int × Int :=
  cal_of_adjusted (gregorian_adjust z)

/-- Year used by eq. 7-1 after the January/February shift. -/
def shifted_year (year month : Int) : Int := if month < 3 then year - 1 else year

/-- Month used by eq. 7-1 after the January/February shift. -/
def shifted_month (month : Int) : Int := if month < 3 then month + 12 else month

/-- Integer part of eq. 7-1: the two floors and the correction `b`, as computed
by `cal_to_julian_date` on the shifted year and month. Proved equal to the
source function in `cal_to_julian_date_eq`. -/
def day_number_base (year month : Int) (day : ℚ) : Int :=
  let Y := shifted_year year month
  let M := shifted_month month
  (1461 * (Y + 4716)) / 4 + (306001 * (M + 1)) / 10000 +
    (if is_pre_gregorian Y M day then 0 else 2 - Y / 100 + Y / 100 / 4)

/-- The reference formula as the specification states it, on the caller's date:
`JD = floor(365.25*(Y+4716)) + floor(30.6001*(M+1)) + day + b - 1524.5` with
`(Y, M) = (year-1, month+12)` if `month < 3` and `(year, month)` otherwise, and
`b = 0` exactly when `(year, month, floor(day))` is strictly before
15 October 1582, otherwise `b = 2 - A + floor(A/4)` with `A = floor(Y/100)`.
Every floor is the mathematical floor. -/
def reference_julian_date (year month : Int) (day : ℚ) : ℚ :=
  let Y : Int := if month < 3 then year - 1 else year
  let M : Int := if month < 3 then month + 12 else month
  let A : Int := Int.floor ((Y : ℚ) / 100)
  let b : Int :=
    if year < 1582 ∨ (year = 1582 ∧ (month < 10 ∨ (month = 10 ∧ Int.floor day < 15))) then 0
    else 2 - A + Int.floor ((A : ℚ) / 4)
  ((Int.floor (365.25 * ((Y : ℚ) + 4716)) : Int) : ℚ) +
    ((Int.floor (30.6001 * ((M : ℚ) + 1)) : Int) : ℚ) + day + (b : ℚ) - 1524.5

/-- Number of days of `year` before the first day of `month`: the sum of
`days_in_month year i` for `i = 1 .. month - 1`. -/
def days_before_month (year month : Int) : Int :=
  ((List.range (month - 1).toNat).map (fun i => (days_in_month year ((i : Int) + 1) 0).2)).sum

/-- Whole day number of the calendar date (year, month, n): the integer part of
eq. 7-1 with the correction `b` chosen on the caller's date, so that the
Julian Date of the date at 0h is `day_number_int year month n - 0.5`. Proved
equal to what `cal_to_julian_date` computes in `day_number_base_floor`. -/
def day_number_int (year month n : Int) : Int :=
  (1461 * ((if month < 3 then year - 1 else year) + 4716)) / 4 +
    (306001 * ((if month < 3 then month + 12 else month) + 1)) / 10000 +
    (if year < 1582 ∨ (year = 1582 ∧ (month < 10 ∨ (month = 10 ∧ n < 15))) then 0
      else 2 - (if month < 3 then year - 1 else year) / 100 +
        (if month < 3 then year - 1 else year) / 100 / 4) + n - 1524

/-- Number of days of the month, as `days_in_month` writes it. -/
def month_length (year month : Int) : Int := (days_in_month year month 0).2

/-- A calendar date with a whole day that exists: year from -4712 on, month in
1..12, day in 1..`month_length`, and not one of the missing days 5..14 October
1582. -/
def valid_date (year month n : Int) : Prop :=
  -4712 ≤ year ∧ 1 ≤ month ∧ month ≤ 12 ∧ 1 ≤ n ∧ n ≤ month_length year month ∧
    ¬ (year = 1582 ∧ month = 10 ∧ 5 ≤ n ∧ n < 15)

/-- The predicate `valid_date` is decidable, so it can be evaluated on a date. -/
instance valid_date_decidable (year month n : Int) : Decidable (valid_date year month n) := by
  unfold valid_date
  exact inferInstance

/-- Nearest integer to `q`, a tie going to the even integer. -/
def round_half_even (q : ℚ) : Int :=
  let f : Int := Int.floor q
  if q - (f : ℚ) < 1 / 2 then f
  else if 1 / 2 < q - (f : ℚ) then f + 1
  else if f % 2 = 0 then f else f + 1

/-- Rounding of a real to the nearest binary floating-point number with a
significand of `p` bits, ties to even (the IEEE 754 default rounding). The
exponent range is not bounded: overflow to infinity and subnormal numbers are
not modelled. -/
def round_to_precision (p : Nat) (x : ℚ) : ℚ :=
  if x = 0 then 0
  else
    let e : Int := Int.log 2 |x| - ((p : Int) - 1)
    ((round_half_even (x / (2 : ℚ) ^ e) : Int) : ℚ) * (2 : ℚ) ^ e

/-- Rounding to C `double` (binary64, 53-bit significand): the result of every
`double` operation, constant and conversion. -/
def to_double (x : ℚ) : ℚ := round_to_precision 53 x

/-- Rounding to C `float` (binary32, 24-bit significand): the value a `float`
parameter or a `float` output slot holds. -/
def to_float (x : ℚ) : ℚ := round_to_precision 24 x

/-- Value of a 32-bit `int` holding the integer `n`: two's complement
wrap-around. -/
def to_int32 (n : Int) : Int := (n + 2147483648) % 4294967296 - 2147483648

namespace Machine

/-- `cal_to_julian_date` with machine arithmetic: the argument `day` is
converted to the parameter type `float`, every `double` operation and every
conversion of a `long` to `double` rounds to binary64. -/
def cal_to_julian_date (year month : Int) (day : ℚ) (jd : ℚ) : Call ℚ :=
  let day : ℚ := to_float day
  if ¬ (year ≥ -4712) then Call.abort
  else if year < -4712 ∨ is_missing_gregorian_date year month day = true then
    Call.ret MeeusError_InvalidDate jd
  else
    let ym : Int × Int := if month < 3 then (year - 1, month + 12) else (year, month)
    let year := ym.1
    let month := ym.2
    let b : Int :=
      if is_pre_gregorian year month day then 0
      else
        let a : Int := truncToInt (floor (to_double ((year.tdiv 100 : Int) : ℚ)))
        truncToInt (to_double (to_double ((2 - a : Int) : ℚ) +
          floor (to_double ((a.tdiv 4 : Int) : ℚ))))
    Call.ret MeeusError_Success
      (to_double (to_double (to_double (to_double
        (floor (to_double (to_double 365.25 * to_double ((year + 4716 : Int) : ℚ))) +
          floor (to_double (to_double 30.6001 * to_double ((month + 1 : Int) : ℚ)))) +
        day) + to_double (b : ℚ)) - to_double 1524.5))

/-- `julian_date_to_cal` with machine arithmetic: the argument is a `double`,
every `double` operation rounds to binary64, and the day is narrowed to
`float` when it is stored into the slot `float *day`. -/
def julian_date_to_cal (jd : ℚ) (year month : Int) (day : ℚ) : meeus_err × Int × Int × ℚ :=
  let jd : ℚ := to_double jd
  let jd : ℚ := to_double (jd + to_double 0.5)
  let z : Int := truncToInt jd
  let f : ℚ := to_double (jd - to_double (z : ℚ))
  let a : ℚ :=
    if z < 2299161 then to_double (z : ℚ)
    else
      let alpha : ℚ :=
        floor (to_double (to_double (to_double (z : ℚ) - to_double 1867216.25) /
          to_double 36524.25))
      to_double (to_double (to_double ((z + 1 : Int) : ℚ) + alpha) -
        floor (to_double (alpha / to_double 4.0)))
  let b : ℚ := to_double (a + 1524)
  let c : ℚ := floor (to_double (to_double (b - to_double 122.1) / to_double 365.25))
  let d : ℚ := floor (to_double (to_double 365.25 * c))
  let e : ℚ := floor (to_double (to_double (b - d) / to_double 30.6001))
  let day : ℚ :=
    to_float (to_double (to_double (to_double (b - d) -
      floor (to_double (to_double 30.6001 * e))) + f))
  let month : Int :=
    if e < 14 then to_int32 (truncToInt (to_double (e - 1)))
    else to_int32 (truncToInt (to_double (e - 13)))
  let year : Int :=
    if month > 2 then truncToInt (to_double (c - 4716)) else truncToInt (to_double (c - 4715))
  (MeeusError_Success, year, month, day)

/-- `day_of_week_jd` with machine arithmetic: `int z = (int)jd + 2` in 32-bit
`int`, then `z % 7`. -/
def day_of_week_jd (jd : ℚ) : Int :=
  let z : Int := to_int32 (to_int32 (truncToInt jd) + 2)
  z.tmod 7

/-- `day_of_week` with machine arithmetic: `day = (int) day` goes through a
32-bit `int` and back to `float`. -/
def day_of_week (year month : Int) (day : ℚ) (dow : Int) : Call Int :=
  let day : ℚ := to_float day
  let day : ℚ := to_float ((to_int32 (truncToInt day) : Int) : ℚ)
  match cal_to_julian_date year month day 0 with
  | Call.abort => Call.abort
  | Call.ret err jd =>
    if MeeusError_Success ≠ err then Call.ret err dow
    else Call.ret MeeusError_Success (day_of_week_jd jd)

end Machine

theorem truncToInt_intCast (n : Int) : truncToInt (n : ℚ) = n := by
  unfold truncToInt
  split <;> simp

theorem truncToInt_of_nonneg {x : ℚ} (h : 0 ≤ x) : truncToInt x = Int.floor x := by
  unfold truncToInt
  simp [h]

theorem floor_intCast (n : Int) : floor (n : ℚ) = (n : ℚ) := by
  unfold floor
  simp

theorem floor_div_nat (n : Int) (d : Nat) :
    floor ((n : ℚ) / (d : ℚ)) = ((n / (d : Int) : Int) : ℚ) := by
  unfold floor
  rw [Rat.floor_intCast_div_natCast]

theorem floor_alpha (z : Int) :
    floor (((z : ℚ) - 1867216.25) / 36524.25) = (((4 * z - 7468865) / 146097 : Int) : ℚ) := by
  have h : ((z : ℚ) - 1867216.25) / 36524.25
      = ((4 * z - 7468865 : Int) : ℚ) / ((146097 : Nat) : ℚ) := by
    push_cast
    norm_num
    ring
  rw [h, floor_div_nat]
  norm_num

theorem floor_quarter (a : Int) : floor ((a : ℚ) / 4.0) = ((a / 4 : Int) : ℚ) := by
  have h : (a : ℚ) / 4.0 = ((a : Int) : ℚ) / ((4 : Nat) : ℚ) := by
    norm_num
  rw [h, floor_div_nat]
  norm_num

theorem floor_c (b : Int) :
    floor (((b : ℚ) - 122.1) / 365.25) = (((20 * b - 2442) / 7305 : Int) : ℚ) := by
  have h : ((b : ℚ) - 122.1) / 365.25 = ((20 * b - 2442 : Int) : ℚ) / ((7305 : Nat) : ℚ) := by
    push_cast
    norm_num
    ring
  rw [h, floor_div_nat]
  norm_num

theorem floor_365 (c : Int) : floor (365.25 * (c : ℚ)) = (((1461 * c) / 4 : Int) : ℚ) := by
  have h : 365.25 * (c : ℚ) = ((1461 * c : Int) : ℚ) / ((4 : Nat) : ℚ) := by
    push_cast
    norm_num
    ring
  rw [h, floor_div_nat]
  norm_num

theorem floor_e (x : Int) :
    floor ((x : ℚ) / 30.6001) = (((10000 * x) / 306001 : Int) : ℚ) := by
  have h : (x : ℚ) / 30.6001 = ((10000 * x : Int) : ℚ) / ((306001 : Nat) : ℚ) := by
    push_cast
    norm_num
    ring
  rw [h, floor_div_nat]
  norm_num

theorem floor_306 (e : Int) :
    floor (30.6001 * (e : ℚ)) = (((306001 * e) / 10000 : Int) : ℚ) := by
  have h : 30.6001 * (e : ℚ) = ((306001 * e : Int) : ℚ) / ((10000 : Nat) : ℚ) := by
    push_cast
    norm_num
    ring
  rw [h, floor_div_nat]
  norm_num

theorem truncToInt_int_add_fract (z : Int) (f : ℚ) (hz : 0 ≤ z) (hf0 : 0 ≤ f) (hf1 : f < 1) :
    truncToInt ((z : ℚ) + f) = z := by
  have h0 : (0 : ℚ) ≤ (z : ℚ) + f := by
    have : (0 : ℚ) ≤ (z : ℚ) := by exact_mod_cast hz
    linarith
  rw [truncToInt_of_nonneg h0, Int.floor_eq_iff]
  constructor <;> linarith

theorem truncToInt_sub_of_eq (e k : Int) (q : ℚ) (h : q = (k : ℚ)) :
    truncToInt ((e : ℚ) - q) = e - k := by
  rw [h, ← Int.cast_sub, truncToInt_intCast]

theorem floor_c_shift (a : Int) :
    floor (((a : ℚ) + 1524 - 122.1) / 365.25) =
      (((20 * (a + 1524) - 2442) / 7305 : Int) : ℚ) := by
  rw [← floor_c]
  push_cast
  rfl

theorem floor_e_shift (a d : Int) :
    floor (((a : ℚ) + 1524 - (d : ℚ)) / 30.6001) =
      (((10000 * (a + 1524 - d)) / 306001 : Int) : ℚ) := by
  rw [← floor_e]
  push_cast
  rfl

theorem intCast_lt_fourteen (e : Int) : ((e : ℚ) < 14) ↔ e < 14 := by
  exact_mod_cast Iff.rfl

theorem julian_date_to_cal_eq (z : Int) (f : ℚ) (hz : 0 ≤ z) (hf0 : 0 ≤ f) (hf1 : f < 1)
    (year month : Int) (day : ℚ) :
    julian_date_to_cal ((z : ℚ) + f - 1 / 2) year month day =
      (MeeusError_Success, (cal_of_day_number z).1, (cal_of_day_number z).2.1,
        (((cal_of_day_number z).2.2 : Int) : ℚ) + f) := by
  have hjd : (z : ℚ) + f - 1 / 2 + 0.5 = (z : ℚ) + f := by norm_num
  have ha : (if z < 2299161 then (z : ℚ)
      else (z : ℚ) + 1 + floor (((z : ℚ) - 1867216.25) / 36524.25) -
        floor (floor (((z : ℚ) - 1867216.25) / 36524.25) / 4.0)) =
      (((if z < 2299161 then z
        else z + 1 + (4 * z - 7468865) / 146097 - (4 * z - 7468865) / 146097 / 4 : Int)) : ℚ) := by
    split
    · rfl
    · rw [floor_alpha, floor_quarter]
      push_cast
      ring
  simp only [julian_date_to_cal, cal_of_day_number, cal_of_adjusted, gregorian_adjust, hjd, truncToInt_int_add_fract z f hz hf0 hf1, ha]
  generalize (if z < 2299161 then z
    else z + 1 + (4 * z - 7468865) / 146097 - (4 * z - 7468865) / 146097 / 4) = a
  simp only [floor_c_shift, floor_365, floor_e_shift, floor_306, intCast_lt_fourteen,
    truncToInt_sub_of_eq _ 1 1 (by norm_num), truncToInt_sub_of_eq _ 13 13 (by norm_num),
    truncToInt_sub_of_eq _ 4716 4716 (by norm_num), truncToInt_sub_of_eq _ 4715 4715 (by norm_num)]
  refine Prod.ext rfl (Prod.ext rfl (Prod.ext rfl ?_))
  simp only
  push_cast
  ring

theorem is_pre_gregorian_false_ge (Y M : Int) (d : ℚ) (h : is_pre_gregorian Y M d = false) :
    1582 ≤ Y := by
  unfold is_pre_gregorian at h
  by_contra hlt
  have h1 : ¬ Y > 1582 := by omega
  have h2 : Y < 1582 := by omega
  simp [h1, h2] at h

theorem gregorian_correction_eq (Y : Int) (hY : 0 ≤ Y) :
    truncToInt (((2 - truncToInt (floor ((Y.tdiv 100 : Int) : ℚ)) : Int) : ℚ) +
      floor (((truncToInt (floor ((Y.tdiv 100 : Int) : ℚ))).tdiv 4 : Int) : ℚ)) =
      2 - Y / 100 + Y / 100 / 4 := by
  have h100 : Y.tdiv 100 = Y / 100 := Int.tdiv_eq_ediv hY (by norm_num)
  have hA : 0 ≤ Y / 100 := by omega
  have h4 : (Y / 100).tdiv 4 = Y / 100 / 4 := Int.tdiv_eq_ediv hA (by norm_num)
  rw [h100, floor_intCast, truncToInt_intCast, h4, floor_intCast, ← Int.cast_add,
    truncToInt_intCast]

theorem cal_to_julian_date_eq (year month : Int) (day jd : ℚ) (hy : -4712 ≤ year)
    (hmiss : is_missing_gregorian_date year month day = false) :
    cal_to_julian_date year month day jd =
      Call.ret MeeusError_Success (((day_number_base year month day : Int) : ℚ) + day - 1524.5) := by
  have h1 : ¬ ¬ (year ≥ -4712) := by omega
  have h2 : ¬ (year < -4712 ∨ is_missing_gregorian_date year month day = true) := by
    rw [hmiss]
    simp
    omega
  have hY : (if month < 3 then (year - 1, month + 12) else (year, month)).1
      = shifted_year year month := by
    unfold shifted_year
    split <;> rfl
  have hM : (if month < 3 then (year - 1, month + 12) else (year, month)).2
      = shifted_month month := by
    unfold shifted_month
    split <;> rfl
  simp only [cal_to_julian_date, if_neg h1, if_neg h2, hY, hM, day_number_base, floor_365,
    floor_306]
  congr 1
  cases hpre : is_pre_gregorian (shifted_year year month) (shifted_month month) day
  · have hge := is_pre_gregorian_false_ge _ _ _ hpre
    simp only [Bool.false_eq_true, if_false]
    rw [gregorian_correction_eq _ (by omega)]
    push_cast
    ring
  · simp only [if_true]
    push_cast
    ring

theorem truncToInt_int_add (c : Int) (d : ℚ) (h : 0 ≤ (c : ℚ) + d) :
    truncToInt ((c : ℚ) + d) = c + Int.floor d := by
  rw [truncToInt_of_nonneg h, Int.floor_int_add]

theorem cal_to_day_of_year_eq (year month : Int) (day : ℚ) (s : Int) (hm : 0 ≤ month) :
    cal_to_day_of_year year month day s =
      (MeeusError_Success,
        truncToInt ((((275 * month) / 9 - (if is_leap year then 1 else 2) * ((month + 9) / 12)
          - 30 : Int) : ℚ) + day)) := by
  have h1 : (275 * month).tdiv 9 = (275 * month) / 9 :=
    Int.tdiv_eq_ediv (by omega) (by norm_num)
  have h2 : (month + 9).tdiv 12 = (month + 9) / 12 :=
    Int.tdiv_eq_ediv (by omega) (by norm_num)
  simp only [cal_to_day_of_year, h1, h2, floor_intCast]
  congr 2
  push_cast
  ring

theorem is_leap_1582 : is_leap 1582 = false := by decide

theorem is_pre_gregorian_1582 (M : Int) (day : ℚ) (hM : 3 ≤ M) (hM' : M ≤ 14)
    (hd : 1 ≤ day) (hd' : day < 32) :
    is_pre_gregorian 1582 M day = true ↔ (M < 10 ∨ (M = 10 ∧ day < 15)) := by
  have hfl1 : 1 ≤ Int.floor day := Int.le_floor.mpr (by exact_mod_cast hd)
  have hfl2 : Int.floor day < 32 := Int.floor_lt.mpr (by exact_mod_cast hd')
  have hfl15 : Int.floor day < 15 ↔ day < 15 := by
    rw [Int.floor_lt]
    norm_num
  simp only [is_pre_gregorian, gt_iff_lt, lt_irrefl, if_false,
    cal_to_day_of_year_eq 1582 10 15 0 (by norm_num),
    cal_to_day_of_year_eq 1582 M day 0 (by omega), is_leap_1582, decide_eq_true_eq]
  have h15 : truncToInt ((((275 * 10) / 9 - (if false = true then 1 else 2) * ((10 + 9) / 12)
          - 30 : Int) : ℚ) + 15) = 288 := by
    norm_num [truncToInt]
  have hc : (0 : Int) ≤ (275 * M) / 9 - (if false = true then 1 else 2) * ((M + 9) / 12) - 30 := by
    simp only [Bool.false_eq_true, if_false]
    omega
  have hc' : (0 : ℚ) ≤ (((275 * M) / 9 - (if false = true then 1 else 2) * ((M + 9) / 12)
      - 30 : Int) : ℚ) + day := by
    have : (0 : ℚ) ≤ (((275 * M) / 9 - (if false = true then 1 else 2) * ((M + 9) / 12)
      - 30 : Int) : ℚ) := by exact_mod_cast hc
    linarith
  rw [h15, truncToInt_int_add _ _ hc']
  simp only [Bool.false_eq_true, if_false]
  rw [← hfl15]
  omega

theorem is_pre_gregorian_shifted (year month : Int) (day : ℚ) (hm : 1 ≤ month) (hm' : month ≤ 12)
    (hd : 1 ≤ day) (hd' : day < 32) :
    is_pre_gregorian (shifted_year year month) (shifted_month month) day = true ↔
      (year < 1582 ∨ (year = 1582 ∧ (month < 10 ∨ (month = 10 ∧ day < 15)))) := by
  rcases lt_trichotomy (shifted_year year month) 1582 with h | h | h
  · have hpre : is_pre_gregorian (shifted_year year month) (shifted_month month) day = true := by
      have h1 : ¬ shifted_year year month > 1582 := by omega
      simp [is_pre_gregorian, h1, h]
    unfold shifted_year at h
    simp only [hpre, true_iff]
    split at h <;> omega
  · have hM : 3 ≤ shifted_month month ∧ shifted_month month ≤ 14 := by
      unfold shifted_month
      split <;> omega
    rw [h, is_pre_gregorian_1582 _ day hM.1 hM.2 hd hd']
    unfold shifted_year at h
    unfold shifted_month
    split at h
    · rename_i hlt
      simp only [hlt, if_true]
      constructor
      · intro hh
        omega
      · intro hh
        omega
    · rename_i hlt
      simp only [hlt, if_false, h, lt_irrefl, false_or, true_and]
  · have hpre : is_pre_gregorian (shifted_year year month) (shifted_month month) day = false := by
      simp [is_pre_gregorian, h]
    unfold shifted_year at h
    simp only [hpre, Bool.false_eq_true, false_iff]
    split at h <;> omega

theorem days_in_month_eq (year month s : Int) (hm : 1 ≤ month) (hm' : month ≤ 12) :
    days_in_month year month s =
      (MeeusError_Success,
        if month = 2 then (if is_leap year then 29 else 28)
        else if month = 4 ∨ month = 6 ∨ month = 9 ∨ month = 11 then 30 else 31) := by
  interval_cases month <;> simp [days_in_month, DAYS_IN_MONTH]

theorem is_leap_iff (year : Int) :
    is_leap year = true ↔
      (year < 1582 ∧ (4 : Int) ∣ year) ∨
      (year ≥ 1582 ∧ (((4 : Int) ∣ year ∧ ¬ (100 : Int) ∣ year) ∨ (400 : Int) ∣ year)) := by
  unfold is_leap is_julian_leap is_gregorian_leap
  split
  · simp [← Int.dvd_iff_tmod_eq_zero]; omega
  · simp [← Int.dvd_iff_tmod_eq_zero]; omega

theorem cal_of_adjusted_eq (Y M n : Int) (hY : -4713 ≤ Y) (hM : 3 ≤ M) (hM' : M ≤ 14)
    (hn : 1 ≤ n) (hn31 : n ≤ 31) (hn30 : M = 4 ∨ M = 6 ∨ M = 9 ∨ M = 11 → n ≤ 30)
    (hfeb : M = 14 → n ≤ 29 ∧ (n = 29 → (Y + 1) % 4 = 0)) :
    cal_of_adjusted ((1461 * (Y + 4716)) / 4 + (306001 * (M + 1)) / 10000 + n - 1524) =
      (if M > 12 then Y + 1 else Y, if M > 12 then M - 12 else M, n) := by
  unfold cal_of_adjusted
  have hc : (20 * ((1461 * (Y + 4716)) / 4 + (306001 * (M + 1)) / 10000 + n - 1524 + 1524)
      - 2442) / 7305 = Y + 4716 := by
    interval_cases M <;> omega
  simp only [hc]
  have he : (10000 * ((1461 * (Y + 4716)) / 4 + (306001 * (M + 1)) / 10000 + n - 1524 + 1524
      - (1461 * (Y + 4716)) / 4)) / 306001 = M + 1 := by
    interval_cases M <;> omega
  simp only [he]
  interval_cases M <;> simp <;> omega

theorem gregorian_adjust_of_lt (z : Int) (h : z < 2299161) : gregorian_adjust z = z := by
  simp [gregorian_adjust, h]

theorem greg_alpha_feb (Y n : Int) (hY : 1582 ≤ Y) (hn : 1 ≤ n) (hn29 : n ≤ 29)
    (hfeb : n = 29 → ((Y + 1) % 4 = 0 ∧ (Y + 1) % 100 ≠ 0) ∨ (Y + 1) % 400 = 0) :
    (4 * ((1461 * (Y + 4716)) / 4 + 459 + n + (2 - Y / 100 + (Y / 100) / 4) - 1524) - 7468865)
      / 146097 = Y / 100 - 4 := by
  have h1 : Y % 4 = 0 ∨ Y % 4 = 1 ∨ Y % 4 = 2 ∨ Y % 4 = 3 := by omega
  have h2 : (Y / 100) % 4 = 0 ∨ (Y / 100) % 4 = 1 ∨ (Y / 100) % 4 = 2 ∨ (Y / 100) % 4 = 3 := by
    omega
  have h3 : Y % 100 = 99 ∨ Y % 100 ≤ 98 := by omega
  rcases h1 with h1 | h1 | h1 | h1 <;>
    rcases h2 with h2 | h2 | h2 | h2 <;> rcases h3 with h3 | h3 <;> omega

theorem greg_alpha_other (Y M n : Int) (hY : 1582 ≤ Y) (hM : 3 ≤ M) (hM' : M ≤ 13) (hn : 1 ≤ n)
    (hn31 : n ≤ 31) (hn30 : M = 4 ∨ M = 6 ∨ M = 9 ∨ M = 11 → n ≤ 30) :
    (4 * ((1461 * (Y + 4716)) / 4 + (306001 * (M + 1)) / 10000 + n +
      (2 - Y / 100 + (Y / 100) / 4) - 1524) - 7468865) / 146097 = Y / 100 - 4 := by
  have h1 : Y % 4 = 0 ∨ Y % 4 = 1 ∨ Y % 4 = 2 ∨ Y % 4 = 3 := by omega
  have h2 : (Y / 100) % 4 = 0 ∨ (Y / 100) % 4 = 1 ∨ (Y / 100) % 4 = 2 ∨ (Y / 100) % 4 = 3 := by
    omega
  interval_cases M
  · rcases h1 with h1 | h1 | h1 | h1 <;> rcases h2 with h2 | h2 | h2 | h2 <;> omega
  all_goals omega

theorem gregorian_adjust_eq (Y M n : Int) (hY : 1582 ≤ Y) (hM : 3 ≤ M) (hM' : M ≤ 14)
    (hn : 1 ≤ n) (hn31 : n ≤ 31) (hn30 : M = 4 ∨ M = 6 ∨ M = 9 ∨ M = 11 → n ≤ 30)
    (hfeb : M = 14 → n ≤ 29 ∧
      (n = 29 → ((Y + 1) % 4 = 0 ∧ (Y + 1) % 100 ≠ 0) ∨ (Y + 1) % 400 = 0))
    (hge : 2299161 ≤ (1461 * (Y + 4716)) / 4 + (306001 * (M + 1)) / 10000 + n +
      (2 - Y / 100 + (Y / 100) / 4) - 1524) :
    gregorian_adjust ((1461 * (Y + 4716)) / 4 + (306001 * (M + 1)) / 10000 + n +
      (2 - Y / 100 + (Y / 100) / 4) - 1524) =
      (1461 * (Y + 4716)) / 4 + (306001 * (M + 1)) / 10000 + n - 1524 := by
  have halpha : (4 * ((1461 * (Y + 4716)) / 4 + (306001 * (M + 1)) / 10000 + n +
      (2 - Y / 100 + (Y / 100) / 4) - 1524) - 7468865) / 146097 = Y / 100 - 4 := by
    by_cases h14 : M = 14
    · subst h14
      have := greg_alpha_feb Y n hY hn (hfeb rfl).1 (hfeb rfl).2
      simpa using this
    · exact greg_alpha_other Y M n hY hM (by omega) hn hn31 hn30
  unfold gregorian_adjust
  rw [if_neg (by omega)]
  simp only [halpha]
  omega

theorem shifted_bounds (year month : Int) (hm : 1 ≤ month) (hm' : month ≤ 12) :
    3 ≤ shifted_month month ∧ shifted_month month ≤ 14 ∧
    (if shifted_month month > 12 then shifted_year year month + 1 else shifted_year year month)
      = year ∧
    (if shifted_month month > 12 then shifted_month month - 12 else shifted_month month)
      = month ∧
    (shifted_month month = 14 ↔ month = 2) ∧
    (shifted_month month = 4 ∨ shifted_month month = 6 ∨ shifted_month month = 9 ∨
      shifted_month month = 11 ↔ month = 4 ∨ month = 6 ∨ month = 9 ∨ month = 11) ∧
    (shifted_year year month = year ∨ (shifted_year year month = year - 1 ∧ month < 3)) ∧
    (month < 3 → shifted_year year month = year - 1 ∧ shifted_month month = month + 12) ∧
    (¬ month < 3 → shifted_year year month = year ∧ shifted_month month = month) := by
  have key : (month < 3 ∧ shifted_year year month = year - 1 ∧
        shifted_month month = month + 12) ∨
      (¬ month < 3 ∧ shifted_year year month = year ∧ shifted_month month = month) := by
    unfold shifted_year shifted_month
    by_cases h : month < 3
    · left
      exact ⟨h, if_pos h, if_pos h⟩
    · right
      exact ⟨h, if_neg h, if_neg h⟩
  generalize shifted_year year month = Y at key ⊢
  generalize shifted_month month = M at key ⊢
  refine ⟨by omega, by omega, ?_, ?_, ⟨fun _ => by omega, fun _ => by omega⟩,
      ⟨fun _ => by omega, fun _ => by omega⟩, by omega, fun _ => by omega, fun _ => by omega⟩
  · split <;> omega
  · split <;> omega

theorem day_number_lt_transition (Y M n : Int) (hM : 3 ≤ M) (hM' : M ≤ 14) (hn31 : n ≤ 31)
    (h : Y < 1582 ∨ (Y = 1582 ∧ (M < 10 ∨ (M = 10 ∧ n < 5)))) :
    (1461 * (Y + 4716)) / 4 + (306001 * (M + 1)) / 10000 + n - 1524 < 2299161 := by
  interval_cases M <;> omega

theorem day_number_ge_transition (Y M n : Int) (hM : 3 ≤ M) (hM' : M ≤ 14) (hn : 1 ≤ n)
    (h : 1582 < Y ∨ (Y = 1582 ∧ (10 < M ∨ (M = 10 ∧ 15 ≤ n)))) :
    2299161 ≤ (1461 * (Y + 4716)) / 4 + (306001 * (M + 1)) / 10000 + n +
      (2 - Y / 100 + (Y / 100) / 4) - 1524 := by
  interval_cases M <;> omega

theorem is_leap_mod_four (year : Int) (h : is_leap year = true) : year % 4 = 0 := by
  have := (is_leap_iff year).mp h
  omega

theorem is_leap_gregorian_mod (year : Int) (hy : 1582 ≤ year) (h : is_leap year = true) :
    (year % 4 = 0 ∧ year % 100 ≠ 0) ∨ year % 400 = 0 := by
  have := (is_leap_iff year).mp h
  omega

theorem cal_of_day_number_julian (Y M n : Int) (hY : -4713 ≤ Y) (hM : 3 ≤ M) (hM' : M ≤ 14)
    (hn : 1 ≤ n) (hn31 : n ≤ 31) (hn30 : M = 4 ∨ M = 6 ∨ M = 9 ∨ M = 11 → n ≤ 30)
    (hfeb : M = 14 → n ≤ 29 ∧ (n = 29 → (Y + 1) % 4 = 0))
    (h : Y < 1582 ∨ (Y = 1582 ∧ (M < 10 ∨ (M = 10 ∧ n < 5)))) :
    cal_of_day_number ((1461 * (Y + 4716)) / 4 + (306001 * (M + 1)) / 10000 + n - 1524) =
      (if M > 12 then Y + 1 else Y, if M > 12 then M - 12 else M, n) := by
  unfold cal_of_day_number
  rw [gregorian_adjust_of_lt _ (day_number_lt_transition Y M n hM hM' hn31 h),
    cal_of_adjusted_eq Y M n hY hM hM' hn hn31 hn30 hfeb]

theorem cal_of_day_number_gregorian (Y M n : Int) (hM : 3 ≤ M) (hM' : M ≤ 14)
    (hn : 1 ≤ n) (hn31 : n ≤ 31) (hn30 : M = 4 ∨ M = 6 ∨ M = 9 ∨ M = 11 → n ≤ 30)
    (hfeb : M = 14 → n ≤ 29 ∧
      (n = 29 → ((Y + 1) % 4 = 0 ∧ (Y + 1) % 100 ≠ 0) ∨ (Y + 1) % 400 = 0))
    (h : 1582 < Y ∨ (Y = 1582 ∧ (10 < M ∨ (M = 10 ∧ 15 ≤ n)))) :
    cal_of_day_number ((1461 * (Y + 4716)) / 4 + (306001 * (M + 1)) / 10000 + n +
      (2 - Y / 100 + (Y / 100) / 4) - 1524) =
      (if M > 12 then Y + 1 else Y, if M > 12 then M - 12 else M, n) := by
  have hY : 1582 ≤ Y := by omega
  have hfeb4 : M = 14 → n ≤ 29 ∧ (n = 29 → (Y + 1) % 4 = 0) := by
    intro h14
    refine ⟨(hfeb h14).1, fun h29 => ?_⟩
    have := (hfeb h14).2 h29
    omega
  unfold cal_of_day_number
  rw [gregorian_adjust_eq Y M n hY hM hM' hn hn31 hn30 hfeb
      (day_number_ge_transition Y M n hM hM' hn h),
    cal_of_adjusted_eq Y M n (by omega) hM hM' hn hn31 hn30 hfeb4]

theorem cal_of_day_number_eq (year month n L : Int) (pre : Bool)
    (hy : -4712 ≤ year) (hm : 1 ≤ month) (hm' : month ≤ 12)
    (hL : L = if month = 2 then (if is_leap year then 29 else 28)
        else if month = 4 ∨ month = 6 ∨ month = 9 ∨ month = 11 then 30 else 31)
    (hn : 1 ≤ n) (hnL : n ≤ L)
    (hpre : pre = true ↔
      (year < 1582 ∨ (year = 1582 ∧ (month < 10 ∨ (month = 10 ∧ n < 15)))))
    (hgap : ¬ (year = 1582 ∧ month = 10 ∧ 5 ≤ n ∧ n < 15)) :
    cal_of_day_number
      ((1461 * (shifted_year year month + 4716)) / 4 +
        (306001 * (shifted_month month + 1)) / 10000 +
        (if pre = true then 0
          else 2 - shifted_year year month / 100 + shifted_year year month / 100 / 4) + n - 1524)
      = (year, month, n) := by
  obtain ⟨hM3, hM14, hyear, hmonth, hfebM, h30M, hYy, hlt3, hge3⟩ :=
    shifted_bounds year month hm hm'
  generalize shifted_year year month = Y at *
  generalize shifted_month month = M at *
  have hn31 : n ≤ 31 := by
    rw [hL] at hnL
    split at hnL
    · split at hnL <;> omega
    · split at hnL <;> omega
  have hn30 : M = 4 ∨ M = 6 ∨ M = 9 ∨ M = 11 → n ≤ 30 := by
    intro h
    have h' := h30M.mp h
    have h2 : ¬ month = 2 := by
      clear hpre hgap hL hnL
      omega
    rw [hL, if_neg h2, if_pos h'] at hnL
    exact hnL
  have hfeb29 : M = 14 → n ≤ 29 ∧ (n = 29 → is_leap year = true) := by
    intro h
    have h' := hfebM.mp h
    rw [hL, if_pos h'] at hnL
    by_cases hl : is_leap year = true
    · rw [if_pos hl] at hnL
      exact ⟨hnL, fun _ => hl⟩
    · rw [if_neg hl] at hnL
      exact ⟨by omega, fun h29 => by omega⟩
  have hY1 : M = 14 → Y + 1 = year := by
    intro h
    have h2 := hfebM.mp h
    have := (hlt3 (by omega)).1
    omega
  clear hL hnL h30M
  cases pre
  · -- Gregorian calendar
    have hnb : ¬ (year < 1582 ∨ (year = 1582 ∧ (month < 10 ∨ (month = 10 ∧ n < 15)))) := by
      intro h
      have := hpre.mpr h
      simp at this
    clear hpre
    have hfebG : M = 14 → n ≤ 29 ∧
        (n = 29 → ((Y + 1) % 4 = 0 ∧ (Y + 1) % 100 ≠ 0) ∨ (Y + 1) % 400 = 0) := by
      intro h
      refine ⟨(hfeb29 h).1, fun h29 => ?_⟩
      rw [hY1 h]
      have hyr : 1582 ≤ year := by
        clear hfeb29 hn30
        omega
      exact is_leap_gregorian_mod year hyr ((hfeb29 h).2 h29)
    have hcase : 1582 < Y ∨ (Y = 1582 ∧ (10 < M ∨ (M = 10 ∧ 15 ≤ n))) := by
      clear hfeb29 hn30 hfebG hY1
      by_cases h3 : month < 3
      · have h3' := hlt3 h3
        omega
      · have h3' := hge3 h3
        omega
    have hz : (1461 * (Y + 4716)) / 4 + (306001 * (M + 1)) / 10000 +
        (2 - Y / 100 + Y / 100 / 4) + n - 1524
        = (1461 * (Y + 4716)) / 4 + (306001 * (M + 1)) / 10000 + n +
        (2 - Y / 100 + Y / 100 / 4) - 1524 := by ring
    simp only [Bool.false_eq_true, if_false]
    rw [hz, cal_of_day_number_gregorian Y M n hM3 hM14 hn hn31 hn30 hfebG hcase, hyear, hmonth]
  · -- Julian calendar
    have hb := hpre.mp rfl
    clear hpre
    have hfebJ : M = 14 → n ≤ 29 ∧ (n = 29 → (Y + 1) % 4 = 0) := by
      intro h
      refine ⟨(hfeb29 h).1, fun h29 => ?_⟩
      rw [hY1 h]
      exact is_leap_mod_four year ((hfeb29 h).2 h29)
    have hcase : Y < 1582 ∨ (Y = 1582 ∧ (M < 10 ∨ (M = 10 ∧ n < 5))) := by
      clear hfeb29 hn30 hfebJ hY1
      by_cases h3 : month < 3
      · have h3' := hlt3 h3
        omega
      · have h3' := hge3 h3
        omega
    have hYge : -4713 ≤ Y := by
      clear hfeb29 hn30 hfebJ hY1 hcase
      omega
    have hz : (1461 * (Y + 4716)) / 4 + (306001 * (M + 1)) / 10000 + 0 + n - 1524
        = (1461 * (Y + 4716)) / 4 + (306001 * (M + 1)) / 10000 + n - 1524 := by ring
    simp only [if_true]
    rw [hz, cal_of_day_number_julian Y M n hYge hM3 hM14 hn hn31 hn30 hfebJ hcase, hyear, hmonth]

theorem is_missing_false_of_not_gap (year month : Int) (day : ℚ)
    (h : ¬ (year = 1582 ∧ month = 10 ∧ 5 ≤ day ∧ day ≤ 14)) :
    is_missing_gregorian_date year month day = false := by
  unfold is_missing_gregorian_date
  rw [if_neg]
  intro hc
  simp only [Bool.and_eq_true, beq_iff_eq, decide_eq_true_eq, ge_iff_le] at hc
  exact h ⟨hc.1.1, hc.1.2, hc.2.1, hc.2.2⟩

/-- Round trip calendar -> Julian Date -> calendar in exact arithmetic: for a
date that exists and whose Julian Date is not negative, the exact reading of
`julian_date_to_cal` inverts the exact reading of `cal_to_julian_date`. -/
theorem round_trip_exact (year month : Int) (day jd jd0 : ℚ) (L s y0 m0 : Int) (d0 : ℚ)
    (hy : -4712 ≤ year) (hm : 1 ≤ month) (hm' : month ≤ 12)
    (hL : days_in_month year month s = (MeeusError_Success, L))
    (hd : 1 ≤ day) (hd' : day < (L : ℚ) + 1)
    (hgap : ¬ (year = 1582 ∧ month = 10 ∧ 5 ≤ day ∧ day < 15))
    (hjd : cal_to_julian_date year month day jd0 = Call.ret MeeusError_Success jd)
    (hpos : 0 ≤ jd) :
    julian_date_to_cal jd y0 m0 d0 = (MeeusError_Success, year, month, day) := by
  rw [days_in_month_eq year month s hm hm'] at hL
  have hL' : L = if month = 2 then (if is_leap year then 29 else 28)
        else if month = 4 ∨ month = 6 ∨ month = 9 ∨ month = 11 then 30 else 31 :=
    (Prod.mk.inj hL).2.symm
  have hL31 : L ≤ 31 := by
    rw [hL']
    split
    · split <;> omega
    · split <;> omega
  have hd32 : day < 32 := by
    have : (L : ℚ) ≤ 31 := by exact_mod_cast hL31
    linarith
  have hmiss : is_missing_gregorian_date year month day = false :=
    is_missing_false_of_not_gap year month day
      (fun h => hgap ⟨h.1, h.2.1, h.2.2.1, by linarith [h.2.2.2]⟩)
  rw [cal_to_julian_date_eq year month day jd0 hy hmiss] at hjd
  have hjdv : jd = ((day_number_base year month day : Int) : ℚ) + day - 1524.5 :=
    (Call.ret.inj hjd).2.symm
  have hfl : ((Int.floor day : Int) : ℚ) ≤ day := Int.floor_le day
  have hfl' : day < ((Int.floor day : Int) : ℚ) + 1 := Int.lt_floor_add_one day
  have hn1 : 1 ≤ Int.floor day := Int.le_floor.mpr (by exact_mod_cast hd)
  have hnL : Int.floor day ≤ L := by
    have : Int.floor day < L + 1 := Int.floor_lt.mpr (by exact_mod_cast hd')
    omega
  have hjd2 : jd = ((day_number_base year month day + Int.floor day - 1524 : Int) : ℚ) +
      (day - ((Int.floor day : Int) : ℚ)) - 1 / 2 := by
    have h15 : (1524.5 : ℚ) = 1524 + 1 / 2 := by norm_num
    rw [hjdv, h15]
    push_cast
    ring
  have hz0 : 0 ≤ day_number_base year month day + Int.floor day - 1524 := by
    have h1 : (-1 : ℚ) <
        ((day_number_base year month day + Int.floor day - 1524 : Int) : ℚ) := by
      rw [hjd2] at hpos
      linarith
    have h2 : (-1 : Int) < day_number_base year month day + Int.floor day - 1524 := by
      exact_mod_cast h1
    omega
  have hpre : is_pre_gregorian (shifted_year year month) (shifted_month month) day = true ↔
      (year < 1582 ∨ (year = 1582 ∧ (month < 10 ∨ (month = 10 ∧ Int.floor day < 15)))) := by
    rw [is_pre_gregorian_shifted year month day hm hm' hd hd32, Int.floor_lt]
    norm_num
  have hgapn : ¬ (year = 1582 ∧ month = 10 ∧ 5 ≤ Int.floor day ∧ Int.floor day < 15) := by
    rw [Int.floor_lt, Int.le_floor]
    norm_num
    intro h1 h2 h3
    have := hgap
    simp only [h1, h2, h3, true_and, not_lt] at this
    exact this
  have hcal := cal_of_day_number_eq year month (Int.floor day) L
    (is_pre_gregorian (shifted_year year month) (shifted_month month) day)
    hy hm hm' hL' hn1 hnL hpre hgapn
  have hzeq : day_number_base year month day + Int.floor day - 1524 =
      (1461 * (shifted_year year month + 4716)) / 4 +
        (306001 * (shifted_month month + 1)) / 10000 +
        (if is_pre_gregorian (shifted_year year month) (shifted_month month) day = true then 0
          else 2 - shifted_year year month / 100 + shifted_year year month / 100 / 4) +
        Int.floor day - 1524 := by
    simp only [day_number_base]
  rw [hjd2, julian_date_to_cal_eq _ _ hz0 (by linarith) (by linarith), hzeq, hcal]
  simp

theorem intFloor_365 (c : Int) : Int.floor (365.25 * (c : ℚ)) = (1461 * c) / 4 := by
  have h := floor_365 c
  unfold floor at h
  exact_mod_cast h

theorem intFloor_306 (e : Int) : Int.floor (30.6001 * (e : ℚ)) = (306001 * e) / 10000 := by
  have h := floor_306 e
  unfold floor at h
  exact_mod_cast h

theorem intFloor_div_hundred (Y : Int) : Int.floor ((Y : ℚ) / 100) = Y / 100 := by
  have h := Rat.floor_intCast_div_natCast Y 100
  simpa using h

theorem intFloor_div_four (A : Int) : Int.floor ((A : ℚ) / 4) = A / 4 := by
  have h := Rat.floor_intCast_div_natCast A 4
  simpa using h

theorem reference_julian_date_eq (year month : Int) (day : ℚ) (hm : 1 ≤ month)
    (hm' : month ≤ 12) (hd : 1 ≤ day) (hd' : day < 32) :
    reference_julian_date year month day =
      ((day_number_base year month day : Int) : ℚ) + day - 1524.5 := by
  have hpre := is_pre_gregorian_shifted year month day hm hm' hd hd'
  have hfl : Int.floor day < 15 ↔ day < 15 := by
    rw [Int.floor_lt]
    norm_num
  have hY : (if month < 3 then year - 1 else year) = shifted_year year month := rfl
  have hM : (if month < 3 then month + 12 else month) = shifted_month month := rfl
  have h1 : ((shifted_year year month : Int) : ℚ) + 4716
      = ((shifted_year year month + 4716 : Int) : ℚ) := by push_cast; ring
  have h2 : ((shifted_month month : Int) : ℚ) + 1
      = ((shifted_month month + 1 : Int) : ℚ) := by push_cast; ring
  simp only [reference_julian_date, day_number_base, hY, hM, h1, h2, intFloor_365, intFloor_306,
    intFloor_div_hundred, intFloor_div_four, hfl, ← hpre]
  cases is_pre_gregorian (shifted_year year month) (shifted_month month) day
  · simp only [Bool.false_eq_true, if_false]
    push_cast
    ring
  · simp only [if_true]
    push_cast
    ring

/-- In exact arithmetic `cal_to_julian_date` equals `reference_julian_date` on
every date from year -4712 on with 1 <= day < 32 that is not missing. -/
theorem reference_formula_exact (year month : Int) (day jd : ℚ)
    (hy : -4712 ≤ year) (hm : 1 ≤ month) (hm' : month ≤ 12) (hd : 1 ≤ day) (hd' : day < 32)
    (hmiss : ¬ (year = 1582 ∧ month = 10 ∧ 5 ≤ day ∧ day ≤ 14)) :
    cal_to_julian_date year month day jd =
      Call.ret MeeusError_Success (reference_julian_date year month day) := by
  rw [cal_to_julian_date_eq year month day jd hy (is_missing_false_of_not_gap _ _ _ hmiss),
    reference_julian_date_eq year month day hm hm' hd hd']

theorem is_missing_true_of_gap (year month : Int) (day : ℚ)
    (h : year = 1582 ∧ month = 10 ∧ 5 ≤ day ∧ day ≤ 14) :
    is_missing_gregorian_date year month day = true := by
  unfold is_missing_gregorian_date
  rw [if_pos]
  simp only [Bool.and_eq_true, beq_iff_eq, decide_eq_true_eq, ge_iff_le]
  exact ⟨⟨h.1, h.2.1⟩, h.2.2.1, h.2.2.2⟩

theorem cal_to_julian_date_missing (year month : Int) (day jd : ℚ) (hy : -4712 ≤ year)
    (hmiss : is_missing_gregorian_date year month day = true) :
    cal_to_julian_date year month day jd = Call.ret MeeusError_InvalidDate jd := by
  have h1 : ¬ ¬ (year ≥ -4712) := by omega
  simp only [cal_to_julian_date, if_neg h1, hmiss, or_true, if_true]

/-- C4: at year -4713 (below the floor -4712) `cal_to_julian_date` does not
return `MeeusError_InvalidDate`: the assertion `year >= -4712` fails first and
the run is aborted, so no status reaches the caller. -/
theorem C4_year_floor_aborts :
    cal_to_julian_date (-4713) 1 1 0 = Call.abort ∧
    (cal_to_julian_date (-4713) 1 1 0).status ≠ some MeeusError_InvalidDate := by
  have h : cal_to_julian_date (-4713) 1 1 0 = Call.abort := by
    simp [cal_to_julian_date]
  rw [h]
  exact ⟨rfl, by simp [Call.status]⟩

/-- C5: `day_of_year_to_cal` rejects day 366 of the leap years 2000, 0 and
1000 with `MeeusError_InvalidDate`, and leaves the caller's slots as they
were. -/
theorem C5_leap_day_366_rejected :
    is_leap 2000 = true ∧ is_leap 0 = true ∧ is_leap 1000 = true ∧
    day_of_year_to_cal 2000 366 0 0 = (MeeusError_InvalidDate, 0, 0) ∧
    day_of_year_to_cal 0 366 0 0 = (MeeusError_InvalidDate, 0, 0) ∧
    day_of_year_to_cal 1000 366 0 0 = (MeeusError_InvalidDate, 0, 0) := by
  decide

/-- C6: 31 December 2000 is day 366 of its year for `cal_to_day_of_year`, but
`day_of_year_to_cal 2000 366` does not succeed, so the inverse is not
produced. -/
theorem C6_inverse_fails_at_366 :
    (cal_to_day_of_year 2000 12 31 0) = (MeeusError_Success, 366) ∧
    (day_of_year_to_cal 2000 366 0 0).1 = MeeusError_InvalidDate := by
  refine ⟨?_, by decide⟩
  rw [cal_to_day_of_year_eq 2000 12 31 0 (by norm_num)]
  have hl : is_leap 2000 = true := by decide
  simp only [hl, if_true]
  norm_num [truncToInt]

/-- C7: leap-year law. `is_leap year` holds if and only if (year < 1582 and
4 divides year) or (year >= 1582 and ((4 divides year and 100 does not divide
year) or 400 divides year)); 1000, 0 and 2000 are leap, 1700 and 1800 are
common. -/
theorem C7_leap_year_law :
    (∀ year : Int, is_leap year = true ↔
      (year < 1582 ∧ (4 : Int) ∣ year) ∨
      (year ≥ 1582 ∧ (((4 : Int) ∣ year ∧ ¬ (100 : Int) ∣ year) ∨ (400 : Int) ∣ year))) ∧
    is_leap 1000 = true ∧ is_leap 0 = true ∧ is_leap 2000 = true ∧
    is_leap 1700 = false ∧ is_leap 1800 = false :=
  ⟨is_leap_iff, by decide, by decide, by decide, by decide, by decide⟩

theorem days_before_month_eq (year month : Int) (hm : 1 ≤ month) (hm' : month ≤ 12) :
    days_before_month year month =
      (275 * month) / 9 - (if is_leap year then 1 else 2) * ((month + 9) / 12) - 30 := by
  unfold days_before_month
  interval_cases month <;>
    cases hl : is_leap year <;>
    simp [List.range_succ, days_in_month, DAYS_IN_MONTH, hl]

/-- C8: `cal_to_day_of_year` returns the 1-based ordinal position of the date
in its year. For every year, month in 1..12 and whole day d with
1 <= d <= days_in_month(year, month), the result is d plus the sum of
days_in_month(year, i) for i = 1..month-1, and it lies in [1,365], or [1,366]
when `is_leap year`. -/
theorem C8_day_of_year_ordinal (year month d L s t : Int)
    (hm : 1 ≤ month) (hm' : month ≤ 12)
    (hL : days_in_month year month t = (MeeusError_Success, L))
    (hd : 1 ≤ d) (hd' : d ≤ L) :
    cal_to_day_of_year year month (d : ℚ) s =
      (MeeusError_Success, d + days_before_month year month) ∧
    1 ≤ d + days_before_month year month ∧
    d + days_before_month year month ≤ (if is_leap year then 366 else 365) := by
  rw [days_in_month_eq year month t hm hm'] at hL
  have hL' := (Prod.mk.inj hL).2
  rw [cal_to_day_of_year_eq year month (d : ℚ) s (by omega),
    days_before_month_eq year month hm hm', ← Int.cast_add, truncToInt_intCast]
  refine ⟨by rw [add_comm], ?_, ?_⟩
  · interval_cases month <;> cases is_leap year <;> simp <;> omega
  · interval_cases month <;> cases hl : is_leap year <;> simp [hl] at hL' ⊢ <;> omega

theorem C8_day_of_year_ordinal_witness :
    cal_to_day_of_year 1978 11 14 0 = (MeeusError_Success, 318) ∧
    cal_to_day_of_year 1988 4 22 0 = (MeeusError_Success, 113) ∧
    cal_to_day_of_year 2000 12 31 0 = (MeeusError_Success, 366) ∧
    cal_to_day_of_year 1700 12 31 0 = (MeeusError_Success, 365) := by
  have h1 := (C8_day_of_year_ordinal 1978 11 14 30 0 0 (by decide) (by decide) (by decide)
    (by decide) (by decide)).1
  have h2 := (C8_day_of_year_ordinal 1988 4 22 30 0 0 (by decide) (by decide) (by decide)
    (by decide) (by decide)).1
  have h3 := (C8_day_of_year_ordinal 2000 12 31 31 0 0 (by decide) (by decide) (by decide)
    (by decide) (by decide)).1
  have h4 := (C8_day_of_year_ordinal 1700 12 31 31 0 0 (by decide) (by decide) (by decide)
    (by decide) (by decide)).1
  have d1 : (14 : Int) + days_before_month 1978 11 = 318 := by decide
  have d2 : (22 : Int) + days_before_month 1988 4 = 113 := by decide
  have d3 : (31 : Int) + days_before_month 2000 12 = 366 := by decide
  have d4 : (31 : Int) + days_before_month 1700 12 = 365 := by decide
  rw [d1] at h1
  rw [d2] at h2
  rw [d3] at h3
  rw [d4] at h4
  exact ⟨by simpa using h1, by simpa using h2, by simpa using h3, by simpa using h4⟩

theorem cal_to_julian_date_success (year month : Int) (day s jd : ℚ)
    (h : cal_to_julian_date year month day s = Call.ret MeeusError_Success jd) :
    -4712 ≤ year ∧ is_missing_gregorian_date year month day = false ∧
      jd = ((day_number_base year month day : Int) : ℚ) + day - 1524.5 := by
  by_cases hy : -4712 ≤ year
  · cases hmiss : is_missing_gregorian_date year month day
    · rw [cal_to_julian_date_eq year month day s hy hmiss] at h
      exact ⟨hy, rfl, (Call.ret.inj h).2.symm⟩
    · rw [cal_to_julian_date_missing year month day s hy hmiss] at h
      exact absurd (Call.ret.inj h).1 (by decide)
  · have h1 : ¬ (year ≥ -4712) := hy
    simp only [cal_to_julian_date, if_pos h1] at h
    cases h

theorem truncToInt_sub_half (K : Int) :
    truncToInt ((K : ℚ) - 1 / 2) = if 1 ≤ K then K - 1 else K := by
  unfold truncToInt
  by_cases hK : 1 ≤ K
  · have h1 : (1 : ℚ) ≤ (K : ℚ) := by exact_mod_cast hK
    rw [if_pos (by linarith), if_pos hK, Int.floor_eq_iff]
    push_cast
    constructor <;> linarith
  · have h1 : (K : ℚ) ≤ 0 := by
      have : K ≤ 0 := by omega
      exact_mod_cast this
    rw [if_neg (by linarith), if_neg hK, Int.ceil_eq_iff]
    constructor <;> linarith

theorem day_number_base_ge (year month : Int) (day : ℚ) (hy : -4712 ≤ year) (hm : 1 ≤ month)
    (hm' : month ≤ 12) : 1523 ≤ day_number_base year month day := by
  obtain ⟨hM3, hM14, -, -, -, -, -, hlt3, hge3⟩ := shifted_bounds year month hm hm'
  unfold day_number_base
  simp only
  cases hpre : is_pre_gregorian (shifted_year year month) (shifted_month month) day
  · have hge := is_pre_gregorian_false_ge _ _ _ hpre
    generalize shifted_year year month = Y at *
    generalize shifted_month month = M at *
    simp only [Bool.false_eq_true, if_false]
    omega
  · generalize shifted_year year month = Y at *
    generalize shifted_month month = M at *
    simp only [if_true]
    by_cases h3 : month < 3
    · have := hlt3 h3
      omega
    · have := hge3 h3
      omega

theorem day_of_week_eq (year month : Int) (day s JD0 : ℚ) (dow : Int) (hd : 0 ≤ day)
    (hJD0 : cal_to_julian_date year month ((Int.floor day : Int) : ℚ) s =
      Call.ret MeeusError_Success JD0)
    (hpos : 0 ≤ JD0) :
    ((day_number_base year month ((Int.floor day : Int) : ℚ) + Int.floor day - 1523 : Int) : ℚ)
      = JD0 + 1.5 ∧
    day_of_week year month day dow = Call.ret MeeusError_Success
      ((day_number_base year month ((Int.floor day : Int) : ℚ) + Int.floor day - 1523) % 7) := by
  obtain ⟨hy, hmiss, hjd⟩ := cal_to_julian_date_success _ _ _ _ _ hJD0
  have htr : truncToInt day = Int.floor day := truncToInt_of_nonneg hd
  have hN : ((day_number_base year month ((Int.floor day : Int) : ℚ) + Int.floor day - 1523 : Int)
      : ℚ) = JD0 + 1.5 := by
    rw [hjd]
    push_cast
    norm_num
    ring
  refine ⟨hN, ?_⟩
  have hjd' : JD0 = ((day_number_base year month ((Int.floor day : Int) : ℚ) + Int.floor day
      - 1523 - 1 : Int) : ℚ) - 1 / 2 := by
    rw [hjd]
    push_cast
    norm_num
    ring
  have hK : 1 ≤ day_number_base year month ((Int.floor day : Int) : ℚ) + Int.floor day
      - 1523 - 1 := by
    have h1 : (0 : ℚ) < ((day_number_base year month ((Int.floor day : Int) : ℚ) + Int.floor day
      - 1523 - 1 : Int) : ℚ) := by
      rw [hjd'] at hpos
      linarith
    have h2 : 0 < day_number_base year month ((Int.floor day : Int) : ℚ) + Int.floor day
      - 1523 - 1 := by exact_mod_cast h1
    omega
  simp only [day_of_week, htr, cal_to_julian_date_eq year month _ 0 hy hmiss, ← hjd, ne_eq,
    not_true_eq_false, if_false, day_of_week_jd]
  rw [hjd', truncToInt_sub_half, if_pos hK, Int.tmod_eq_emod (by omega) (by norm_num)]
  congr 2
  ring

/-- In exact arithmetic every code returned by `day_of_week` for a year from
-4712 on, a month in 1..12 and a day >= 0 lies in 0..6. -/
theorem weekday_code_range_exact (year month : Int) (day : ℚ) (dow w : Int)
    (hy : -4712 ≤ year) (hm : 1 ≤ month) (hm' : month ≤ 12) (hd : 0 ≤ day)
    (h : day_of_week year month day dow = Call.ret MeeusError_Success w) :
    0 ≤ w ∧ w ≤ 6 := by
  have htr : truncToInt day = Int.floor day := truncToInt_of_nonneg hd
  have hn : 0 ≤ Int.floor day := Int.floor_nonneg.mpr hd
  have hbase := day_number_base_ge year month ((Int.floor day : Int) : ℚ) hy hm hm'
  cases hmiss : is_missing_gregorian_date year month ((Int.floor day : Int) : ℚ)
  · have hjd : ((day_number_base year month ((Int.floor day : Int) : ℚ) : Int) : ℚ) +
        ((Int.floor day : Int) : ℚ) - 1524.5 =
        ((day_number_base year month ((Int.floor day : Int) : ℚ) + Int.floor day - 1524 : Int)
          : ℚ) - 1 / 2 := by
      push_cast
      norm_num
      ring
    simp only [day_of_week, htr, cal_to_julian_date_eq year month _ 0 hy hmiss, ne_eq,
      not_true_eq_false, if_false, day_of_week_jd, hjd, truncToInt_sub_half] at h
    have hw := (Call.ret.inj h).2
    rw [Int.tmod_eq_emod (by split <;> omega) (by norm_num)] at hw
    omega
  · simp only [day_of_week, htr, cal_to_julian_date_missing year month _ 0 hy hmiss] at h
    have := (Call.ret.inj h).1
    simp at this

/-- C11: `days_in_month` fails with `MeeusError_InvalidDate` if and only if
month < 1 or month > 12; otherwise it returns Success with 31 for months
1,3,5,7,8,10,12, with 30 for months 4,6,9,11, and for month 2 with 29 when
`is_leap year` and 28 otherwise. February has 29 days in 1000, 2000 and 0 and
28 days in 1700. -/
theorem C11_days_in_month (year month s : Int) :
    ((days_in_month year month s).1 = MeeusError_InvalidDate ↔ (month < 1 ∨ month > 12)) ∧
    (¬ (month < 1 ∨ month > 12) → (days_in_month year month s).1 = MeeusError_Success) ∧
    (month = 1 ∨ month = 3 ∨ month = 5 ∨ month = 7 ∨ month = 8 ∨ month = 10 ∨ month = 12 →
      days_in_month year month s = (MeeusError_Success, 31)) ∧
    (month = 4 ∨ month = 6 ∨ month = 9 ∨ month = 11 →
      days_in_month year month s = (MeeusError_Success, 30)) ∧
    (month = 2 → is_leap year = true → days_in_month year month s = (MeeusError_Success, 29)) ∧
    (month = 2 → is_leap year = false → days_in_month year month s = (MeeusError_Success, 28)) ∧
    days_in_month 1000 2 s = (MeeusError_Success, 29) ∧
    days_in_month 2000 2 s = (MeeusError_Success, 29) ∧
    days_in_month 0 2 s = (MeeusError_Success, 29) ∧
    days_in_month 1700 2 s = (MeeusError_Success, 28) := by
  refine ⟨?_, ?_, ?_, ?_, ?_, ?_, ?_, ?_, ?_, ?_⟩
  · by_cases h : month < 1 ∨ month > 12
    · simp [days_in_month, h]
    · simp [days_in_month, h]
  · intro h
    simp [days_in_month, h]
  · intro h
    rw [days_in_month_eq year month s (by omega) (by omega), if_neg (by omega),
      if_neg (by omega)]
  · intro h
    rw [days_in_month_eq year month s (by omega) (by omega), if_neg (by omega), if_pos h]
  · intro h hl
    rw [days_in_month_eq year month s (by omega) (by omega), if_pos h, if_pos hl]
  · intro h hl
    rw [days_in_month_eq year month s (by omega) (by omega), if_pos h, if_neg (by simp [hl])]
  · rw [days_in_month_eq 1000 2 s (by decide) (by decide)]
    rfl
  · rw [days_in_month_eq 2000 2 s (by decide) (by decide)]
    rfl
  · rw [days_in_month_eq 0 2 s (by decide) (by decide)]
    rfl
  · rw [days_in_month_eq 1700 2 s (by decide) (by decide)]
    rfl

theorem C11_days_in_month_witness :
    days_in_month 1988 2 0 = (MeeusError_Success, 29) ∧
    days_in_month 1989 2 0 = (MeeusError_Success, 28) ∧
    days_in_month 1989 4 0 = (MeeusError_Success, 30) ∧
    days_in_month 1989 12 0 = (MeeusError_Success, 31) ∧
    (days_in_month 1989 13 0).1 = MeeusError_InvalidDate ∧
    (days_in_month 1989 0 0).1 = MeeusError_InvalidDate :=
  ⟨(C11_days_in_month 1988 2 0).2.2.2.2.1 rfl (by decide),
    (C11_days_in_month 1989 2 0).2.2.2.2.2.1 rfl (by decide),
    (C11_days_in_month 1989 4 0).2.2.2.1 (by decide),
    (C11_days_in_month 1989 12 0).2.2.1 (by decide),
    (C11_days_in_month 1989 13 0).1.mpr (by decide),
    (C11_days_in_month 1989 0 0).1.mpr (by decide)⟩

/-- C12: a failing operation leaves its outputs untouched. For each of
`cal_to_julian_date`, `day_of_year_to_cal`, `days_in_month` and `day_of_week`,
whenever the returned status is not `MeeusError_Success`, the output slots
(jd; month and day; days; dow) hold after the call what they held before. -/
theorem C12_failure_leaves_outputs (year month doy m0 days dow : Int) (day jd d0 : ℚ) :
    (∀ (err : meeus_err) (jd' : ℚ), cal_to_julian_date year month day jd = Call.ret err jd' →
      err ≠ MeeusError_Success → jd' = jd) ∧
    ((day_of_year_to_cal year doy m0 d0).1 ≠ MeeusError_Success →
      (day_of_year_to_cal year doy m0 d0).2 = (m0, d0)) ∧
    ((days_in_month year month days).1 ≠ MeeusError_Success →
      (days_in_month year month days).2 = days) ∧
    (∀ (err : meeus_err) (dow' : Int), day_of_week year month day dow = Call.ret err dow' →
      err ≠ MeeusError_Success → dow' = dow) := by
  refine ⟨?_, ?_, ?_, ?_⟩
  · intro err jd' h herr
    by_cases hy : -4712 ≤ year
    · cases hmiss : is_missing_gregorian_date year month day
      · rw [cal_to_julian_date_eq year month day jd hy hmiss] at h
        exact absurd (Call.ret.inj h).1.symm herr
      · rw [cal_to_julian_date_missing year month day jd hy hmiss] at h
        exact (Call.ret.inj h).2.symm
    · have h1 : ¬ (year ≥ -4712) := hy
      simp only [cal_to_julian_date, if_pos h1] at h
      cases h
  · intro h
    unfold day_of_year_to_cal at h ⊢
    simp only at h ⊢
    split
    · rfl
    · rename_i hc
      rw [if_neg hc] at h
      exact absurd rfl h
  · intro h
    unfold days_in_month at h ⊢
    split
    · rfl
    · rename_i hc
      rw [if_neg hc] at h
      exact absurd rfl h
  · intro err dow' h herr
    unfold day_of_week at h
    simp only at h
    split at h
    · cases h
    · rename_i e j hcall
      split at h
      · exact (Call.ret.inj h).2.symm
      · exact absurd (Call.ret.inj h).1.symm herr

theorem C12_failure_leaves_outputs_witness :
    cal_to_julian_date 1582 10 5 7 = Call.ret MeeusError_InvalidDate 7 ∧
    (∀ jd' : ℚ, cal_to_julian_date 1582 10 5 7 = Call.ret MeeusError_InvalidDate jd' →
      jd' = 7) ∧
    (day_of_year_to_cal 2001 400 3 9).2 = (3, 9) ∧
    (days_in_month 2001 13 5).2 = 5 ∧
    day_of_week 1582 10 5 4 = Call.ret MeeusError_InvalidDate 4 ∧
    (∀ dow' : Int, day_of_week 1582 10 5 4 = Call.ret MeeusError_InvalidDate dow' →
      dow' = 4) := by
  have h1 : cal_to_julian_date 1582 10 5 7 = Call.ret MeeusError_InvalidDate 7 :=
    cal_to_julian_date_missing 1582 10 5 7 (by decide)
      (is_missing_true_of_gap _ _ _ ⟨rfl, rfl, by norm_num, by norm_num⟩)
  have h4 : day_of_week 1582 10 5 4 = Call.ret MeeusError_InvalidDate 4 := by
    have h5 : ((truncToInt (5 : ℚ) : Int) : ℚ) = 5 := by norm_num [truncToInt]
    simp only [day_of_week, h5, cal_to_julian_date_missing 1582 10 5 0 (by decide)
      (is_missing_true_of_gap _ _ _ ⟨rfl, rfl, by norm_num, by norm_num⟩)]
    rfl
  have hw := C12_failure_leaves_outputs 1582 10 400 3 5 4 5 7 9
  have hw2 := C12_failure_leaves_outputs 2001 13 400 3 5 4 5 7 9
  exact ⟨h1, fun jd' h => hw.1 _ jd' h (by decide), hw2.2.1 (by decide),
    hw2.2.2.1 (by decide), h4, fun dow' h => hw.2.2.2 _ dow' h (by decide)⟩

/-- C13: `short_month_name` returns, for every month index m in 1..12, the
three-letter English abbreviation of month m, which is the first three letters
of the full name in `MONTH_NAMES`, and the literal "UNK" for every m < 1 or
m > 12. -/
theorem C13_short_month_name :
    (∀ m : Int, 1 ≤ m → m ≤ 12 →
      short_month_name m = (MONTH_NAMES.getD (m - 1).toNat "").take 3) ∧
    (∀ m : Int, m < 1 ∨ m > 12 → short_month_name m = "UNK") ∧
    short_month_name 1 = "Jan" ∧ short_month_name 2 = "Feb" ∧ short_month_name 3 = "Mar" ∧
    short_month_name 4 = "Apr" ∧ short_month_name 5 = "May" ∧ short_month_name 6 = "Jun" ∧
    short_month_name 7 = "Jul" ∧ short_month_name 8 = "Aug" ∧ short_month_name 9 = "Sep" ∧
    short_month_name 10 = "Oct" ∧ short_month_name 11 = "Nov" ∧ short_month_name 12 = "Dec" := by
  refine ⟨?_, ?_, by decide, by decide, by decide, by decide, by decide, by decide, by decide,
    by decide, by decide, by decide, by decide, by decide⟩
  · intro m h1 h12
    interval_cases m <;> decide
  · intro m h
    unfold short_month_name
    rw [if_pos h]

theorem C13_short_month_name_witness :
    short_month_name 9 = (MONTH_NAMES.getD 8 "").take 3 ∧ short_month_name 13 = "UNK" ∧
    short_month_name 0 = "UNK" ∧ short_month_name (-5) = "UNK" :=
  ⟨C13_short_month_name.1 9 (by decide) (by decide), C13_short_month_name.2.1 13 (by decide),
    C13_short_month_name.2.1 0 (by decide), C13_short_month_name.2.1 (-5) (by decide)⟩

/-- C14: `month_name` returns `MeeusError_Success` for month 1 but the string
the caller observes after the call is the one it passed in, not "January";
the same holds for every month index and every caller string. -/
theorem C14_month_name_not_returned :
    month_name 1 "" = (MeeusError_Success, "") ∧ MONTH_NAMES.getD 0 "" = "January" ∧
    (month_name 1 "").2 ≠ "January" ∧
    (∀ (m : Int) (name : String), (month_name m name).2 = name) := by
  refine ⟨by decide, by decide, by decide, ?_⟩
  intro m name
  unfold month_name
  split <;> rfl

/-- C18: `cal_to_julian_date` is not increasing across the calendar transition.
Day 14.5 of October 1582 passes the missing-date test (which ends at
day <= 14) and is converted on the Julian calendar to JD 2299170.0, while the
later day 15 gives JD 2299160.5. -/
theorem C18_not_increasing_across_transition :
    cal_to_julian_date 1582 10 14.5 0 = Call.ret MeeusError_Success 2299170.0 ∧
    cal_to_julian_date 1582 10 15 0 = Call.ret MeeusError_Success 2299160.5 ∧
    (14.5 : ℚ) < 15 ∧ ¬ ((2299170.0 : ℚ) < 2299160.5) := by
  refine ⟨?_, ?_, by norm_num, by norm_num⟩
  · rw [cal_to_julian_date_eq 1582 10 14.5 0 (by norm_num)
      (is_missing_false_of_not_gap _ _ _ (by norm_num))]
    have hp : is_pre_gregorian (shifted_year 1582 10) (shifted_month 10) 14.5 = true :=
      (is_pre_gregorian_shifted 1582 10 14.5 (by norm_num) (by norm_num) (by norm_num)
        (by norm_num)).mpr (by norm_num)
    rw [day_number_base, hp]
    norm_num [shifted_year, shifted_month]
  · rw [cal_to_julian_date_eq 1582 10 15 0 (by norm_num)
      (is_missing_false_of_not_gap _ _ _ (by norm_num))]
    have hp : is_pre_gregorian (shifted_year 1582 10) (shifted_month 10) 15 = false := by
      rw [← Bool.not_eq_true, is_pre_gregorian_shifted 1582 10 15 (by norm_num)
        (by norm_num) (by norm_num) (by norm_num)]
      norm_num
    rw [day_number_base, hp]
    norm_num [shifted_year, shifted_month]

theorem floor_month_estimate (x : Int) :
    floor ((x : ℚ) / 275.0 + 0.98) = (((2 * x + 539) / 550 : Int) : ℚ) := by
  have h : (x : ℚ) / 275.0 + 0.98 = ((2 * x + 539 : Int) : ℚ) / ((550 : Nat) : ℚ) := by
    push_cast
    norm_num
    ring
  rw [h, floor_div_nat]
  norm_num

theorem floor_div_nine (x : Int) : floor ((x : ℚ) / 9.0) = ((x / 9 : Int) : ℚ) := by
  have h : (x : ℚ) / 9.0 = ((x : Int) : ℚ) / ((9 : Nat) : ℚ) := by norm_num
  rw [h, floor_div_nat]
  norm_num

theorem floor_div_twelve (x : Int) : floor ((x : ℚ) / 12.0) = ((x / 12 : Int) : ℚ) := by
  have h : (x : ℚ) / 12.0 = ((x : Int) : ℚ) / ((12 : Nat) : ℚ) := by norm_num
  rw [h, floor_div_nat]
  norm_num

theorem day_of_year_to_cal_eq (year n m0 : Int) (d0 : ℚ) (h1 : 1 ≤ n) (h365 : n ≤ 365) :
    day_of_year_to_cal year n m0 d0 =
      (MeeusError_Success,
        (if n < 32 then 1 else (2 * (9 * ((if is_leap year then 1 else 2) + n)) + 539) / 550),
        (((n - (275 * (if n < 32 then 1
              else (2 * (9 * ((if is_leap year then 1 else 2) + n)) + 539) / 550)) / 9 +
            (if is_leap year then 1 else 2) *
              (((if n < 32 then 1
                else (2 * (9 * ((if is_leap year then 1 else 2) + n)) + 539) / 550) + 9) / 12)
            + 30 : Int)) : ℚ)) := by
  have hc : ¬ (n < 1 ∨ (is_leap year = true ∧ n > 366) ∨ n > 365) := by omega
  have hm : (if n < 32 then (1 : Int)
      else truncToInt (floor ((((9 * ((if is_leap year = true then 1 else 2) + n) : Int) : ℚ)
        / 275.0) + 0.98))) =
      (if n < 32 then 1 else (2 * (9 * ((if is_leap year then 1 else 2) + n)) + 539) / 550) := by
    split
    · rfl
    · rw [floor_month_estimate, truncToInt_intCast]
  simp only [day_of_year_to_cal, if_neg hc, hm, floor_div_nine, floor_div_twelve]
  congr 2
  have hq : ∀ a b c d : Int, ((a : ℚ) - (b : ℚ) + (c : ℚ) * (d : ℚ) + 30) =
      ((a - b + c * d + 30 : Int) : ℚ) := by
    intro a b c d
    push_cast
    ring
  rw [hq, truncToInt_intCast]

theorem month_of_day_of_year (k n : Int) (hk : k = 1 ∨ k = 2) (h1 : 1 ≤ n) (h365 : n ≤ 365) :
    1 ≤ (if n < 32 then 1 else (2 * (9 * (k + n)) + 539) / 550) ∧
    (if n < 32 then 1 else (2 * (9 * (k + n)) + 539) / 550) ≤ 12 := by
  split <;> omega

theorem day_of_day_of_year (k n m : Int) (hk : k = 1 ∨ k = 2) (h1 : 1 ≤ n) (h365 : n ≤ 365)
    (hm : m = if n < 32 then 1 else (2 * (9 * (k + n)) + 539) / 550) :
    1 ≤ n - (275 * m) / 9 + k * ((m + 9) / 12) + 30 ∧
    n - (275 * m) / 9 + k * ((m + 9) / 12) + 30 ≤
      (if m = 2 then (if k = 1 then 29 else 28)
        else if m = 4 ∨ m = 6 ∨ m = 9 ∨ m = 11 then 30 else 31) := by
  have hb := month_of_day_of_year k n hk h1 h365
  rw [← hm] at hb
  obtain ⟨hb1, hb12⟩ := hb
  split at hm
  · subst hm
    simp
    omega
  · rcases hk with hk | hk <;> subst hk <;> interval_cases m <;> simp <;> omega

theorem day_of_year_to_cal_success_range (year n m0 : Int) (d0 : ℚ) (month : Int) (day : ℚ)
    (h : day_of_year_to_cal year n m0 d0 = (MeeusError_Success, month, day)) :
    1 ≤ n ∧ n ≤ 365 := by
  by_contra hc
  have hc' : n < 1 ∨ (is_leap year = true ∧ n > 366) ∨ n > 365 := by omega
  simp only [day_of_year_to_cal, if_pos hc'] at h
  exact absurd (Prod.mk.inj h).1 (by decide)

/-- C20: whatever `day_of_year_to_cal` accepts, it converts correctly. For every
year and doy on which it returns Success with (month, day): 1 <= month <= 12,
day is a whole number with 1 <= day <= days_in_month(year, month), and
`cal_to_day_of_year year month day` is doy. -/
theorem C20_accepted_converts (year doy m0 s t month : Int) (d0 day : ℚ)
    (h : day_of_year_to_cal year doy m0 d0 = (MeeusError_Success, month, day)) :
    1 ≤ month ∧ month ≤ 12 ∧
    (∃ d L : Int, day = (d : ℚ) ∧ days_in_month year month t = (MeeusError_Success, L) ∧
      1 ≤ d ∧ d ≤ L) ∧
    cal_to_day_of_year year month day s = (MeeusError_Success, doy) := by
  obtain ⟨h1, h365⟩ := day_of_year_to_cal_success_range year doy m0 d0 month day h
  rw [day_of_year_to_cal_eq year doy m0 d0 h1 h365] at h
  have hmonth := (Prod.mk.inj (Prod.mk.inj h).2).1
  have hday := (Prod.mk.inj (Prod.mk.inj h).2).2
  have hk : (if is_leap year = true then (1 : Int) else 2) = 1 ∨
      (if is_leap year = true then (1 : Int) else 2) = 2 := by
    split
    · exact Or.inl rfl
    · exact Or.inr rfl
  have hkl : (if is_leap year = true then (1 : Int) else 2) = 1 ↔ is_leap year = true := by
    split
    · rename_i hl
      simp [hl]
    · rename_i hl
      simp [hl]
  have hmb := month_of_day_of_year _ doy hk h1 h365
  rw [hmonth] at hmb
  have hdb := day_of_day_of_year _ doy month hk h1 h365 hmonth.symm
  rw [hmonth] at hday
  refine ⟨hmb.1, hmb.2, ⟨_, _, hday.symm, days_in_month_eq year month t hmb.1 hmb.2, hdb.1, ?_⟩,
    ?_⟩
  · have h2 := hdb.2
    simp only [hkl] at h2
    exact h2
  · rw [← hday, cal_to_day_of_year_eq year month _ s (by omega), ← Int.cast_add,
      truncToInt_intCast]
    congr 1
    ring

theorem C20_accepted_converts_witness :
    day_of_year_to_cal 1988 113 0 0 = (MeeusError_Success, 4, 22) ∧
    cal_to_day_of_year 1988 4 22 0 = (MeeusError_Success, 113) := by
  have h : day_of_year_to_cal 1988 113 0 0 = (MeeusError_Success, 4, 22) := by
    rw [day_of_year_to_cal_eq 1988 113 0 0 (by decide) (by decide)]
    have hl : is_leap 1988 = true := by decide
    simp only [hl, if_true]
    norm_num
  exact ⟨h, (C20_accepted_converts 1988 113 0 0 0 4 0 22 h).2.2.2⟩

theorem month_length_eq (year month : Int) (hm : 1 ≤ month) (hm' : month ≤ 12) :
    month_length year month =
      if month = 2 then (if is_leap year then 29 else 28)
      else if month = 4 ∨ month = 6 ∨ month = 9 ∨ month = 11 then 30 else 31 := by
  unfold month_length
  rw [days_in_month_eq year month 0 hm hm']

theorem month_length_cases (year month : Int) (hm : 1 ≤ month) (hm' : month ≤ 12) :
    (month = 2 → (month_length year month = 29 ∧ is_leap year = true) ∨
      (month_length year month = 28 ∧ is_leap year = false)) ∧
    (month = 4 ∨ month = 6 ∨ month = 9 ∨ month = 11 → month_length year month = 30) ∧
    (month ≠ 2 → ¬ (month = 4 ∨ month = 6 ∨ month = 9 ∨ month = 11) →
      month_length year month = 31) := by
  rw [month_length_eq year month hm hm']
  refine ⟨fun h => ?_, fun h => ?_, fun h h' => ?_⟩
  · rw [if_pos h]
    cases is_leap year <;> simp
  · rw [if_neg (by omega), if_pos h]
  · rw [if_neg h, if_neg h']

theorem day_number_base_floor (year month : Int) (day : ℚ) (hm : 1 ≤ month) (hm' : month ≤ 12)
    (hd : 1 ≤ day) (hd' : day < 32) :
    day_number_base year month day + Int.floor day - 1524 =
      day_number_int year month (Int.floor day) := by
  have hpre := is_pre_gregorian_shifted year month day hm hm' hd hd'
  have hfl : Int.floor day < 15 ↔ day < 15 := by
    rw [Int.floor_lt]
    norm_num
  simp only [day_number_base, day_number_int, shifted_year, shifted_month, hfl, ← hpre]

theorem day_number_int_first : day_number_int (-4712) 1 1 = 0 := by decide

theorem day_number_int_gap : day_number_int 1582 10 15 = day_number_int 1582 10 4 + 1 := by
  decide

theorem day_number_int_succ (year month n : Int) (h : ¬ (year = 1582 ∧ month = 10 ∧ n = 14)) :
    day_number_int year month (n + 1) = day_number_int year month n + 1 := by
  unfold day_number_int
  have hc : (year < 1582 ∨ (year = 1582 ∧ (month < 10 ∨ (month = 10 ∧ n + 1 < 15)))) ↔
      (year < 1582 ∨ (year = 1582 ∧ (month < 10 ∨ (month = 10 ∧ n < 15)))) := by
    constructor <;> intro h' <;> omega
  simp only [hc]
  ring

theorem day_number_int_next_month_other (year month L : Int) (hm : 1 ≤ month)
    (hm' : month ≤ 12) (hne : month ≠ 2)
    (hL : L = if month = 4 ∨ month = 6 ∨ month = 9 ∨ month = 11 then 30 else 31) :
    day_number_int (if month < 12 then year else year + 1) (if month < 12 then month + 1 else 1) 1
      = day_number_int year month L + 1 := by
  subst hL
  unfold day_number_int
  interval_cases month <;> simp <;> split_ifs <;> omega

theorem day_number_int_next_month_feb_julian (year L : Int) (hy : year ≤ 1582)
    (hL : (L = 29 ∧ year % 4 = 0 ∧ year < 1582) ∨ (L = 28 ∧ (year % 4 ≠ 0 ∨ year = 1582))) :
    day_number_int year 3 1 = day_number_int year 2 L + 1 := by
  unfold day_number_int
  have h1 : (year < 1582 ∨ (year = 1582 ∧ ((3 : Int) < 10 ∨ ((3 : Int) = 10 ∧ (1 : Int) < 15))))
      := by omega
  have h2 : (year < 1582 ∨ (year = 1582 ∧ ((2 : Int) < 10 ∨ ((2 : Int) = 10 ∧ L < 15)))) := by
    omega
  rw [if_pos h1, if_pos h2]
  simp
  have r1 : year % 4 = 0 ∨ year % 4 = 1 ∨ year % 4 = 2 ∨ year % 4 = 3 := by omega
  rcases r1 with r1 | r1 | r1 | r1 <;> omega

theorem day_number_int_next_month_feb_gregorian (year L : Int) (hy : 1582 < year)
    (hL : (L = 29 ∧ ((year % 4 = 0 ∧ year % 100 ≠ 0) ∨ year % 400 = 0)) ∨
      (L = 28 ∧ ¬ ((year % 4 = 0 ∧ year % 100 ≠ 0) ∨ year % 400 = 0))) :
    day_number_int year 3 1 = day_number_int year 2 L + 1 := by
  unfold day_number_int
  have h1 : ¬ (year < 1582 ∨ (year = 1582 ∧ ((3 : Int) < 10 ∨ ((3 : Int) = 10 ∧
      (1 : Int) < 15)))) := by omega
  have h2 : ¬ (year < 1582 ∨ (year = 1582 ∧ ((2 : Int) < 10 ∨ ((2 : Int) = 10 ∧ L < 15)))) := by
    omega
  rw [if_neg h1, if_neg h2]
  simp
  have r1 : year % 4 = 0 ∨ year % 4 = 1 ∨ year % 4 = 2 ∨ year % 4 = 3 := by omega
  have r2 : year % 100 = 0 ∨ 1 ≤ year % 100 := by omega
  have r3 : (year / 100) % 4 = 0 ∨ 1 ≤ (year / 100) % 4 := by omega
  rcases r1 with r1 | r1 | r1 | r1 <;> rcases r2 with r2 | r2 <;> rcases r3 with r3 | r3 <;>
    omega

theorem day_number_int_next_month (year month : Int) (hm : 1 ≤ month) (hm' : month ≤ 12) :
    day_number_int (if month < 12 then year else year + 1) (if month < 12 then month + 1 else 1) 1
      = day_number_int year month (month_length year month) + 1 := by
  obtain ⟨hfeb, h30, h31⟩ := month_length_cases year month hm hm'
  by_cases h2 : month = 2
  · subst h2
    have hleap := is_leap_iff year
    simp only [show (2 : Int) < 12 from by decide, if_true, show (2 : Int) + 1 = 3 from rfl]
    rcases hfeb rfl with ⟨hl, hy⟩ | ⟨hl, hy⟩
    · have hy' := hleap.mp hy
      by_cases hle : year ≤ 1582
      · exact day_number_int_next_month_feb_julian year _ hle (by omega)
      · exact day_number_int_next_month_feb_gregorian year _ (by omega) (by omega)
    · have hy' : ¬ ((year < 1582 ∧ (4 : Int) ∣ year) ∨
          (year ≥ 1582 ∧ (((4 : Int) ∣ year ∧ ¬ (100 : Int) ∣ year) ∨ (400 : Int) ∣ year))) := by
        rw [← hleap, hy]
        simp
      by_cases hle : year ≤ 1582
      · exact day_number_int_next_month_feb_julian year _ hle (by omega)
      · exact day_number_int_next_month_feb_gregorian year _ (by omega) (by omega)
  · apply day_number_int_next_month_other year month _ hm hm' h2
    rw [month_length_eq year month hm hm', if_neg h2]

theorem cal_to_julian_date_day_number (year month : Int) (day s : ℚ) (hy : -4712 ≤ year)
    (hm : 1 ≤ month) (hm' : month ≤ 12) (hd : 1 ≤ day) (hd' : day < 32)
    (hmiss : ¬ (year = 1582 ∧ month = 10 ∧ 5 ≤ day ∧ day ≤ 14)) :
    cal_to_julian_date year month day s =
      Call.ret MeeusError_Success
        (((day_number_int year month (Int.floor day) : Int) : ℚ) +
          (day - ((Int.floor day : Int) : ℚ)) - 1 / 2) := by
  rw [cal_to_julian_date_eq year month day s hy (is_missing_false_of_not_gap _ _ _ hmiss),
    ← day_number_base_floor year month day hm hm' hd hd']
  have h15 : (1524.5 : ℚ) = 1524 + 1 / 2 := by norm_num
  rw [h15]
  congr 1
  push_cast
  ring

theorem month_length_bounds (year month : Int) (hm : 1 ≤ month) (hm' : month ≤ 12) :
    28 ≤ month_length year month ∧ month_length year month ≤ 31 := by
  rw [month_length_eq year month hm hm']
  split
  · split <;> omega
  · split <;> omega

/-- In exact arithmetic the Julian Date of the first day of a month is the
Julian Date of the last day of the month before, plus 1. -/
theorem month_end_continuity_exact (year month L t : Int) (s s' : ℚ)
    (hy : -4712 ≤ year) (hm : 1 ≤ month) (hm' : month ≤ 12)
    (hL : days_in_month year month t = (MeeusError_Success, L)) :
    ∃ jdL jd1 : ℚ,
      cal_to_julian_date year month (L : ℚ) s = Call.ret MeeusError_Success jdL ∧
      cal_to_julian_date (if month < 12 then year else year + 1)
        (if month < 12 then month + 1 else 1) 1 s' = Call.ret MeeusError_Success jd1 ∧
      jd1 = jdL + 1 := by
  rw [days_in_month_eq year month t hm hm'] at hL
  have hLm : L = month_length year month := by
    rw [month_length_eq year month hm hm']
    exact (Prod.mk.inj hL).2.symm
  obtain ⟨hL28, hL31⟩ := month_length_bounds year month hm hm'
  rw [← hLm] at hL28 hL31
  have hLq1 : (1 : ℚ) ≤ (L : ℚ) := by exact_mod_cast (by omega : (1 : Int) ≤ L)
  have hLq28 : (28 : ℚ) ≤ (L : ℚ) := by exact_mod_cast hL28
  have hLq32 : (L : ℚ) < 32 := by exact_mod_cast (by omega : L < 32)
  have hnext := day_number_int_next_month year month hm hm'
  rw [← hLm] at hnext
  have e1 := cal_to_julian_date_day_number year month (L : ℚ) s hy hm hm' hLq1 hLq32
    (fun h => by linarith [h.2.2.2])
  have e2 := cal_to_julian_date_day_number (if month < 12 then year else year + 1)
    (if month < 12 then month + 1 else 1) 1 s' (by split <;> omega) (by split <;> omega)
    (by split <;> omega) (by norm_num) (by norm_num) (fun h => by linarith [h.2.2.1])
  have hf1 : Int.floor (1 : ℚ) = 1 := by norm_num
  have hfL : Int.floor (L : ℚ) = L := Int.floor_intCast L
  rw [hfL] at e1
  rw [hf1, hnext] at e2
  refine ⟨_, _, e1, e2, ?_⟩
  push_cast
  ring

theorem valid_date_first : valid_date (-4712) 1 1 := by
  unfold valid_date
  refine ⟨by decide, by decide, by decide, by decide, by decide, by decide⟩

theorem valid_date_next (y m n : Int) (h : valid_date y m n) :
    ∃ y' m' n', valid_date y' m' n' ∧ day_number_int y' m' n' = day_number_int y m n + 1 := by
  obtain ⟨hy, hm, hm', hn, hnL, hgap⟩ := h
  by_cases hA : y = 1582 ∧ m = 10 ∧ n = 4
  · obtain ⟨rfl, rfl, rfl⟩ := hA
    refine ⟨1582, 10, 15, ?_, day_number_int_gap⟩
    unfold valid_date
    refine ⟨by decide, by decide, by decide, by decide, by decide, by decide⟩
  · by_cases hB : n < month_length y m
    · refine ⟨y, m, n + 1, ⟨hy, hm, hm', by omega, by omega, by omega⟩, ?_⟩
      exact day_number_int_succ y m n (by omega)
    · have hnL' : n = month_length y m := by omega
      have hb := month_length_bounds (if m < 12 then y else y + 1) (if m < 12 then m + 1 else 1)
        (by split <;> omega) (by split <;> omega)
      refine ⟨if m < 12 then y else y + 1, if m < 12 then m + 1 else 1, 1,
        ⟨by split <;> omega, by split <;> omega, by split <;> omega, by decide, by omega,
          by omega⟩, ?_⟩
      rw [hnL']
      exact day_number_int_next_month y m hm hm'

theorem exists_valid_date (k : Nat) :
    ∃ y m n, valid_date y m n ∧ day_number_int y m n = (k : Int) := by
  induction k with
  | zero => exact ⟨-4712, 1, 1, valid_date_first, day_number_int_first⟩
  | succ k ih =>
    obtain ⟨y, m, n, hv, hk⟩ := ih
    obtain ⟨y', m', n', hv', hk'⟩ := valid_date_next y m n hv
    refine ⟨y', m', n', hv', ?_⟩
    rw [hk', hk]
    push_cast
    rfl

theorem cal_of_day_number_valid (z : Int) (hz : 0 ≤ z) :
    ∃ y m n, valid_date y m n ∧ day_number_int y m n = z ∧ cal_of_day_number z = (y, m, n) := by
  obtain ⟨y, m, n, hv, hk⟩ := exists_valid_date z.toNat
  rw [Int.toNat_of_nonneg hz] at hk
  refine ⟨y, m, n, hv, hk, ?_⟩
  obtain ⟨hy, hm, hm', hn, hnL, hgap⟩ := hv
  have hcal := cal_of_day_number_eq y m n (month_length y m)
    (decide (y < 1582 ∨ (y = 1582 ∧ (m < 10 ∨ (m = 10 ∧ n < 15)))))
    hy hm hm' (month_length_eq y m hm hm') hn hnL (by simp) hgap
  have hexp : day_number_int y m n =
      (1461 * (shifted_year y m + 4716)) / 4 + (306001 * (shifted_month m + 1)) / 10000 +
        (if decide (y < 1582 ∨ (y = 1582 ∧ (m < 10 ∨ (m = 10 ∧ n < 15)))) = true then 0
          else 2 - shifted_year y m / 100 + shifted_year y m / 100 / 4) + n - 1524 := by
    simp only [day_number_int, shifted_year, shifted_month, decide_eq_true_eq]
  rw [← hk, hexp]
  exact hcal

theorem julian_date_to_cal_valid (jd : ℚ) (hjd : 0 ≤ jd) (y0 m0 : Int) (d0 : ℚ) :
    ∃ (y m n : Int) (f : ℚ), valid_date y m n ∧ 0 ≤ f ∧ f < 1 ∧
      jd = ((day_number_int y m n : Int) : ℚ) + f - 1 / 2 ∧
      julian_date_to_cal jd y0 m0 d0 = (MeeusError_Success, y, m, (n : ℚ) + f) := by
  have hz : 0 ≤ Int.floor (jd + 1 / 2) := Int.floor_nonneg.mpr (by linarith)
  have hf0 : 0 ≤ jd + 1 / 2 - ((Int.floor (jd + 1 / 2) : Int) : ℚ) := by
    linarith [Int.floor_le (jd + 1 / 2)]
  have hf1 : jd + 1 / 2 - ((Int.floor (jd + 1 / 2) : Int) : ℚ) < 1 := by
    linarith [Int.lt_floor_add_one (jd + 1 / 2)]
  have hjdz : ((Int.floor (jd + 1 / 2) : Int) : ℚ) +
      (jd + 1 / 2 - ((Int.floor (jd + 1 / 2) : Int) : ℚ)) - 1 / 2 = jd := by ring
  obtain ⟨y, m, n, hv, hk, hcal⟩ := cal_of_day_number_valid _ hz
  have h := julian_date_to_cal_eq _ _ hz hf0 hf1 y0 m0 d0
  rw [hjdz, hcal] at h
  refine ⟨y, m, n, _, hv, hf0, hf1, ?_, h⟩
  rw [hk]
  ring

/-- Reverse round trip in exact arithmetic: for jd >= 0 the exact reading of
`cal_to_julian_date` returns jd on the date that the exact reading of
`julian_date_to_cal` gives for jd. -/
theorem reverse_round_trip_exact (jd s : ℚ) (y0 m0 : Int) (d0 : ℚ) (hjd : 0 ≤ jd) :
    (julian_date_to_cal jd y0 m0 d0).1 = MeeusError_Success ∧
    cal_to_julian_date (julian_date_to_cal jd y0 m0 d0).2.1
      (julian_date_to_cal jd y0 m0 d0).2.2.1 (julian_date_to_cal jd y0 m0 d0).2.2.2 s =
      Call.ret MeeusError_Success jd := by
  obtain ⟨y, m, n, f, hv, hf0, hf1, hjdn, hcal⟩ := julian_date_to_cal_valid jd hjd y0 m0 d0
  obtain ⟨hy, hm, hm', hn, hnL, hgap⟩ := hv
  obtain ⟨-, hL31⟩ := month_length_bounds y m hm hm'
  rw [hcal]
  refine ⟨rfl, ?_⟩
  simp only
  have hn1 : (1 : ℚ) ≤ (n : ℚ) := by exact_mod_cast hn
  have hn31 : (n : ℚ) ≤ 31 := by exact_mod_cast (by omega : n ≤ 31)
  have hfl : Int.floor ((n : ℚ) + f) = n := by
    rw [Int.floor_eq_iff]
    constructor <;> linarith
  have hmiss : ¬ (y = 1582 ∧ m = 10 ∧ 5 ≤ (n : ℚ) + f ∧ (n : ℚ) + f ≤ 14) := by
    rintro ⟨h1, h2, h3, h4⟩
    apply hgap
    refine ⟨h1, h2, ?_, ?_⟩
    · have : (4 : ℚ) < (n : ℚ) := by linarith
      have : (4 : Int) < n := by exact_mod_cast this
      omega
    · have : (n : ℚ) < 15 := by linarith
      exact_mod_cast this
  rw [cal_to_julian_date_day_number y m ((n : ℚ) + f) s hy hm hm' (by linarith) (by linarith)
    hmiss, hfl, hjdn]
  congr 1
  ring

/-! ## Rounding to binary floating-point numbers -/

theorem round_half_even_intCast (n : Int) : round_half_even (n : ℚ) = n := by
  unfold round_half_even
  simp

theorem abs_round_half_even_sub_le (q : ℚ) :
    |((round_half_even q : Int) : ℚ) - q| ≤ 1 / 2 := by
  have h1 := Int.floor_le q
  have h2 := Int.lt_floor_add_one q
  unfold round_half_even
  simp only
  split
  · rw [abs_le]
    constructor <;> linarith
  · split
    · rw [abs_le]
      push_cast
      constructor <;> linarith
    · split
      · rw [abs_le]
        constructor <;> linarith
      · rw [abs_le]
        push_cast
        constructor <;> linarith

theorem round_half_even_nonneg (q : ℚ) (hq : 0 ≤ q) : 0 ≤ round_half_even q := by
  have hf : 0 ≤ Int.floor q := Int.floor_nonneg.mpr hq
  unfold round_half_even
  simp only
  split
  · exact hf
  · split
    · omega
    · split <;> omega

theorem log_two_eq (x : ℚ) (L : Int) (h1 : (2 : ℚ) ^ L ≤ |x|) (h2 : |x| < (2 : ℚ) ^ (L + 1)) :
    Int.log 2 |x| = L := by
  have hpos : (0 : ℚ) < |x| := lt_of_lt_of_le (by positivity) h1
  have ha : L ≤ Int.log 2 |x| :=
    (Int.zpow_le_iff_le_log (by norm_num) hpos).mp (by exact_mod_cast h1)
  have hb : Int.log 2 |x| < L + 1 :=
    (Int.lt_zpow_iff_log_lt (by norm_num) hpos).mp (by exact_mod_cast h2)
  omega

theorem zpow_log_two_le (x : ℚ) (hpos : 0 < |x|) : (2 : ℚ) ^ (Int.log 2 |x|) ≤ |x| := by
  have h := Int.zpow_log_le_self (show 1 < 2 by norm_num) hpos
  exact_mod_cast h

theorem zero_le_log_two (x : ℚ) (L : Int) (h : (2 : ℚ) ^ L ≤ |x|) : L ≤ Int.log 2 |x| := by
  have hpos : (0 : ℚ) < |x| := lt_of_lt_of_le (by positivity) h
  exact (Int.zpow_le_iff_le_log (by norm_num) hpos).mp (by exact_mod_cast h)

theorem round_to_precision_eval (p : Nat) (x : ℚ) (L n : Int) (h1 : (2 : ℚ) ^ L ≤ |x|)
    (h2 : |x| < (2 : ℚ) ^ (L + 1))
    (hn : round_half_even (x / (2 : ℚ) ^ (L - ((p : Int) - 1))) = n) :
    round_to_precision p x = (n : ℚ) * (2 : ℚ) ^ (L - ((p : Int) - 1)) := by
  have hx : x ≠ 0 := by
    intro h
    rw [h, abs_zero] at h1
    have : (0 : ℚ) < (2 : ℚ) ^ L := by positivity
    linarith
  unfold round_to_precision
  rw [if_neg hx, log_two_eq x L h1 h2]
  simp only [hn]

theorem round_to_precision_eval_pos (p : Nat) (x : ℚ) (L n : Int) (h1 : (2 : ℚ) ^ L ≤ x)
    (h2 : x < (2 : ℚ) ^ (L + 1))
    (hn : round_half_even (x / (2 : ℚ) ^ (L - ((p : Int) - 1))) = n) :
    round_to_precision p x = (n : ℚ) * (2 : ℚ) ^ (L - ((p : Int) - 1)) := by
  have hpos : (0 : ℚ) < x := lt_of_lt_of_le (by positivity) h1
  have habs : |x| = x := abs_of_pos hpos
  exact round_to_precision_eval p x L n (by rw [habs]; exact h1) (by rw [habs]; exact h2) hn

theorem round_to_precision_of_int_mul_zpow (p : Nat) (m e : Int)
    (hm : |(m : ℚ)| < (2 : ℚ) ^ p) :
    round_to_precision p ((m : ℚ) * (2 : ℚ) ^ e) = (m : ℚ) * (2 : ℚ) ^ e := by
  by_cases hm0 : m = 0
  · subst hm0
    simp [round_to_precision]
  have h2pos : ∀ t : Int, (0 : ℚ) < (2 : ℚ) ^ t := fun t => by positivity
  have hx : (m : ℚ) * (2 : ℚ) ^ e ≠ 0 := by
    have : (m : ℚ) ≠ 0 := by exact_mod_cast hm0
    exact mul_ne_zero this (ne_of_gt (h2pos e))
  have hpos : (0 : ℚ) < |(m : ℚ) * (2 : ℚ) ^ e| := abs_pos.mpr hx
  have hlow := zpow_log_two_le _ hpos
  set L := Int.log 2 |(m : ℚ) * (2 : ℚ) ^ e| with hL
  have hlt : |(m : ℚ) * (2 : ℚ) ^ e| < (2 : ℚ) ^ ((p : Int) + e) := by
    rw [abs_mul, abs_of_pos (h2pos e), zpow_add₀ (by norm_num : (2 : ℚ) ≠ 0)]
    have : |(m : ℚ)| < (2 : ℚ) ^ (p : Int) := by
      rw [zpow_natCast]
      exact hm
    exact mul_lt_mul_of_pos_right this (h2pos e)
  have hLt : L < (p : Int) + e := by
    have h := lt_of_le_of_lt hlow hlt
    exact (zpow_lt_zpow_iff_right₀ (by norm_num : (1 : ℚ) < 2)).mp h
  have ht : 0 ≤ e - (L - ((p : Int) - 1)) := by omega
  obtain ⟨t, ht'⟩ := Int.eq_ofNat_of_zero_le ht
  have hdiv : (m : ℚ) * (2 : ℚ) ^ e / (2 : ℚ) ^ (L - ((p : Int) - 1))
      = ((m * 2 ^ t : Int) : ℚ) := by
    rw [mul_div_assoc, ← zpow_sub₀ (by norm_num : (2 : ℚ) ≠ 0), ht', zpow_natCast]
    push_cast
    rfl
  unfold round_to_precision
  rw [if_neg hx]
  simp only [← hL, hdiv, round_half_even_intCast]
  push_cast
  rw [mul_assoc, ← zpow_natCast (2 : ℚ) t, ← ht', ← zpow_add₀ (by norm_num : (2 : ℚ) ≠ 0)]
  congr 2
  ring

theorem abs_round_to_precision_sub_le (p : Nat) (x : ℚ) :
    |round_to_precision p x - x| ≤ |x| / (2 : ℚ) ^ p := by
  by_cases hx : x = 0
  · subst hx
    simp [round_to_precision]
  have h2pos : ∀ t : Int, (0 : ℚ) < (2 : ℚ) ^ t := fun t => by positivity
  have hpos : (0 : ℚ) < |x| := abs_pos.mpr hx
  have hlow := zpow_log_two_le x hpos
  unfold round_to_precision
  rw [if_neg hx]
  simp only
  set L := Int.log 2 |x| with hL
  set s := (2 : ℚ) ^ (L - ((p : Int) - 1)) with hs
  have hspos : 0 < s := h2pos _
  have herr := abs_round_half_even_sub_le (x / s)
  have hkey : ((round_half_even (x / s) : Int) : ℚ) * s - x
      = (((round_half_even (x / s) : Int) : ℚ) - x / s) * s := by
    field_simp
  rw [hkey, abs_mul, abs_of_pos hspos]
  have hs2 : s = (2 : ℚ) ^ L * 2 / (2 : ℚ) ^ p := by
    rw [hs, zpow_sub₀ (by norm_num : (2 : ℚ) ≠ 0), zpow_sub₀ (by norm_num : (2 : ℚ) ≠ 0),
      zpow_natCast, zpow_one]
    field_simp
  have hp : (0 : ℚ) < (2 : ℚ) ^ p := by positivity
  calc |((round_half_even (x / s) : Int) : ℚ) - x / s| * s ≤ 1 / 2 * s :=
        mul_le_mul_of_nonneg_right herr (le_of_lt hspos)
    _ = (2 : ℚ) ^ L / (2 : ℚ) ^ p := by rw [hs2]; field_simp
    _ ≤ |x| / (2 : ℚ) ^ p := div_le_div_of_nonneg_right hlow (le_of_lt hp)

/-- A real whose multiple by `2 ^ k` is an integer below `2 ^ 53` in magnitude
is a binary64 number. -/
theorem to_double_of_scaled (x : ℚ) (k : Nat) (m : Int) (hx : x * (2 : ℚ) ^ k = (m : ℚ))
    (hm : |(m : ℚ)| < 9007199254740992) : to_double x = x := by
  have hx' : x = (m : ℚ) * (2 : ℚ) ^ (-(k : Int)) := by
    rw [zpow_neg, zpow_natCast, ← hx]
    field_simp
  unfold to_double
  rw [hx']
  exact round_to_precision_of_int_mul_zpow 53 m _ (by norm_num; exact hm)

theorem to_float_of_scaled (x : ℚ) (k : Nat) (m : Int) (hx : x * (2 : ℚ) ^ k = (m : ℚ))
    (hm : |(m : ℚ)| < 16777216) : to_float x = x := by
  have hx' : x = (m : ℚ) * (2 : ℚ) ^ (-(k : Int)) := by
    rw [zpow_neg, zpow_natCast, ← hx]
    field_simp
  unfold to_float
  rw [hx']
  exact round_to_precision_of_int_mul_zpow 24 m _ (by norm_num; exact hm)

theorem to_double_intCast (n : Int) (h : |(n : ℚ)| < 9007199254740992) :
    to_double (n : ℚ) = (n : ℚ) :=
  to_double_of_scaled (n : ℚ) 0 n (by simp) h

theorem to_float_intCast (n : Int) (h : |(n : ℚ)| < 16777216) : to_float (n : ℚ) = (n : ℚ) :=
  to_float_of_scaled (n : ℚ) 0 n (by simp) h

theorem to_float_small_int (n : Int) (h0 : 0 ≤ n) (h1 : n ≤ 31) :
    to_float (n : ℚ) = (n : ℚ) := by
  have hnq : (0 : ℚ) ≤ (n : ℚ) := by exact_mod_cast h0
  have hnq' : (n : ℚ) ≤ 31 := by exact_mod_cast h1
  exact to_float_intCast n (by rw [abs_of_nonneg hnq]; linarith)

theorem abs_to_double_sub_le (x : ℚ) : |to_double x - x| ≤ |x| / 9007199254740992 := by
  have h := abs_round_to_precision_sub_le 53 x
  norm_num at h
  exact h

theorem to_double_bounds_of_nonneg (x : ℚ) (hx : 0 ≤ x) :
    x - x / 9007199254740992 ≤ to_double x ∧ to_double x ≤ x + x / 9007199254740992 := by
  have h := abs_to_double_sub_le x
  rw [abs_of_nonneg hx, abs_le] at h
  constructor <;> linarith [h.1, h.2]

theorem to_double_eval (x v : ℚ) (L n : Int) (h1 : (2 : ℚ) ^ L ≤ x) (h2 : x < (2 : ℚ) ^ (L + 1))
    (hn : round_half_even (x / (2 : ℚ) ^ (L - 52)) = n)
    (hv : (n : ℚ) * (2 : ℚ) ^ (L - 52) = v) : to_double x = v := by
  unfold to_double
  rw [round_to_precision_eval_pos 53 x L n h1 h2 (by norm_num; exact hn)]
  norm_num
  exact hv

theorem to_float_eval (x v : ℚ) (L n : Int) (h1 : (2 : ℚ) ^ L ≤ x) (h2 : x < (2 : ℚ) ^ (L + 1))
    (hn : round_half_even (x / (2 : ℚ) ^ (L - 23)) = n)
    (hv : (n : ℚ) * (2 : ℚ) ^ (L - 23) = v) : to_float x = v := by
  unfold to_float
  rw [round_to_precision_eval_pos 24 x L n h1 h2 (by norm_num; exact hn)]
  norm_num
  exact hv

theorem to_double_consts :
    to_double 365.25 = 365.25 ∧ to_double 1524.5 = 1524.5 ∧ to_double 0.5 = 0.5 ∧
    to_double 1867216.25 = 1867216.25 ∧ to_double 36524.25 = 36524.25 ∧ to_double 4.0 = 4 ∧
    to_double 30.6001 = 8613162434843745 / 281474976710656 ∧
    to_double 122.1 = 4296011832046387 / 35184372088832 := by
  refine ⟨to_double_of_scaled _ 2 1461 (by norm_num) (by norm_num),
    to_double_of_scaled _ 1 3049 (by norm_num) (by norm_num),
    to_double_of_scaled _ 1 1 (by norm_num) (by norm_num),
    to_double_of_scaled _ 2 7468865 (by norm_num) (by norm_num),
    to_double_of_scaled _ 2 146097 (by norm_num) (by norm_num), ?_, ?_, ?_⟩
  · have h := to_double_of_scaled 4.0 0 4 (by norm_num) (by norm_num)
    rw [h]
    norm_num
  · unfold to_double
    rw [round_to_precision_eval_pos 53 30.6001 4 8613162434843745 (by norm_num) (by norm_num)
      (by norm_num [round_half_even])]
    norm_num
  · unfold to_double
    rw [round_to_precision_eval_pos 53 122.1 6 8592023664092774 (by norm_num) (by norm_num)
      (by norm_num [round_half_even])]
    norm_num

theorem to_float_nonneg (x : ℚ) (hx : 0 ≤ x) : 0 ≤ to_float x := by
  unfold to_float round_to_precision
  split
  · exact le_refl 0
  · simp only
    have h2 : (0 : ℚ) < (2 : ℚ) ^ (Int.log 2 |x| - (((24 : Nat) : Int) - 1)) := by positivity
    have hn := round_half_even_nonneg (x / (2 : ℚ) ^ (Int.log 2 |x| - (((24 : Nat) : Int) - 1)))
      (div_nonneg hx h2.le)
    have hnq : (0 : ℚ) ≤ ((round_half_even
        (x / (2 : ℚ) ^ (Int.log 2 |x| - (((24 : Nat) : Int) - 1))) : Int) : ℚ) := by
      exact_mod_cast hn
    exact mul_nonneg hnq h2.le

theorem to_float_idem (x : ℚ) : to_float (to_float x) = to_float x := by
  by_cases hx : x = 0
  · subst hx
    simp [to_float, round_to_precision]
  have hpos : (0 : ℚ) < |x| := abs_pos.mpr hx
  have h2pos : ∀ t : Int, (0 : ℚ) < (2 : ℚ) ^ t := fun t => by positivity
  have hup : |x| < (2 : ℚ) ^ (Int.log 2 |x| + 1) := by
    have h := Int.lt_zpow_succ_log_self (show 1 < 2 by norm_num) |x|
    exact_mod_cast h
  have hform : to_float x = ((round_half_even (x / (2 : ℚ) ^ (Int.log 2 |x| - 23)) : Int) : ℚ) *
      (2 : ℚ) ^ (Int.log 2 |x| - 23) := by
    unfold to_float round_to_precision
    rw [if_neg hx]
    norm_num
  set e := Int.log 2 |x| - 23 with he
  set n := round_half_even (x / (2 : ℚ) ^ e) with hn
  have hq : |x / (2 : ℚ) ^ e| < 16777216 := by
    rw [abs_div, abs_of_pos (h2pos e), div_lt_iff₀ (h2pos e)]
    have : (16777216 : ℚ) * (2 : ℚ) ^ e = (2 : ℚ) ^ (Int.log 2 |x| + 1) := by
      have h24 : (16777216 : ℚ) = (2 : ℚ) ^ (24 : Int) := by norm_num
      rw [h24, ← zpow_add₀ (by norm_num : (2 : ℚ) ≠ 0)]
      congr 1
      omega
    rw [this]
    exact hup
  have herr := abs_round_half_even_sub_le (x / (2 : ℚ) ^ e)
  rw [← hn] at herr
  have hnb : |(n : ℚ)| < 16777217 := by
    have h1 : |(n : ℚ)| ≤ |(n : ℚ) - x / (2 : ℚ) ^ e| + |x / (2 : ℚ) ^ e| := by
      have := abs_add ((n : ℚ) - x / (2 : ℚ) ^ e) (x / (2 : ℚ) ^ e)
      simpa using this
    linarith
  have hnz : |n| < 16777217 := by
    have : ((|n| : Int) : ℚ) < ((16777217 : Int) : ℚ) := by
      push_cast
      exact hnb
    exact_mod_cast this
  rw [hform]
  by_cases hlt : |n| < 16777216
  · exact round_to_precision_of_int_mul_zpow 24 n e (by
      have : ((|n| : Int) : ℚ) < ((16777216 : Int) : ℚ) := by exact_mod_cast hlt
      push_cast at this
      norm_num
      exact this)
  · have habs : |n| = 16777216 := by omega
    have hcases : n = 16777216 ∨ n = -16777216 := by
      rcases abs_cases n with ⟨h1, _⟩ | ⟨h1, _⟩ <;> omega
    have h24 : (16777216 : ℚ) = (2 : ℚ) ^ (24 : Int) := by norm_num
    rcases hcases with h | h
    · have hval : ((n : Int) : ℚ) * (2 : ℚ) ^ e = ((1 : Int) : ℚ) * (2 : ℚ) ^ (24 + e) := by
        rw [h, zpow_add₀ (by norm_num : (2 : ℚ) ≠ 0)]
        push_cast
        rw [h24]
        ring
      rw [hval]
      exact round_to_precision_of_int_mul_zpow 24 1 (24 + e) (by norm_num)
    · have hval : ((n : Int) : ℚ) * (2 : ℚ) ^ e = ((-1 : Int) : ℚ) * (2 : ℚ) ^ (24 + e) := by
        rw [h, zpow_add₀ (by norm_num : (2 : ℚ) ≠ 0)]
        push_cast
        rw [h24]
        ring
      rw [hval]
      exact round_to_precision_of_int_mul_zpow 24 (-1) (24 + e) (by norm_num)

theorem to_float_le (x : ℚ) (hx : 0 ≤ x) : to_float x ≤ x + x / 16777216 := by
  have h := abs_round_to_precision_sub_le 24 x
  rw [abs_of_nonneg hx, abs_le] at h
  have h2 : (2 : ℚ) ^ (24 : Nat) = 16777216 := by norm_num
  rw [h2] at h
  unfold to_float
  linarith [h.2]

theorem to_float_fixed_form (x : ℚ) (h : to_float x = x) (hx : x ≠ 0) :
    ∃ n : Int, x = (n : ℚ) * (2 : ℚ) ^ (Int.log 2 |x| - 23) := by
  unfold to_float round_to_precision at h
  rw [if_neg hx] at h
  refine ⟨round_half_even (x / (2 : ℚ) ^ (Int.log 2 |x| - 23)), ?_⟩
  have h' := h.symm
  simp only at h'
  norm_num at h'
  exact h'

theorem to_float_fixed_scaled (x : ℚ) (h : to_float x = x) (hx : 1 ≤ x) :
    ∃ m : Int, x * (2 : ℚ) ^ (23 : Nat) = (m : ℚ) := by
  obtain ⟨n, hn⟩ := to_float_fixed_form x h (by linarith)
  have hL : 0 ≤ Int.log 2 |x| := zero_le_log_two x 0 (by
    rw [abs_of_nonneg (by linarith)]
    simpa using hx)
  obtain ⟨t, ht⟩ := Int.eq_ofNat_of_zero_le hL
  refine ⟨n * 2 ^ t, ?_⟩
  have h2 : (2 : ℚ) ^ (Int.log 2 |x| - 23) * (2 : ℚ) ^ (23 : Nat) = (2 : ℚ) ^ t := by
    rw [← zpow_natCast (2 : ℚ) 23, ← zpow_add₀ (by norm_num : (2 : ℚ) ≠ 0), ht]
    norm_num
  calc x * (2 : ℚ) ^ (23 : Nat)
      = (n : ℚ) * ((2 : ℚ) ^ (Int.log 2 |x| - 23) * (2 : ℚ) ^ (23 : Nat)) := by
        rw [← mul_assoc, ← hn]
    _ = ((n * 2 ^ t : Int) : ℚ) := by
        rw [h2]
        push_cast
        rfl

theorem to_float_fixed_int (x : ℚ) (h : to_float x = x) (hx : 16777216 ≤ x) :
    ∃ n : Int, x = (n : ℚ) := by
  obtain ⟨n, hn⟩ := to_float_fixed_form x h (by linarith)
  have hL : 24 ≤ Int.log 2 |x| := zero_le_log_two x 24 (by
    rw [abs_of_nonneg (by linarith)]
    norm_num
    exact hx)
  obtain ⟨t, ht⟩ := Int.eq_ofNat_of_zero_le (by omega : 0 ≤ Int.log 2 |x| - 23)
  refine ⟨n * 2 ^ t, ?_⟩
  rw [hn, ht, zpow_natCast]
  push_cast
  rfl

theorem to_float_floor (x : ℚ) (h : to_float x = x) (hx : 0 ≤ x) :
    to_float ((Int.floor x : Int) : ℚ) = ((Int.floor x : Int) : ℚ) := by
  by_cases hlarge : 16777216 ≤ x
  · obtain ⟨n, hn⟩ := to_float_fixed_int x h hlarge
    have : Int.floor x = n := by
      rw [hn]
      exact Int.floor_intCast n
    rw [this, ← hn]
    exact h
  · have h0 : 0 ≤ Int.floor x := Int.floor_nonneg.mpr hx
    have h1 : ((Int.floor x : Int) : ℚ) ≤ x := Int.floor_le x
    apply to_float_intCast
    rw [abs_of_nonneg (by exact_mod_cast h0)]
    linarith

theorem floor_eq_of_bounds (x : ℚ) (k : Int) (h1 : (k : ℚ) ≤ x) (h2 : x < (k : ℚ) + 1) :
    floor x = (k : ℚ) := by
  unfold floor
  rw [Int.floor_eq_iff.mpr ⟨h1, h2⟩]

theorem floor_to_double_eq (x : ℚ) (k : Int) (hx : 0 ≤ x)
    (h1 : (k : ℚ) ≤ x - x / 9007199254740992) (h2 : x + x / 9007199254740992 < (k : ℚ) + 1) :
    floor (to_double x) = (k : ℚ) := by
  have h := abs_to_double_sub_le x
  rw [abs_of_nonneg hx, abs_le] at h
  unfold floor
  congr 1
  rw [Int.floor_eq_iff]
  constructor <;> linarith [h.1, h.2]

theorem floor_to_double_div (N D : Int) (hD : 0 < D) (hN : 0 ≤ N)
    (hb : (N : ℚ) < 9007199254740992) :
    floor (to_double ((N : ℚ) / (D : ℚ))) = ((N / D : Int) : ℚ) := by
  have hDq : (0 : ℚ) < (D : ℚ) := by exact_mod_cast hD
  have hNq : (0 : ℚ) ≤ (N : ℚ) := by exact_mod_cast hN
  have hdm : D * (N / D) + N % D = N := Int.ediv_add_emod N D
  have hr0 : 0 ≤ N % D := Int.emod_nonneg N (by omega)
  have hrD : N % D < D := Int.emod_lt_of_pos N hD
  have hq0 : 0 ≤ N / D := Int.ediv_nonneg hN (by omega)
  have hx : (N : ℚ) / (D : ℚ) = ((N / D : Int) : ℚ) + ((N % D : Int) : ℚ) / (D : ℚ) := by
    field_simp
    have : ((D * (N / D) + N % D : Int) : ℚ) = (N : ℚ) := by rw [hdm]
    push_cast at this
    linarith
  by_cases hr : N % D = 0
  · have hx' : (N : ℚ) / (D : ℚ) = ((N / D : Int) : ℚ) := by
      rw [hx, hr]
      simp
    have hle : ((N / D : Int) : ℚ) ≤ (N : ℚ) := by
      rw [← hx']
      exact div_le_self hNq (by exact_mod_cast hD)
    rw [hx', to_double_intCast _ (by
      rw [abs_of_nonneg (by exact_mod_cast hq0)]
      linarith), floor_intCast]
  · have hr1 : (1 : ℚ) ≤ ((N % D : Int) : ℚ) := by
      have : 1 ≤ N % D := by omega
      exact_mod_cast this
    have hr2 : ((N % D : Int) : ℚ) + 1 ≤ (D : ℚ) := by
      have : N % D + 1 ≤ D := by omega
      exact_mod_cast this
    have herr : (N : ℚ) / (D : ℚ) / 9007199254740992 < 1 / (D : ℚ) := by
      rw [div_div, div_lt_div_iff₀ (by positivity) hDq]
      nlinarith
    have hfrac1 : (1 : ℚ) / (D : ℚ) ≤ ((N % D : Int) : ℚ) / (D : ℚ) :=
      div_le_div_of_nonneg_right hr1 hDq.le
    have hfrac2 : ((N % D : Int) : ℚ) / (D : ℚ) + 1 / (D : ℚ) ≤ 1 := by
      rw [← add_div, div_le_one hDq]
      exact hr2
    apply floor_to_double_eq _ _ (div_nonneg hNq hDq.le)
    · rw [hx] at herr ⊢
      linarith
    · rw [hx] at herr ⊢
      linarith

theorem to_double_int_add (N : Int) (x : ℚ) (k : Nat) (m : Int) (hx : x * (2 : ℚ) ^ k = (m : ℚ))
    (hb : |(N : ℚ) + x| * (2 : ℚ) ^ k < 9007199254740992) :
    to_double ((N : ℚ) + x) = (N : ℚ) + x := by
  apply to_double_of_scaled _ k (N * 2 ^ k + m)
  · push_cast
    rw [← hx]
    ring
  · have h2 : (0 : ℚ) < (2 : ℚ) ^ k := by positivity
    have : ((N * 2 ^ k + m : Int) : ℚ) = ((N : ℚ) + x) * (2 : ℚ) ^ k := by
      push_cast
      rw [← hx]
      ring
    rw [this, abs_mul, abs_of_pos h2]
    exact hb

theorem to_double_sub_half (y : ℚ) (k : Nat) (m : Int) (hk : 1 ≤ k)
    (hy : y * (2 : ℚ) ^ k = (m : ℚ))
    (hb : |y - 1524.5| * (2 : ℚ) ^ k < 9007199254740992) :
    to_double (y - 1524.5) = y - 1524.5 := by
  obtain ⟨j, rfl⟩ : ∃ j, k = j + 1 := ⟨k - 1, by omega⟩
  apply to_double_of_scaled _ (j + 1) (m - 3049 * 2 ^ j)
  · push_cast
    rw [← hy]
    norm_num
    ring
  · have h2 : (0 : ℚ) < (2 : ℚ) ^ (j + 1) := by positivity
    have : ((m - 3049 * 2 ^ j : Int) : ℚ) = (y - 1524.5) * (2 : ℚ) ^ (j + 1) := by
      push_cast
      rw [← hy]
      norm_num
      ring
    rw [this, abs_mul, abs_of_pos h2]
    exact hb

theorem to_int32_of_small (n : Int) (h1 : -2147483648 ≤ n) (h2 : n < 2147483648) :
    to_int32 n = n := by
  unfold to_int32
  omega

/-! ## `cal_to_julian_date` in machine arithmetic -/

theorem floor_to_double_month (M : Int) (hM : 3 ≤ M) (hM' : M ≤ 14) :
    floor (to_double (to_double 30.6001 * to_double ((M + 1 : Int) : ℚ))) =
      (((306001 * (M + 1)) / 10000 : Int) : ℚ) := by
  have hc := to_double_consts.2.2.2.2.2.2.1
  have hint : to_double ((M + 1 : Int) : ℚ) = ((M + 1 : Int) : ℚ) := by
    apply to_double_intCast
    have h1 : (0 : ℚ) ≤ ((M + 1 : Int) : ℚ) := by exact_mod_cast (by omega : 0 ≤ M + 1)
    have h2 : ((M + 1 : Int) : ℚ) ≤ 15 := by exact_mod_cast (by omega : M + 1 ≤ 15)
    rw [abs_of_nonneg h1]
    linarith
  rw [hc, hint]
  interval_cases M <;>
  · apply floor_to_double_eq
    · norm_num
    · norm_num
    · norm_num

theorem floor_to_double_year (Y : Int) (hY : |((1461 * Y : Int) : ℚ)| < 9007199254740992) :
    floor (to_double (to_double 365.25 * to_double (Y : ℚ))) = (((1461 * Y) / 4 : Int) : ℚ) := by
  have hc := to_double_consts.1
  have hYq : |(Y : ℚ)| < 9007199254740992 := by
    have h1 : |((1461 * Y : Int) : ℚ)| = 1461 * |(Y : ℚ)| := by
      push_cast
      rw [abs_mul]
      norm_num
    rw [h1] at hY
    have : 0 ≤ |(Y : ℚ)| := abs_nonneg _
    linarith
  rw [hc, to_double_intCast Y hYq,
    to_double_of_scaled (365.25 * (Y : ℚ)) 2 (1461 * Y) (by push_cast; norm_num; ring) hY,
    floor_365]

theorem machine_correction_eq (Y : Int) (hY0 : 0 ≤ Y) (hY : (Y : ℚ) < 9007199254740992) :
    truncToInt (to_double (to_double
        ((2 - truncToInt (floor (to_double ((Y.tdiv 100 : Int) : ℚ))) : Int) : ℚ) +
      floor (to_double
        (((truncToInt (floor (to_double ((Y.tdiv 100 : Int) : ℚ)))).tdiv 4 : Int) : ℚ)))) =
      2 - Y / 100 + Y / 100 / 4 := by
  have h100 : Y.tdiv 100 = Y / 100 := Int.tdiv_eq_ediv hY0 (by norm_num)
  have hA0 : 0 ≤ Y / 100 := by omega
  have hAle : Y / 100 ≤ Y := by omega
  have h4 : (Y / 100).tdiv 4 = Y / 100 / 4 := Int.tdiv_eq_ediv hA0 (by norm_num)
  have hYq0 : (0 : ℚ) ≤ (Y : ℚ) := by exact_mod_cast hY0
  have hAq0 : (0 : ℚ) ≤ ((Y / 100 : Int) : ℚ) := by exact_mod_cast hA0
  have hAq : ((Y / 100 : Int) : ℚ) ≤ (Y : ℚ) := by exact_mod_cast hAle
  have hBq0 : (0 : ℚ) ≤ ((Y / 100 / 4 : Int) : ℚ) := by
    exact_mod_cast (by omega : 0 ≤ Y / 100 / 4)
  have hBq : ((Y / 100 / 4 : Int) : ℚ) ≤ ((Y / 100 : Int) : ℚ) := by
    exact_mod_cast (by omega : Y / 100 / 4 ≤ Y / 100)
  have e1 : to_double ((Y / 100 : Int) : ℚ) = ((Y / 100 : Int) : ℚ) :=
    to_double_intCast _ (by rw [abs_of_nonneg hAq0]; linarith)
  rw [h100, e1, floor_intCast, truncToInt_intCast, h4]
  have e2 : to_double ((2 - Y / 100 : Int) : ℚ) = ((2 - Y / 100 : Int) : ℚ) := by
    apply to_double_intCast
    rw [abs_lt]
    push_cast
    constructor <;> linarith
  have e3 : to_double ((Y / 100 / 4 : Int) : ℚ) = ((Y / 100 / 4 : Int) : ℚ) :=
    to_double_intCast _ (by rw [abs_of_nonneg hBq0]; linarith)
  rw [e2, e3, floor_intCast, ← Int.cast_add]
  have e4 : to_double ((2 - Y / 100 + Y / 100 / 4 : Int) : ℚ)
      = ((2 - Y / 100 + Y / 100 / 4 : Int) : ℚ) := by
    apply to_double_intCast
    rw [abs_lt]
    push_cast
    constructor <;> linarith
  rw [e4, truncToInt_intCast]

theorem machine_sum_exact_sharp (N b : Int) (day : ℚ) (k : Nat) (m : Int) (hk : 1 ≤ k)
    (hday : day * (2 : ℚ) ^ k = (m : ℚ)) (hd0 : 0 ≤ day) (hN : 0 ≤ N) (hb : b ≤ 0)
    (hNb : 0 ≤ N + b)
    (hS : ((N : ℚ) + day) * (2 : ℚ) ^ k < 9007199254740992)
    (hC : (1525 : ℚ) * (2 : ℚ) ^ k < 9007199254740992) :
    to_double (to_double (to_double (to_double (N : ℚ) + day) + to_double (b : ℚ)) -
      to_double 1524.5) = ((N + b : Int) : ℚ) + day - 1524.5 := by
  have h2 : (0 : ℚ) < (2 : ℚ) ^ k := by positivity
  have h2' : (2 : ℚ) ≤ (2 : ℚ) ^ k := by
    calc (2 : ℚ) = (2 : ℚ) ^ 1 := by norm_num
      _ ≤ (2 : ℚ) ^ k := pow_le_pow_right₀ (by norm_num) hk
  have hNq : (0 : ℚ) ≤ (N : ℚ) := by exact_mod_cast hN
  have hbq : (b : ℚ) ≤ 0 := by exact_mod_cast hb
  have hNbq : (0 : ℚ) ≤ (N : ℚ) + (b : ℚ) := by exact_mod_cast hNb
  have hT : ∀ s : ℚ, |s| ≤ (N : ℚ) + day → |s| * (2 : ℚ) ^ k < 9007199254740992 :=
    fun s hs => lt_of_le_of_lt (mul_le_mul_of_nonneg_right hs (le_of_lt h2)) hS
  have hT' : ∀ s : ℚ, |s| ≤ 1525 → |s| * (2 : ℚ) ^ k < 9007199254740992 :=
    fun s hs => lt_of_le_of_lt (mul_le_mul_of_nonneg_right hs (le_of_lt h2)) hC
  have hT1 : ∀ s : ℚ, |s| ≤ (N : ℚ) + day → |s| < 9007199254740992 := by
    intro s hs
    have h := hT s hs
    have : |s| * 1 ≤ |s| * (2 : ℚ) ^ k :=
      mul_le_mul_of_nonneg_left (by linarith) (abs_nonneg s)
    linarith
  have e1 : to_double (N : ℚ) = (N : ℚ) :=
    to_double_intCast N (hT1 _ (by rw [abs_of_nonneg hNq]; linarith))
  have e2 : to_double ((N : ℚ) + day) = (N : ℚ) + day :=
    to_double_int_add N day k m hday (hT _ (by rw [abs_of_nonneg (by linarith)]))
  have e3 : to_double (b : ℚ) = (b : ℚ) :=
    to_double_intCast b (hT1 _ (by rw [abs_of_nonpos hbq]; linarith))
  have e4 : to_double (((N + b : Int) : ℚ) + day) = ((N + b : Int) : ℚ) + day :=
    to_double_int_add (N + b) day k m hday
      (hT _ (by push_cast; rw [abs_of_nonneg (by linarith)]; linarith))
  have e5 : to_double (((N + b : Int) : ℚ) + day - 1524.5) = ((N + b : Int) : ℚ) + day - 1524.5 := by
    apply to_double_sub_half _ k ((N + b) * 2 ^ k + m) hk
    · push_cast
      rw [← hday]
      ring
    · by_cases hbig : (1524.5 : ℚ) ≤ ((N + b : Int) : ℚ) + day
      · apply hT
        rw [abs_of_nonneg (by linarith)]
        push_cast
        norm_num
        linarith
      · apply hT'
        push_cast at hbig ⊢
        rw [abs_le]
        constructor <;> norm_num at hbig ⊢ <;> linarith
  have e6 : (N : ℚ) + day + (b : ℚ) = ((N + b : Int) : ℚ) + day := by
    push_cast
    ring
  rw [e1, e2, e3, e6, e4, to_double_consts.2.1, e5]

theorem day_number_parts (year month : Int) (hy : -4712 ≤ year) (hm : 1 ≤ month)
    (hm' : month ≤ 12) :
    3 ≤ shifted_year year month + 4716 ∧ shifted_year year month + 4716 ≤ year + 4716 ∧
    3 ≤ shifted_month month ∧ shifted_month month ≤ 14 ∧
    0 ≤ (1461 * (shifted_year year month + 4716)) / 4 + (306001 * (shifted_month month + 1)) / 10000
      ∧
    (1461 * (shifted_year year month + 4716)) / 4 + (306001 * (shifted_month month + 1)) / 10000
      ≤ 366 * (year + 4716) + 459 ∧
    (1582 ≤ shifted_year year month →
      2 - shifted_year year month / 100 + shifted_year year month / 100 / 4 ≤ 0 ∧
      0 ≤ (1461 * (shifted_year year month + 4716)) / 4 +
        (306001 * (shifted_month month + 1)) / 10000 +
        (2 - shifted_year year month / 100 + shifted_year year month / 100 / 4)) := by
  obtain ⟨hM3, hM14, -, -, -, -, hYy, -, -⟩ := shifted_bounds year month hm hm'
  generalize shifted_year year month = Y at *
  generalize shifted_month month = M at *
  refine ⟨by omega, by omega, hM3, hM14, by omega, by omega, fun h => ⟨by omega, by omega⟩⟩

theorem day_number_floors_le (year month : Int) (hm : 1 ≤ month) (hm' : month ≤ 12) :
    4 * ((1461 * (shifted_year year month + 4716)) / 4 +
      (306001 * (shifted_month month + 1)) / 10000) ≤ 1461 * (year + 4716) + 1588 ∧
    shifted_year year month ≤ year := by
  unfold shifted_year shifted_month
  split <;> constructor <;> omega

theorem day_number_base_le_floors (year month : Int) (day : ℚ) (hy : -4712 ≤ year)
    (hm : 1 ≤ month) (hm' : month ≤ 12) :
    day_number_base year month day ≤ (1461 * (shifted_year year month + 4716)) / 4 +
      (306001 * (shifted_month month + 1)) / 10000 := by
  obtain ⟨hY3, hYle, hM3, hM14, hN0, hNle, hgreg⟩ := day_number_parts year month hy hm hm'
  unfold day_number_base
  simp only
  cases hpre : is_pre_gregorian (shifted_year year month) (shifted_month month) day
  · have hge := is_pre_gregorian_false_ge _ _ _ hpre
    obtain ⟨hb0, -⟩ := hgreg hge
    simp only [Bool.false_eq_true, if_false]
    omega
  · simp only [if_true]
    omega

theorem machine_cal_to_julian_date_core (year month : Int) (day jd : ℚ) (k : Nat) (m : Int)
    (hk : 1 ≤ k) (hday : day * (2 : ℚ) ^ k = (m : ℚ)) (hfl : to_float day = day)
    (hd0 : 0 ≤ day) (hy : -4712 ≤ year) (hm : 1 ≤ month) (hm' : month ≤ 12)
    (hA : 1461 * ((shifted_year year month : ℚ) + 4716) < 9007199254740992)
    (hS : ((((1461 * (shifted_year year month + 4716)) / 4 +
      (306001 * (shifted_month month + 1)) / 10000 : Int) : ℚ) + day) * (2 : ℚ) ^ k
        < 9007199254740992)
    (hC : (1525 : ℚ) * (2 : ℚ) ^ k < 9007199254740992)
    (hmiss : is_missing_gregorian_date year month day = false) :
    Machine.cal_to_julian_date year month day jd =
      Call.ret MeeusError_Success
        (((day_number_base year month day : Int) : ℚ) + day - 1524.5) := by
  obtain ⟨hY3, hYle, hM3, hM14, hN0, hNle, hgreg⟩ := day_number_parts year month hy hm hm'
  have h1 : ¬ ¬ (year ≥ -4712) := by omega
  have h2 : ¬ (year < -4712 ∨ is_missing_gregorian_date year month day = true) := by
    rw [hmiss]
    simp
    omega
  have hYs : (if month < 3 then (year - 1, month + 12) else (year, month)).1
      = shifted_year year month := by
    unfold shifted_year
    split <;> rfl
  have hMs : (if month < 3 then (year - 1, month + 12) else (year, month)).2
      = shifted_month month := by
    unfold shifted_month
    split <;> rfl
  have hY3q : (3 : ℚ) ≤ ((shifted_year year month + 4716 : Int) : ℚ) := by exact_mod_cast hY3
  have hAY : |((1461 * (shifted_year year month + 4716) : Int) : ℚ)| < 9007199254740992 := by
    rw [abs_of_nonneg (by push_cast at hY3q ⊢; linarith)]
    push_cast
    linarith
  simp only [Machine.cal_to_julian_date, hfl, if_neg h1, if_neg h2, hYs, hMs,
    floor_to_double_year _ hAY, floor_to_double_month _ hM3 hM14, ← Int.cast_add]
  congr 1
  cases hpre : is_pre_gregorian (shifted_year year month) (shifted_month month) day
  · have hge := is_pre_gregorian_false_ge _ _ _ hpre
    obtain ⟨hb0, hNb⟩ := hgreg hge
    have hYq : ((shifted_year year month : Int) : ℚ) < 9007199254740992 := by
      push_cast at hY3q
      linarith
    simp only [Bool.false_eq_true, if_false, day_number_base, hpre,
      machine_correction_eq _ (by omega) hYq]
    exact machine_sum_exact_sharp _ _ day k m hk hday hd0 hN0 hb0 hNb hS hC
  · simp only [if_true, day_number_base, hpre]
    have h := machine_sum_exact_sharp _ 0 day k m hk hday hd0 hN0 (le_refl 0)
      (by simpa using hN0) hS hC
    exact h

theorem machine_cal_to_julian_date_eq (year month : Int) (day jd : ℚ) (k : Nat) (m : Int)
    (hk : 1 ≤ k) (hday : day * (2 : ℚ) ^ k = (m : ℚ)) (hfl : to_float day = day)
    (hd0 : 0 ≤ day) (hy : -4712 ≤ year) (hm : 1 ≤ month) (hm' : month ≤ 12)
    (hA : 1461 * ((year : ℚ) + 4716) < 9007199254740992)
    (hbound : (366 * ((year : ℚ) + 4716) + day + 2000) * (2 : ℚ) ^ k ≤ 9007199254740992)
    (hmiss : is_missing_gregorian_date year month day = false) :
    Machine.cal_to_julian_date year month day jd =
      Call.ret MeeusError_Success
        (((day_number_base year month day : Int) : ℚ) + day - 1524.5) := by
  obtain ⟨-, -, -, -, -, hNle, -⟩ := day_number_parts year month hy hm hm'
  obtain ⟨-, hYle⟩ := day_number_floors_le year month hm hm'
  have h2k : (0 : ℚ) < (2 : ℚ) ^ k := by positivity
  have hyq : (-4712 : ℚ) ≤ (year : ℚ) := by exact_mod_cast hy
  have hYq : (shifted_year year month : ℚ) ≤ (year : ℚ) := by exact_mod_cast hYle
  have hNleq : (((1461 * (shifted_year year month + 4716)) / 4 +
      (306001 * (shifted_month month + 1)) / 10000 : Int) : ℚ) ≤
      366 * ((year : ℚ) + 4716) + 459 := by exact_mod_cast hNle
  exact machine_cal_to_julian_date_core year month day jd k m hk hday hfl hd0 hy hm hm'
    (by linarith)
    (lt_of_lt_of_le (mul_lt_mul_of_pos_right (by linarith) h2k) hbound)
    (lt_of_lt_of_le (mul_lt_mul_of_pos_right (by linarith) h2k) hbound) hmiss

theorem machine_cal_to_julian_date_missing (year month : Int) (day jd : ℚ) (hy : -4712 ≤ year)
    (hmiss : is_missing_gregorian_date year month (to_float day) = true) :
    Machine.cal_to_julian_date year month day jd = Call.ret MeeusError_InvalidDate jd := by
  have h1 : ¬ ¬ (year ≥ -4712) := by omega
  simp only [Machine.cal_to_julian_date, if_neg h1, hmiss, or_true, if_true]

theorem machine_cal_to_julian_date_status (year month : Int) (day jd : ℚ) (hy : -4712 ≤ year)
    (hmiss : is_missing_gregorian_date year month (to_float day) = false) :
    (Machine.cal_to_julian_date year month day jd).status = some MeeusError_Success := by
  have h1 : ¬ ¬ (year ≥ -4712) := by omega
  have h2 : ¬ (year < -4712 ∨ is_missing_gregorian_date year month (to_float day) = true) := by
    rw [hmiss]
    simp
    omega
  simp only [Machine.cal_to_julian_date, if_neg h1, if_neg h2]
  rfl

theorem machine_cal_to_julian_date_float_arg (year month : Int) (x y jd : ℚ)
    (hx : to_float x = y) (hy : to_float y = y) :
    Machine.cal_to_julian_date year month x jd = Machine.cal_to_julian_date year month y jd := by
  simp only [Machine.cal_to_julian_date, hx, hy]

theorem machine_cal_to_julian_date_exact_core (year month : Int) (day jd : ℚ) (k : Nat)
    (m : Int) (hk : 1 ≤ k) (hday : day * (2 : ℚ) ^ k = (m : ℚ)) (hfl : to_float day = day)
    (hd0 : 0 ≤ day) (hm : 1 ≤ month) (hm' : month ≤ 12)
    (hA : 1461 * ((shifted_year year month : ℚ) + 4716) < 9007199254740992)
    (hS : ((((1461 * (shifted_year year month + 4716)) / 4 +
      (306001 * (shifted_month month + 1)) / 10000 : Int) : ℚ) + day) * (2 : ℚ) ^ k
        < 9007199254740992)
    (hC : (1525 : ℚ) * (2 : ℚ) ^ k < 9007199254740992) :
    Machine.cal_to_julian_date year month day jd = cal_to_julian_date year month day jd := by
  by_cases hy : -4712 ≤ year
  · cases hmiss : is_missing_gregorian_date year month day
    · rw [machine_cal_to_julian_date_core year month day jd k m hk hday hfl hd0 hy hm hm' hA hS
        hC hmiss, cal_to_julian_date_eq year month day jd hy hmiss]
    · rw [machine_cal_to_julian_date_missing year month day jd hy (by rw [hfl]; exact hmiss),
        cal_to_julian_date_missing year month day jd hy hmiss]
  · have h1 : ¬ (year ≥ -4712) := hy
    simp only [Machine.cal_to_julian_date, cal_to_julian_date, if_pos h1]

theorem machine_cal_to_julian_date_exact (year month : Int) (day jd : ℚ) (k : Nat) (m : Int)
    (hk : 1 ≤ k) (hday : day * (2 : ℚ) ^ k = (m : ℚ)) (hfl : to_float day = day)
    (hd0 : 0 ≤ day) (hm : 1 ≤ month) (hm' : month ≤ 12)
    (hA : 1461 * ((year : ℚ) + 4716) < 9007199254740992)
    (hbound : (366 * ((year : ℚ) + 4716) + day + 2000) * (2 : ℚ) ^ k ≤ 9007199254740992) :
    Machine.cal_to_julian_date year month day jd = cal_to_julian_date year month day jd := by
  by_cases hy : -4712 ≤ year
  · cases hmiss : is_missing_gregorian_date year month day
    · rw [machine_cal_to_julian_date_eq year month day jd k m hk hday hfl hd0 hy hm hm' hA hbound
        hmiss, cal_to_julian_date_eq year month day jd hy hmiss]
    · rw [machine_cal_to_julian_date_missing year month day jd hy (by rw [hfl]; exact hmiss),
        cal_to_julian_date_missing year month day jd hy hmiss]
  · have h1 : ¬ (year ≥ -4712) := hy
    simp only [Machine.cal_to_julian_date, cal_to_julian_date, if_pos h1]

theorem machine_cal_to_julian_date_whole (year month n : Int) (jd : ℚ) (hy : -4712 ≤ year)
    (hyb : year ≤ 5874898) (hm : 1 ≤ month) (hm' : month ≤ 12) (hn : 0 ≤ n) (hn' : n ≤ 31)
    (hmiss : ¬ (year = 1582 ∧ month = 10 ∧ 5 ≤ (n : ℚ) ∧ (n : ℚ) ≤ 14)) :
    Machine.cal_to_julian_date year month (n : ℚ) jd =
      Call.ret MeeusError_Success
        (((day_number_base year month (n : ℚ) : Int) : ℚ) + (n : ℚ) - 1524.5) := by
  have hyq : (year : ℚ) ≤ 5874898 := by exact_mod_cast hyb
  have hnq : (0 : ℚ) ≤ (n : ℚ) := by exact_mod_cast hn
  have hnq' : (n : ℚ) ≤ 31 := by exact_mod_cast hn'
  exact machine_cal_to_julian_date_eq year month _ jd 1 (2 * n) (by norm_num)
    (by push_cast; ring) (to_float_intCast n (by rw [abs_of_nonneg hnq]; linarith)) hnq hy hm hm'
    (by linarith) (by norm_num; linarith) (is_missing_false_of_not_gap _ _ _ hmiss)

theorem machine_cal_to_julian_date_unfold (year month : Int) (day jd : ℚ)
    (hfl : to_float day = day) (hy : -4712 ≤ year) (hm : 1 ≤ month) (hm' : month ≤ 12)
    (hY : (year : ℚ) < 9007199254740992)
    (hmiss : is_missing_gregorian_date year month day = false) :
    Machine.cal_to_julian_date year month day jd =
      Call.ret MeeusError_Success
        (to_double (to_double (to_double (to_double
          (floor (to_double (to_double 365.25 *
            to_double ((shifted_year year month + 4716 : Int) : ℚ))) +
            (((306001 * (shifted_month month + 1)) / 10000 : Int) : ℚ)) + day) +
          to_double (((if is_pre_gregorian (shifted_year year month) (shifted_month month) day
            then 0 else 2 - shifted_year year month / 100 + shifted_year year month / 100 / 4
            : Int)) : ℚ)) - 1524.5)) := by
  obtain ⟨hY3, hYle, hM3, hM14, hN0, hNle, hgreg⟩ := day_number_parts year month hy hm hm'
  obtain ⟨-, h1524, -, -, -, -, -, -⟩ := to_double_consts
  have h1 : ¬ ¬ (year ≥ -4712) := by omega
  have h2 : ¬ (year < -4712 ∨ is_missing_gregorian_date year month day = true) := by
    rw [hmiss]
    simp
    omega
  have hYs : (if month < 3 then (year - 1, month + 12) else (year, month)).1
      = shifted_year year month := by
    unfold shifted_year
    split <;> rfl
  have hMs : (if month < 3 then (year - 1, month + 12) else (year, month)).2
      = shifted_month month := by
    unfold shifted_month
    split <;> rfl
  simp only [Machine.cal_to_julian_date, hfl, if_neg h1, if_neg h2, hYs, hMs,
    floor_to_double_month _ hM3 hM14, h1524]
  congr 5
  cases hpre : is_pre_gregorian (shifted_year year month) (shifted_month month) day
  · have hge := is_pre_gregorian_false_ge _ _ _ hpre
    have hYq : ((shifted_year year month : Int) : ℚ) < 9007199254740992 := by
      have : ((shifted_year year month + 4716 : Int) : ℚ) ≤ ((year + 4716 : Int) : ℚ) := by
        exact_mod_cast hYle
      push_cast at this
      linarith
    simp only [Bool.false_eq_true, if_false, machine_correction_eq _ (by omega) hYq]
  · simp only [if_true]

theorem cal_sum_steps (a q b : Int) (day p pf s1 s2 s3 s4 : ℚ)
    (hA : to_double (a : ℚ) = (a : ℚ)) (hP : to_double (365.25 * (a : ℚ)) = p)
    (hPf : floor p = pf) (h1 : to_double (pf + (q : ℚ)) = s1) (h2 : to_double (s1 + day) = s2)
    (hb : to_double (b : ℚ) = (b : ℚ)) (h3 : to_double (s2 + (b : ℚ)) = s3)
    (h4 : to_double (s3 - 1524.5) = s4) :
    to_double (to_double (to_double (to_double
      (floor (to_double (to_double 365.25 * to_double (a : ℚ))) + (q : ℚ)) + day) +
        to_double (b : ℚ)) - 1524.5) = s4 := by
  rw [to_double_consts.1, hA, hP, hPf, h1, h2, hb, h3, h4]

/-! ## `julian_date_to_cal` in machine arithmetic -/

theorem machine_alpha (z : Int) (hz : 2299161 ≤ z) (hb : z < 1000000000000000) :
    floor (to_double (to_double (to_double (z : ℚ) - to_double 1867216.25) /
      to_double 36524.25)) = (((4 * z - 7468865) / 146097 : Int) : ℚ) := by
  obtain ⟨-, -, -, h4, h5, -, -, -⟩ := to_double_consts
  have hzq : (2299161 : ℚ) ≤ (z : ℚ) := by exact_mod_cast hz
  have hbq : (z : ℚ) < 1000000000000000 := by exact_mod_cast hb
  have h1 : to_double (z : ℚ) = (z : ℚ) :=
    to_double_intCast z (by rw [abs_of_nonneg (by linarith)]; linarith)
  have h2 : to_double ((z : ℚ) - 1867216.25) = (z : ℚ) - 1867216.25 := by
    apply to_double_of_scaled _ 2 (4 * z - 7468865)
    · push_cast
      norm_num
      ring
    · rw [abs_of_nonneg (by push_cast; linarith)]
      push_cast
      linarith
  have h3 : ((z : ℚ) - 1867216.25) / 36524.25 =
      ((4 * z - 7468865 : Int) : ℚ) / ((146097 : Int) : ℚ) := by
    push_cast
    norm_num
    ring
  rw [h1, h4, h5, h2, h3]
  exact floor_to_double_div _ _ (by norm_num) (by omega) (by push_cast; linarith)

theorem machine_quarter (a : Int) (ha : 0 ≤ a) (hb : (a : ℚ) < 9007199254740992) :
    floor (to_double ((a : ℚ) / to_double 4.0)) = ((a / 4 : Int) : ℚ) := by
  obtain ⟨-, -, -, -, -, h6, -, -⟩ := to_double_consts
  rw [h6]
  exact_mod_cast floor_to_double_div a 4 (by norm_num) ha hb

theorem gregorian_adjust_bounds (z : Int) (hz : 0 ≤ z) :
    0 ≤ gregorian_adjust z ∧ gregorian_adjust z ≤ 2 * z + 2 := by
  unfold gregorian_adjust
  split
  · omega
  · constructor <;> simp only <;> omega

theorem machine_adjust (z : Int) (hz : 0 ≤ z) (hb : z < 1000000000000000) :
    (if z < 2299161 then to_double (z : ℚ)
      else
        to_double (to_double (to_double ((z + 1 : Int) : ℚ) +
          floor (to_double (to_double (to_double (z : ℚ) - to_double 1867216.25) /
            to_double 36524.25))) -
          floor (to_double (floor (to_double (to_double (to_double (z : ℚ) -
            to_double 1867216.25) / to_double 36524.25)) / to_double 4.0)))) =
      ((gregorian_adjust z : Int) : ℚ) := by
  have hzq : (0 : ℚ) ≤ (z : ℚ) := by exact_mod_cast hz
  have hbq : (z : ℚ) < 1000000000000000 := by exact_mod_cast hb
  unfold gregorian_adjust
  split
  · exact to_double_intCast z (by rw [abs_of_nonneg hzq]; linarith)
  · have hz' : 2299161 ≤ z := by omega
    have hal0 : 0 ≤ (4 * z - 7468865) / 146097 := Int.ediv_nonneg (by omega) (by norm_num)
    have hal1 : (4 * z - 7468865) / 146097 ≤ z := by omega
    have hal0q : (0 : ℚ) ≤ (((4 * z - 7468865) / 146097 : Int) : ℚ) := by exact_mod_cast hal0
    have hal1q : (((4 * z - 7468865) / 146097 : Int) : ℚ) ≤ (z : ℚ) := by exact_mod_cast hal1
    have hq0 : 0 ≤ (4 * z - 7468865) / 146097 / 4 := by omega
    have hq1 : (4 * z - 7468865) / 146097 / 4 ≤ (4 * z - 7468865) / 146097 := by omega
    rw [machine_alpha z hz' hb, machine_quarter _ hal0 (by linarith),
      to_double_intCast (z + 1) (by
        rw [abs_of_nonneg (by push_cast; linarith)]
        push_cast
        linarith),
      ← Int.cast_add, to_double_intCast _ (by
        rw [abs_of_nonneg (by push_cast; linarith)]
        push_cast
        linarith),
      ← Int.cast_sub, to_double_intCast _ (by
        have h0 : 0 ≤ z + 1 + (4 * z - 7468865) / 146097 - (4 * z - 7468865) / 146097 / 4 := by
          omega
        have h1 : z + 1 + (4 * z - 7468865) / 146097 - (4 * z - 7468865) / 146097 / 4
            ≤ 2 * z + 1 := by omega
        rw [abs_of_nonneg (by exact_mod_cast h0)]
        have h1q : ((z + 1 + (4 * z - 7468865) / 146097 - (4 * z - 7468865) / 146097 / 4 : Int)
            : ℚ) ≤ 2 * (z : ℚ) + 1 := by exact_mod_cast h1
        linarith)]

theorem year_quotient_residue (b : Int) :
    7305 * ((20 * b - 2442) / 7305) + 3 ≤ 20 * b - 2442 ∧
    20 * b - 2442 + 2 ≤ 7305 * ((20 * b - 2442) / 7305 + 1) := by
  omega

theorem machine_c (b : Int) (hb0 : 1524 ≤ b) (hb : b ≤ 100000000000000) :
    floor (to_double (to_double ((b : ℚ) - to_double 122.1) / to_double 365.25)) =
      (((20 * b - 2442) / 7305 : Int) : ℚ) := by
  obtain ⟨h1, -, -, -, -, -, -, h8⟩ := to_double_consts
  obtain ⟨hr1, hr2⟩ := year_quotient_residue b
  have hr1q : 7305 * (((20 * b - 2442) / 7305 : Int) : ℚ) + 3 ≤ 20 * (b : ℚ) - 2442 := by
    exact_mod_cast hr1
  have hr2q : 20 * (b : ℚ) - 2442 + 2 ≤ 7305 * ((((20 * b - 2442) / 7305 : Int) : ℚ) + 1) := by
    exact_mod_cast hr2
  have hb0q : (1524 : ℚ) ≤ (b : ℚ) := by exact_mod_cast hb0
  have hbq : (b : ℚ) ≤ 100000000000000 := by exact_mod_cast hb
  rw [h1, h8]
  have hy0 : (0 : ℚ) ≤ (b : ℚ) - 4296011832046387 / 35184372088832 := by linarith
  obtain ⟨hy1, hy2⟩ := to_double_bounds_of_nonneg _ hy0
  set y := to_double ((b : ℚ) - 4296011832046387 / 35184372088832) with hy
  have hypos : (0 : ℚ) ≤ y := by linarith
  have hx0 : (0 : ℚ) ≤ y / 365.25 := by positivity
  obtain ⟨hx1, hx2⟩ := to_double_bounds_of_nonneg _ hx0
  have hdiv : y / 365.25 = y * (4 / 1461) := by
    norm_num
    ring
  rw [hdiv] at hx1 hx2 ⊢
  apply floor_eq_of_bounds
  · linarith
  · linarith

theorem machine_d (c : Int) (hc : |((1461 * c : Int) : ℚ)| < 9007199254740992) :
    floor (to_double (to_double 365.25 * (c : ℚ))) = (((1461 * c) / 4 : Int) : ℚ) := by
  have h := floor_to_double_year c hc
  have hc' : |(c : ℚ)| < 9007199254740992 := by
    have : |((1461 * c : Int) : ℚ)| = 1461 * |(c : ℚ)| := by
      push_cast
      rw [abs_mul]
      norm_num
    rw [this] at hc
    have := abs_nonneg (c : ℚ)
    linarith
  rwa [to_double_intCast c hc'] at h

theorem month_quotient_residue (n : Int) (h1 : 122 ≤ n) (h2 : n ≤ 488) :
    306001 * ((10000 * n) / 306001) + 1 ≤ 10000 * n ∧
    10000 * n + 1 ≤ 306001 * ((10000 * n) / 306001 + 1) ∧
    (10000 * n) / 306001 ≤ 15 := by
  omega

theorem machine_e (n : Int) (h1 : 122 ≤ n) (h2 : n ≤ 488) :
    floor (to_double (to_double (n : ℚ) / to_double 30.6001)) =
      (((10000 * n) / 306001 : Int) : ℚ) := by
  obtain ⟨-, -, -, -, -, -, h7, -⟩ := to_double_consts
  obtain ⟨hr1, hr2, hr3⟩ := month_quotient_residue n h1 h2
  have hr1q : 306001 * (((10000 * n) / 306001 : Int) : ℚ) + 1 ≤ 10000 * (n : ℚ) := by
    exact_mod_cast hr1
  have hr2q : 10000 * (n : ℚ) + 1 ≤ 306001 * ((((10000 * n) / 306001 : Int) : ℚ) + 1) := by
    exact_mod_cast hr2
  have hr3q : (((10000 * n) / 306001 : Int) : ℚ) ≤ 15 := by exact_mod_cast hr3
  have h1q : (122 : ℚ) ≤ (n : ℚ) := by exact_mod_cast h1
  have h2q : (n : ℚ) ≤ 488 := by exact_mod_cast h2
  rw [h7, to_double_intCast n (by rw [abs_of_nonneg (by linarith)]; linarith)]
  have hdiv : (n : ℚ) / (8613162434843745 / 281474976710656) =
      (n : ℚ) * (281474976710656 / 8613162434843745) := by
    norm_num
    ring
  rw [hdiv]
  apply floor_to_double_eq
  · positivity
  · linarith
  · linarith

theorem machine_306 (e : Int) (h1 : 4 ≤ e) (h2 : e ≤ 15) :
    floor (to_double (to_double 30.6001 * (e : ℚ))) = (((306001 * e) / 10000 : Int) : ℚ) := by
  have h := floor_to_double_month (e - 1) (by omega) (by omega)
  have he : e - 1 + 1 = e := by omega
  rw [he] at h
  have h1q : (4 : ℚ) ≤ (e : ℚ) := by exact_mod_cast h1
  have h2q : (e : ℚ) ≤ 15 := by exact_mod_cast h2
  rwa [to_double_intCast e (by rw [abs_of_nonneg (by linarith)]; linarith)] at h

theorem day_of_month_bounds (n : Int) (h1 : 122 ≤ n) (h2 : n ≤ 488) :
    1 ≤ n - (306001 * ((10000 * n) / 306001)) / 10000 ∧
    n - (306001 * ((10000 * n) / 306001)) / 10000 ≤ 31 := by
  have he : 3 ≤ (10000 * n) / 306001 ∧ (10000 * n) / 306001 ≤ 15 := by omega
  have hdm : 306001 * ((10000 * n) / 306001) ≤ 10000 * n ∧
      10000 * n < 306001 * ((10000 * n) / 306001) + 306001 := by omega
  generalize (10000 * n) / 306001 = e at he hdm ⊢
  obtain ⟨he1, he2⟩ := he
  interval_cases e <;> omega

theorem cal_of_adjusted_parts (b : Int) (hb : 1524 ≤ b) :
    0 ≤ (20 * b - 2442) / 7305 ∧ (20 * b - 2442) / 7305 ≤ b ∧
    0 ≤ (1461 * ((20 * b - 2442) / 7305)) / 4 ∧
    122 ≤ b - (1461 * ((20 * b - 2442) / 7305)) / 4 ∧
    b - (1461 * ((20 * b - 2442) / 7305)) / 4 ≤ 488 ∧
    4 ≤ (10000 * (b - (1461 * ((20 * b - 2442) / 7305)) / 4)) / 306001 ∧
    (10000 * (b - (1461 * ((20 * b - 2442) / 7305)) / 4)) / 306001 ≤ 15 ∧
    1 ≤ b - (1461 * ((20 * b - 2442) / 7305)) / 4 -
      (306001 * ((10000 * (b - (1461 * ((20 * b - 2442) / 7305)) / 4)) / 306001)) / 10000 ∧
    b - (1461 * ((20 * b - 2442) / 7305)) / 4 -
      (306001 * ((10000 * (b - (1461 * ((20 * b - 2442) / 7305)) / 4)) / 306001)) / 10000 ≤ 31 := by
  have h1 : 122 ≤ b - (1461 * ((20 * b - 2442) / 7305)) / 4 ∧
      b - (1461 * ((20 * b - 2442) / 7305)) / 4 ≤ 488 := by omega
  obtain ⟨hd1, hd2⟩ := day_of_month_bounds _ h1.1 h1.2
  refine ⟨by omega, by omega, by omega, h1.1, h1.2, by omega, by omega, hd1, hd2⟩

theorem year_quotient_le (b : Int) (hb : 1524 ≤ b) : 365 * ((20 * b - 2442) / 7305) ≤ b := by
  omega

theorem machine_julian_date_to_cal_eq (z : Int) (f : ℚ) (k : Nat) (m : Int)
    (hz : 0 ≤ z) (hzb : z ≤ 10000000000000) (hf0 : 0 ≤ f) (hf1 : f < 1) (hk : 1 ≤ k)
    (hf : f * (2 : ℚ) ^ k = (m : ℚ))
    (hb : ((z : ℚ) + 32) * (2 : ℚ) ^ k ≤ 9007199254740992)
    (year month : Int) (day : ℚ) :
    Machine.julian_date_to_cal ((z : ℚ) + f - 1 / 2) year month day =
      (MeeusError_Success, (cal_of_day_number z).1, (cal_of_day_number z).2.1,
        to_float ((((cal_of_day_number z).2.2 : Int) : ℚ) + f)) := by
  obtain ⟨-, -, h05, -, -, -, -, -⟩ := to_double_consts
  have hzq : (0 : ℚ) ≤ (z : ℚ) := by exact_mod_cast hz
  have hzbq : (z : ℚ) ≤ 10000000000000 := by exact_mod_cast hzb
  have h2k : (0 : ℚ) < (2 : ℚ) ^ k := by positivity
  have h2k1 : (2 : ℚ) ≤ (2 : ℚ) ^ k := by
    calc (2 : ℚ) = (2 : ℚ) ^ 1 := by norm_num
      _ ≤ (2 : ℚ) ^ k := pow_le_pow_right₀ (by norm_num) hk
  have hlt : ∀ t : ℚ, 0 ≤ t → t < (z : ℚ) + 32 → |t| * (2 : ℚ) ^ k < 9007199254740992 := by
    intro t ht0 ht
    rw [abs_of_nonneg ht0]
    have : t * (2 : ℚ) ^ k < ((z : ℚ) + 32) * (2 : ℚ) ^ k :=
      mul_lt_mul_of_pos_right (by linarith) h2k
    linarith
  have hint : ∀ n : Int, 0 ≤ n → (n : ℚ) ≤ 2 * (z : ℚ) + 2000 → to_double (n : ℚ) = (n : ℚ) := by
    intro n hn0 hn
    apply to_double_intCast
    rw [abs_of_nonneg (by exact_mod_cast hn0)]
    linarith
  -- reading the argument and adding one half
  have e1 : to_double ((z : ℚ) + f - 1 / 2) = (z : ℚ) + f - 1 / 2 := by
    obtain ⟨j, rfl⟩ : ∃ j, k = j + 1 := ⟨k - 1, by omega⟩
    apply to_double_of_scaled _ (j + 1) (z * 2 ^ (j + 1) + m - 2 ^ j)
    · push_cast
      rw [sub_mul, add_mul, hf]
      ring
    · have hm : ((z * 2 ^ (j + 1) + m - 2 ^ j : Int) : ℚ) =
          ((z : ℚ) + f - 1 / 2) * (2 : ℚ) ^ (j + 1) := by
        push_cast
        rw [sub_mul, add_mul, hf]
        ring
      rw [hm, abs_mul, abs_of_pos h2k]
      have : |(z : ℚ) + f - 1 / 2| ≤ (z : ℚ) + 1 := by
        rw [abs_le]
        constructor <;> linarith
      have h3 : |(z : ℚ) + f - 1 / 2| * (2 : ℚ) ^ (j + 1) < ((z : ℚ) + 32) * (2 : ℚ) ^ (j + 1) :=
        lt_of_le_of_lt (mul_le_mul_of_nonneg_right this h2k.le)
          (mul_lt_mul_of_pos_right (by linarith) h2k)
      linarith
  have e2 : to_double ((z : ℚ) + f - 1 / 2 + 0.5) = (z : ℚ) + f := by
    have : (z : ℚ) + f - 1 / 2 + 0.5 = (z : ℚ) + f := by norm_num
    rw [this]
    exact to_double_int_add z f k m hf (hlt _ (by linarith) (by linarith))
  have e3 : to_double ((z : ℚ) + f - to_double (z : ℚ)) = f := by
    rw [hint z hz (by linarith)]
    have : (z : ℚ) + f - (z : ℚ) = f := by ring
    rw [this]
    apply to_double_of_scaled f k m hf
    rw [← hf]
    have := hlt f hf0 (by linarith)
    rwa [abs_mul, abs_of_pos h2k]
  simp only [Machine.julian_date_to_cal, e1, h05, e2, truncToInt_int_add_fract z f hz hf0 hf1, e3,
    machine_adjust z hz (by omega), cal_of_day_number, cal_of_adjusted]
  obtain ⟨ha0, ha1⟩ := gregorian_adjust_bounds z hz
  generalize gregorian_adjust z = a at ha0 ha1 ⊢
  have ha1q : (a : ℚ) ≤ 2 * (z : ℚ) + 2 := by exact_mod_cast ha1
  have hbcast : (a : ℚ) + 1524 = ((a + 1524 : Int) : ℚ) := by push_cast; ring
  rw [hbcast, hint (a + 1524) (by omega) (by push_cast; linarith)]
  obtain ⟨hc0, -, hd0, hn1, hn2, he1, he2, hD1, hD2⟩ := cal_of_adjusted_parts (a + 1524) (by omega)
  have hb0 : 1524 ≤ a + 1524 := by omega
  have hc1 := year_quotient_le (a + 1524) hb0
  have hb1 : a + 1524 ≤ 2 * z + 1526 := by omega
  rw [machine_c (a + 1524) hb0 (by omega)]
  generalize a + 1524 = b at hc0 hc1 hd0 hn1 hn2 he1 he2 hD1 hD2 hb0 hb1 ⊢
  have hb1q : (b : ℚ) ≤ 2 * (z : ℚ) + 1526 := by exact_mod_cast hb1
  generalize (20 * b - 2442) / 7305 = c at hc0 hc1 hd0 hn1 hn2 he1 he2 hD1 hD2 ⊢
  have hc0q : (0 : ℚ) ≤ (c : ℚ) := by exact_mod_cast hc0
  have hc1q : 365 * (c : ℚ) ≤ (b : ℚ) := by exact_mod_cast hc1
  rw [machine_d c (by
    rw [abs_of_nonneg (by push_cast; linarith)]
    push_cast
    linarith)]
  have hncast : (b : ℚ) - (((1461 * c) / 4 : Int) : ℚ) = ((b - (1461 * c) / 4 : Int) : ℚ) := by
    push_cast
    ring
  generalize (1461 * c) / 4 = d at hd0 hn1 hn2 he1 he2 hD1 hD2 hncast ⊢
  rw [hncast]
  have hn1q : (122 : ℚ) ≤ ((b - d : Int) : ℚ) := by exact_mod_cast hn1
  have hn2q : ((b - d : Int) : ℚ) ≤ 488 := by exact_mod_cast hn2
  rw [machine_e (b - d) hn1 hn2, hint (b - d) (by omega) (by linarith)]
  generalize b - d = n at hn1 hn2 he1 he2 hD1 hD2 hn1q hn2q ⊢
  generalize (10000 * n) / 306001 = e at he1 he2 hD1 hD2 ⊢
  have he1q : (4 : ℚ) ≤ (e : ℚ) := by exact_mod_cast he1
  have he2q : (e : ℚ) ≤ 15 := by exact_mod_cast he2
  rw [machine_306 e he1 he2]
  have hDcast : (n : ℚ) - (((306001 * e) / 10000 : Int) : ℚ) =
      ((n - (306001 * e) / 10000 : Int) : ℚ) := by
    push_cast
    ring
  rw [hDcast]
  have hD1q : (1 : ℚ) ≤ ((n - (306001 * e) / 10000 : Int) : ℚ) := by exact_mod_cast hD1
  have hD2q : ((n - (306001 * e) / 10000 : Int) : ℚ) ≤ 31 := by exact_mod_cast hD2
  rw [hint _ (by omega) (by linarith),
    to_double_int_add _ f k m hf (hlt _ (by linarith) (by linarith))]
  have hm1 : (e : ℚ) - 1 = ((e - 1 : Int) : ℚ) := by push_cast; ring
  have hm13 : (e : ℚ) - 13 = ((e - 13 : Int) : ℚ) := by push_cast; ring
  have hy1 : (c : ℚ) - 4716 = ((c - 4716 : Int) : ℚ) := by push_cast; ring
  have hy2 : (c : ℚ) - 4715 = ((c - 4715 : Int) : ℚ) := by push_cast; ring
  have hsigned : ∀ j : Int, -4716 ≤ j → (j : ℚ) ≤ 2 * (z : ℚ) + 2000 →
      to_double (j : ℚ) = (j : ℚ) := by
    intro j hj0 hj
    apply to_double_intCast
    have hjq : (-4716 : ℚ) ≤ (j : ℚ) := by exact_mod_cast hj0
    rw [abs_lt]
    constructor <;> linarith
  rw [hm1, hm13, hy1, hy2, hsigned (e - 1) (by omega) (by push_cast; linarith),
    hsigned (e - 13) (by omega) (by push_cast; linarith),
    hsigned (c - 4716) (by omega) (by push_cast; linarith),
    hsigned (c - 4715) (by omega) (by push_cast; linarith)]
  simp only [truncToInt_intCast, to_int32_of_small (e - 1) (by omega) (by omega),
    to_int32_of_small (e - 13) (by omega) (by omega), intCast_lt_fourteen]

theorem machine_julian_date_to_cal_exact (jd : ℚ) (k : Nat) (m : Int) (hk : 1 ≤ k)
    (hgrid : jd * (2 : ℚ) ^ k = (m : ℚ)) (h0 : 0 ≤ jd) (hb1 : jd ≤ 9999999999999)
    (hb2 : (jd + 33) * (2 : ℚ) ^ k ≤ 9007199254740992) (y0 m0 : Int) (d0 : ℚ) :
    Machine.julian_date_to_cal jd y0 m0 d0 =
      ((julian_date_to_cal jd y0 m0 d0).1, (julian_date_to_cal jd y0 m0 d0).2.1,
        (julian_date_to_cal jd y0 m0 d0).2.2.1, to_float (julian_date_to_cal jd y0 m0 d0).2.2.2) := by
  have hz : 0 ≤ Int.floor (jd + 1 / 2) := Int.floor_nonneg.mpr (by linarith)
  have hfl := Int.floor_le (jd + 1 / 2)
  have hfl' := Int.lt_floor_add_one (jd + 1 / 2)
  have hf0 : 0 ≤ jd + 1 / 2 - ((Int.floor (jd + 1 / 2) : Int) : ℚ) := by linarith
  have hf1 : jd + 1 / 2 - ((Int.floor (jd + 1 / 2) : Int) : ℚ) < 1 := by linarith
  have hjdz : ((Int.floor (jd + 1 / 2) : Int) : ℚ) +
      (jd + 1 / 2 - ((Int.floor (jd + 1 / 2) : Int) : ℚ)) - 1 / 2 = jd := by ring
  have h2k : (0 : ℚ) < (2 : ℚ) ^ k := by positivity
  have hzb : Int.floor (jd + 1 / 2) ≤ 10000000000000 := by
    have : ((Int.floor (jd + 1 / 2) : Int) : ℚ) ≤ ((10000000000000 : Int) : ℚ) := by
      push_cast
      linarith
    exact_mod_cast this
  obtain ⟨j, rfl⟩ : ∃ j, k = j + 1 := ⟨k - 1, by omega⟩
  have hfgrid : (jd + 1 / 2 - ((Int.floor (jd + 1 / 2) : Int) : ℚ)) * (2 : ℚ) ^ (j + 1) =
      ((m + 2 ^ j - Int.floor (jd + 1 / 2) * 2 ^ (j + 1) : Int) : ℚ) := by
    push_cast
    rw [sub_mul, add_mul, hgrid]
    ring
  have hbz : (((Int.floor (jd + 1 / 2) : Int) : ℚ) + 32) * (2 : ℚ) ^ (j + 1) ≤
      9007199254740992 :=
    le_trans (mul_le_mul_of_nonneg_right (by linarith) h2k.le) hb2
  have hM := machine_julian_date_to_cal_eq _ _ (j + 1) _ hz hzb hf0 hf1 hk hfgrid hbz y0 m0 d0
  have hE := julian_date_to_cal_eq _ _ hz hf0 hf1 y0 m0 d0
  rw [hjdz] at hM hE
  rw [hM, hE]

theorem machine_julian_date_to_cal_at (z : Int) (f d : ℚ) (k : Nat) (m y mo n : Int)
    (hz : 0 ≤ z) (hzb : z ≤ 10000000000000) (hf0 : 0 ≤ f) (hf1 : f < 1) (hk : 1 ≤ k)
    (hf : f * (2 : ℚ) ^ k = (m : ℚ))
    (hb : ((z : ℚ) + 32) * (2 : ℚ) ^ k ≤ 9007199254740992)
    (hcal : cal_of_day_number z = (y, mo, n)) (hd : to_float ((n : ℚ) + f) = d)
    (y0 m0 : Int) (d0 : ℚ) :
    Machine.julian_date_to_cal ((z : ℚ) + f - 1 / 2) y0 m0 d0 = (MeeusError_Success, y, mo, d) := by
  rw [machine_julian_date_to_cal_eq z f k m hz hzb hf0 hf1 hk hf hb y0 m0 d0, hcal]
  simp only [hd]

/-! ## `day_of_week` in machine arithmetic -/

theorem machine_day_of_week_jd_eq (K : Int) (h1 : -1 ≤ K) (h2 : K + 1 < 2147483648) :
    Machine.day_of_week_jd ((K : ℚ) - 1 / 2) = day_of_week_jd ((K : ℚ) - 1 / 2) := by
  unfold Machine.day_of_week_jd day_of_week_jd
  simp only [truncToInt_sub_half]
  split
  · rw [to_int32_of_small (K - 1) (by omega) (by omega),
      to_int32_of_small (K - 1 + 2) (by omega) (by omega)]
  · rw [to_int32_of_small K (by omega) (by omega),
      to_int32_of_small (K + 2) (by omega) (by omega)]

theorem machine_day_of_week_exact (year month : Int) (day s JD0 : ℚ) (dow : Int)
    (hyb : year ≤ 5874898) (hm : 1 ≤ month) (hm' : month ≤ 12)
    (hfl : to_float day = day) (hd0 : 0 ≤ day) (hd31 : day < 2147483648)
    (hJD0 : Machine.cal_to_julian_date year month ((Int.floor day : Int) : ℚ) s =
      Call.ret MeeusError_Success JD0)
    (hmax : JD0 + 1.5 < 2147483648) :
    cal_to_julian_date year month ((Int.floor day : Int) : ℚ) s =
      Call.ret MeeusError_Success JD0 ∧
    Machine.day_of_week year month day dow = day_of_week year month day dow := by
  have hn0 : 0 ≤ Int.floor day := Int.floor_nonneg.mpr hd0
  have hn0q : (0 : ℚ) ≤ ((Int.floor day : Int) : ℚ) := by exact_mod_cast hn0
  have hnle : ((Int.floor day : Int) : ℚ) ≤ day := Int.floor_le day
  have hn31 : Int.floor day < 2147483648 := by
    have : ((Int.floor day : Int) : ℚ) < ((2147483648 : Int) : ℚ) := by
      push_cast
      linarith
    exact_mod_cast this
  have htr : truncToInt day = Int.floor day := truncToInt_of_nonneg hd0
  have hfn := to_float_floor day hfl hd0
  have hyq : (year : ℚ) ≤ 5874898 := by exact_mod_cast hyb
  have hbridge : ∀ jd : ℚ, Machine.cal_to_julian_date year month ((Int.floor day : Int) : ℚ) jd =
      cal_to_julian_date year month ((Int.floor day : Int) : ℚ) jd := fun jd =>
    machine_cal_to_julian_date_exact year month _ jd 1 (2 * Int.floor day) (by norm_num)
      (by push_cast; ring) hfn hn0q hm hm' (by linarith) (by norm_num; linarith)
  rw [hbridge s] at hJD0
  refine ⟨hJD0, ?_⟩
  obtain ⟨hy, hmiss, hjd⟩ := cal_to_julian_date_success _ _ _ _ _ hJD0
  have hbase := day_number_base_ge year month ((Int.floor day : Int) : ℚ) hy hm hm'
  have hjd' : JD0 = ((day_number_base year month ((Int.floor day : Int) : ℚ) + Int.floor day
      - 1524 : Int) : ℚ) - 1 / 2 := by
    rw [hjd]
    push_cast
    norm_num
    ring
  have hK : day_number_base year month ((Int.floor day : Int) : ℚ) + Int.floor day - 1524 + 1
      < 2147483648 := by
    have : ((day_number_base year month ((Int.floor day : Int) : ℚ) + Int.floor day - 1524 + 1
        : Int) : ℚ) < ((2147483648 : Int) : ℚ) := by
      rw [hjd'] at hmax
      push_cast at hmax ⊢
      norm_num at hmax
      linarith
    exact_mod_cast this
  simp only [Machine.day_of_week, day_of_week, hfl, htr, to_int32_of_small _ (by omega) hn31, hfn,
    hbridge 0, cal_to_julian_date_eq year month _ 0 hy hmiss, ← hjd, ne_eq, not_true_eq_false,
    if_false]
  rw [hjd', machine_day_of_week_jd_eq _ (by omega) hK]

theorem machine_day_of_week_float_arg (year month : Int) (day : ℚ) (dow : Int) :
    Machine.day_of_week year month day dow =
      Machine.day_of_week year month (to_float day) dow := by
  simp only [Machine.day_of_week, to_float_idem]

theorem machine_day_of_week_eval (year month : Int) (day : ℚ) (n K dow : Int)
    (h1 : to_float day = (n : ℚ)) (h2 : to_int32 n = n) (h3 : to_float (n : ℚ) = (n : ℚ))
    (h4 : Machine.cal_to_julian_date year month (n : ℚ) 0 =
      Call.ret MeeusError_Success ((K : ℚ) - 1 / 2)) (hK : 1 ≤ K) :
    Machine.day_of_week year month day dow =
      Call.ret MeeusError_Success ((to_int32 (to_int32 (K - 1) + 2)).tmod 7) := by
  simp only [Machine.day_of_week, h1, truncToInt_intCast, h2, h3, h4, ne_eq, not_true_eq_false,
    if_false, Machine.day_of_week_jd, truncToInt_sub_half, if_pos hK]

/-! ## Round trip and reference formula (C1, C2) -/

theorem to_float_481 : to_float 4.81 = 10087301 / 2097152 ∧
    to_float (10087301 / 2097152) = 10087301 / 2097152 := by
  constructor
  · exact to_float_eval 4.81 _ 2 10087301 (by norm_num) (by norm_num)
      (by norm_num [round_half_even]) (by norm_num)
  · exact to_float_of_scaled _ 21 10087301 (by norm_num) (by norm_num)

theorem machine_cal_to_julian_date_1957 (jd : ℚ) :
    Machine.cal_to_julian_date 1957 10 4.81 jd =
      Call.ret MeeusError_Success (5108906191749 / 2097152) := by
  rw [machine_cal_to_julian_date_float_arg 1957 10 4.81 _ jd to_float_481.1 to_float_481.2,
    machine_cal_to_julian_date_eq 1957 10 _ jd 21 10087301 (by norm_num) (by norm_num)
      to_float_481.2 (by norm_num) (by norm_num) (by norm_num) (by norm_num) (by norm_num)
      (by norm_num) (is_missing_false_of_not_gap _ _ _ (by norm_num))]
  norm_num [day_number_base, shifted_year, shifted_month, is_pre_gregorian]

theorem machine_cal_to_julian_date_1957_float (jd : ℚ) :
    Machine.cal_to_julian_date 1957 10 (10087301 / 2097152) jd =
      Call.ret MeeusError_Success (5108906191749 / 2097152) := by
  rw [← machine_cal_to_julian_date_float_arg 1957 10 4.81 _ jd to_float_481.1 to_float_481.2]
  exact machine_cal_to_julian_date_1957 jd

theorem to_float_one_ulp : to_float (1 + 1 / 8388608) = 1 + 1 / 8388608 :=
  to_float_of_scaled _ 23 8388609 (by norm_num) (by norm_num)

theorem machine_cal_to_julian_date_2935028 (jd : ℚ) :
    Machine.cal_to_julian_date 2935028 10 (1 + 1 / 8388608) jd =
      Call.ret MeeusError_Success (2147436595 / 2) := by
  rw [machine_cal_to_julian_date_unfold 2935028 10 _ jd to_float_one_ulp (by norm_num)
    (by norm_num) (by norm_num) (by norm_num) (is_missing_false_of_not_gap _ _ _ (by norm_num))]
  have hs : shifted_year 2935028 10 = 2935028 ∧ shifted_month 10 = 10 := by decide
  have hp : is_pre_gregorian 2935028 10 (1 + 1 / 8388608) = false := by
    simp [is_pre_gregorian]
  have hbv : (2 - 2935028 / 100 + 2935028 / 100 / 4 : Int) = -22011 := by decide
  have hsum : (2935028 + 4716 : Int) = 2939744 := by decide
  have hq : (306001 * (10 + 1) / 10000 : Int) = 336 := by decide
  rw [hs.1, hs.2, hp]
  simp only [Bool.false_eq_true, if_false, hbv, hsum, hq]
  rw [cal_sum_steps 2939744 336 (-22011) (1 + 1 / 8388608) 1073741496 1073741496 1073741832
    1073741833 1073719822 (2147436595 / 2)
    (to_double_intCast _ (by norm_num))
    (to_double_eval _ _ 29 9007196503277568 (by norm_num) (by norm_num)
      (by norm_num [round_half_even]) (by norm_num))
    (by norm_num [floor])
    (to_double_eval _ _ 30 4503599660924928 (by norm_num) (by norm_num)
      (by norm_num [round_half_even]) (by norm_num))
    (to_double_eval _ _ 30 4503599665119232 (by norm_num) (by norm_num)
      (by norm_num [round_half_even]) (by norm_num))
    (to_double_intCast _ (by norm_num))
    (to_double_eval _ _ 29 9007014688587776 (by norm_num) (by norm_num)
      (by norm_num [round_half_even]) (by norm_num))
    (to_double_eval _ _ 29 9007001900154880 (by norm_num) (by norm_num)
      (by norm_num [round_half_even]) (by norm_num))]

theorem machine_cal_to_julian_date_2000 (jd : ℚ) :
    Machine.cal_to_julian_date 2000 1 1.5 jd = Call.ret MeeusError_Success 2451545.0 := by
  rw [machine_cal_to_julian_date_eq 2000 1 1.5 jd 1 3 (by norm_num) (by norm_num)
    (to_float_of_scaled _ 1 3 (by norm_num) (by norm_num)) (by norm_num) (by norm_num)
    (by norm_num) (by norm_num) (by norm_num) (by norm_num)
    (is_missing_false_of_not_gap _ _ _ (by norm_num))]
  norm_num [day_number_base, shifted_year, shifted_month, is_pre_gregorian]

theorem float_day_sharp_bounds (year month : Int) (day : ℚ) (hy : -4712 ≤ year)
    (hyb : year ≤ 2935027) (hm : 1 ≤ month) (hm' : month ≤ 12) (hd : 0 ≤ day) (hd' : day < 32) :
    1461 * ((shifted_year year month : ℚ) + 4716) < 9007199254740992 ∧
    ((((1461 * (shifted_year year month + 4716)) / 4 +
      (306001 * (shifted_month month + 1)) / 10000 : Int) : ℚ) + day) * (2 : ℚ) ^ (23 : Nat)
        < 9007199254740992 ∧
    (1525 : ℚ) * (2 : ℚ) ^ (23 : Nat) < 9007199254740992 ∧
    (((day_number_base year month day : Int) : ℚ) + day - 1524.5 + 33) * (2 : ℚ) ^ (23 : Nat)
      ≤ 9007199254740992 := by
  obtain ⟨hN4, hYle⟩ := day_number_floors_le year month hm hm'
  have hbN := day_number_base_le_floors year month day hy hm hm'
  have h1 : (year : ℚ) ≤ 2935027 := by exact_mod_cast hyb
  have h2 : (-4712 : ℚ) ≤ (year : ℚ) := by exact_mod_cast hy
  have hYq : (shifted_year year month : ℚ) ≤ (year : ℚ) := by exact_mod_cast hYle
  have hN4q : 4 * (((1461 * (shifted_year year month + 4716)) / 4 +
      (306001 * (shifted_month month + 1)) / 10000 : Int) : ℚ) ≤
      1461 * ((year : ℚ) + 4716) + 1588 := by exact_mod_cast hN4
  have hbNq : ((day_number_base year month day : Int) : ℚ) ≤
      (((1461 * (shifted_year year month + 4716)) / 4 +
        (306001 * (shifted_month month + 1)) / 10000 : Int) : ℚ) := by exact_mod_cast hbN
  have h23 : (2 : ℚ) ^ (23 : Nat) = 8388608 := by norm_num
  rw [h23]
  have h15 : (1524.5 : ℚ) = 3049 / 2 := by norm_num
  rw [h15]
  refine ⟨by linarith, by linarith, by norm_num, by linarith⟩

/-- Round trip in machine arithmetic for a day that is a `float`: for a year in
-4712..2935027 the Julian Date of an existing date converts back to the same
year, month and day. -/
theorem round_trip_float_day (year month : Int) (day jd jd0 : ℚ) (L s y0 m0 : Int) (d0 : ℚ)
    (hy : -4712 ≤ year) (hyb : year ≤ 2935027) (hm : 1 ≤ month) (hm' : month ≤ 12)
    (hL : days_in_month year month s = (MeeusError_Success, L))
    (hfl : to_float day = day)
    (hd : 1 ≤ day) (hd' : day < (L : ℚ) + 1)
    (hgap : ¬ (year = 1582 ∧ month = 10 ∧ 5 ≤ day ∧ day < 15))
    (hjd : Machine.cal_to_julian_date year month day jd0 = Call.ret MeeusError_Success jd)
    (hpos : 0 ≤ jd) :
    Machine.julian_date_to_cal jd y0 m0 d0 = (MeeusError_Success, year, month, day) := by
  have hL2 := hL
  rw [days_in_month_eq year month s hm hm'] at hL2
  have hLm : L = month_length year month := by
    rw [month_length_eq year month hm hm']
    exact (Prod.mk.inj hL2).2.symm
  obtain ⟨-, hL31⟩ := month_length_bounds year month hm hm'
  rw [← hLm] at hL31
  have hd32 : day < 32 := by
    have : (L : ℚ) ≤ 31 := by exact_mod_cast hL31
    linarith
  obtain ⟨m, hm23⟩ := to_float_fixed_scaled day hfl hd
  obtain ⟨hA, hS, hC, hB⟩ := float_day_sharp_bounds year month day hy hyb hm hm' (by linarith)
    hd32
  rw [machine_cal_to_julian_date_exact_core year month day jd0 23 m (by norm_num) hm23 hfl
    (by linarith) hm hm' hA hS hC] at hjd
  have hrt := round_trip_exact year month day jd jd0 L s y0 m0 d0 hy hm hm' hL hd hd' hgap hjd
    hpos
  obtain ⟨-, -, hjdv⟩ := cal_to_julian_date_success _ _ _ _ _ hjd
  have hgrid : jd * (2 : ℚ) ^ (23 : Nat) =
      ((day_number_base year month day * 8388608 + m - 12788432896 : Int) : ℚ) := by
    rw [hjdv]
    push_cast
    rw [← hm23]
    norm_num
    ring
  rw [← hjdv] at hB
  have hB' : jd + 33 ≤ 1073741824 := by
    norm_num at hB
    linarith
  rw [machine_julian_date_to_cal_exact jd 23 _ (by norm_num) hgrid hpos (by linarith) hB y0 m0 d0,
    hrt]
  simp only [hfl]

/-- C1 (amended): calendar -> Julian Date -> calendar round trip in machine
arithmetic. For every year in -4712..2935027, month in 1..12 and real day,
with d the day converted to the parameter type `float` (d = day when day is a
`float`), such that 1 <= d < days_in_month + 1 and (year, month, d) is not on
5..14 October 1582: if `cal_to_julian_date year month day` succeeds with a
Julian Date jd >= 0, then `julian_date_to_cal jd` returns exactly
(year, month, d). -/
theorem C1_round_trip_bounded (year month : Int) (day jd jd0 : ℚ) (L s y0 m0 : Int) (d0 : ℚ)
    (hy : -4712 ≤ year) (hyb : year ≤ 2935027) (hm : 1 ≤ month) (hm' : month ≤ 12)
    (hL : days_in_month year month s = (MeeusError_Success, L))
    (hd : 1 ≤ to_float day) (hd' : to_float day < (L : ℚ) + 1)
    (hgap : ¬ (year = 1582 ∧ month = 10 ∧ 5 ≤ to_float day ∧ to_float day < 15))
    (hjd : Machine.cal_to_julian_date year month day jd0 = Call.ret MeeusError_Success jd)
    (hpos : 0 ≤ jd) :
    Machine.julian_date_to_cal jd y0 m0 d0 =
      (MeeusError_Success, year, month, to_float day) := by
  rw [machine_cal_to_julian_date_float_arg year month day (to_float day) jd0 rfl
    (to_float_idem day)] at hjd
  exact round_trip_float_day year month (to_float day) jd jd0 L s y0 m0 d0 hy hyb hm hm' hL
    (to_float_idem day) hd hd' hgap hjd hpos

theorem C1_round_trip_bounded_witness :
    Machine.cal_to_julian_date 2000 1 1.5 0 = Call.ret MeeusError_Success 2451545.0 ∧
    Machine.julian_date_to_cal 2451545.0 0 0 0 = (MeeusError_Success, 2000, 1, 1.5) ∧
    Machine.cal_to_julian_date 1957 10 4.81 0 =
      Call.ret MeeusError_Success (5108906191749 / 2097152) ∧
    Machine.julian_date_to_cal (5108906191749 / 2097152) 0 0 0 =
      (MeeusError_Success, 1957, 10, 10087301 / 2097152) := by
  have f15 : to_float 1.5 = 1.5 := to_float_of_scaled _ 1 3 (by norm_num) (by norm_num)
  have h1 := C1_round_trip_bounded 2000 1 1.5 2451545.0 0 31 0 0 0 0 (by norm_num)
    (by norm_num) (by norm_num) (by norm_num) (by decide) (by rw [f15]; norm_num)
    (by rw [f15]; norm_num) (by norm_num) (machine_cal_to_julian_date_2000 0) (by norm_num)
  have h2 := C1_round_trip_bounded 1957 10 4.81 (5108906191749 / 2097152) 0 31 0 0 0 0
    (by norm_num) (by norm_num) (by norm_num) (by norm_num) (by decide)
    (by rw [to_float_481.1]; norm_num) (by rw [to_float_481.1]; norm_num) (by norm_num)
    (machine_cal_to_julian_date_1957 0) (by norm_num)
  rw [f15] at h1
  rw [to_float_481.1] at h2
  exact ⟨machine_cal_to_julian_date_2000 0, h1, machine_cal_to_julian_date_1957 0, h2⟩

/-- C1 counterexample: two dates inside the domain of the claim that do not
come back. 1 October 2935028 with the `float` day 1 + 2^-23 has Julian Date
1073718297.5 (the binary64 sum drops the fraction) and comes back as day 1;
4.81 October 1957 is stored as the `float` 10087301/2097152 and that value,
not 4.81, comes back. -/
theorem C1_counterexample :
    days_in_month 2935028 10 0 = (MeeusError_Success, 31) ∧
    to_float (1 + 1 / 8388608) = 1 + 1 / 8388608 ∧
    Machine.cal_to_julian_date 2935028 10 (1 + 1 / 8388608) 0 =
      Call.ret MeeusError_Success (2147436595 / 2) ∧
    Machine.julian_date_to_cal (2147436595 / 2) 0 0 0 = (MeeusError_Success, 2935028, 10, 1) ∧
    (1 : ℚ) ≠ 1 + 1 / 8388608 ∧
    days_in_month 1957 10 0 = (MeeusError_Success, 31) ∧
    Machine.cal_to_julian_date 1957 10 4.81 0 =
      Call.ret MeeusError_Success (5108906191749 / 2097152) ∧
    Machine.julian_date_to_cal (5108906191749 / 2097152) 0 0 0 =
      (MeeusError_Success, 1957, 10, 10087301 / 2097152) ∧
    (10087301 / 2097152 : ℚ) ≠ 4.81 := by
  refine ⟨by decide, to_float_one_ulp, machine_cal_to_julian_date_2935028 0, ?_, by norm_num,
    by decide, machine_cal_to_julian_date_1957 0, ?_, by norm_num⟩
  · have h := machine_julian_date_to_cal_at 1073718298 0 1 1 0 2935028 10 1 (by norm_num)
      (by norm_num) (by norm_num) (by norm_num) (by norm_num) (by norm_num) (by norm_num)
      (by decide) (by
        have := to_float_intCast 1 (by norm_num)
        norm_num at this ⊢
        exact this) 0 0 0
    norm_num at h ⊢
    exact h
  · have h := machine_julian_date_to_cal_at 2436116 (1698693 / 2097152) (10087301 / 2097152) 21
      1698693 1957 10 4 (by norm_num) (by norm_num) (by norm_num) (by norm_num) (by norm_num)
      (by norm_num) (by norm_num) (by decide) (by
        have := to_float_481.2
        norm_num at this ⊢
        exact this) 0 0 0
    norm_num at h ⊢
    exact h

/-- In machine arithmetic `cal_to_julian_date` equals `reference_julian_date`
for a day that is a `float` with 1 <= day < 32 and a year in -4712..2935027. -/
theorem reference_formula_float_day (year month : Int) (day jd : ℚ)
    (hy : -4712 ≤ year) (hyb : year ≤ 2935027) (hm : 1 ≤ month) (hm' : month ≤ 12)
    (hfl : to_float day = day) (hd : 1 ≤ day) (hd' : day < 32)
    (hmiss : ¬ (year = 1582 ∧ month = 10 ∧ 5 ≤ day ∧ day ≤ 14)) :
    Machine.cal_to_julian_date year month day jd =
      Call.ret MeeusError_Success (reference_julian_date year month day) := by
  obtain ⟨m, hm23⟩ := to_float_fixed_scaled day hfl hd
  obtain ⟨hA, hS, hC, -⟩ := float_day_sharp_bounds year month day hy hyb hm hm' (by linarith) hd'
  rw [machine_cal_to_julian_date_exact_core year month day jd 23 m (by norm_num) hm23 hfl
    (by linarith) hm hm' hA hS hC]
  exact reference_formula_exact year month day jd hy hm hm' hd hd' hmiss

/-- C2 (amended): in machine arithmetic `cal_to_julian_date` equals the
reference formula stated on the stored date. For every year in
-4712..2935027, month in 1..12 and real day, with d the day converted to the
parameter type `float` (d = day when day is a `float`), such that 1 <= d < 32
and (year, month, d) is not a missing date, it returns Success with
`reference_julian_date year month d`. -/
theorem C2_reference_formula_float (year month : Int) (day jd : ℚ)
    (hy : -4712 ≤ year) (hyb : year ≤ 2935027) (hm : 1 ≤ month) (hm' : month ≤ 12)
    (hd : 1 ≤ to_float day) (hd' : to_float day < 32)
    (hmiss : ¬ (year = 1582 ∧ month = 10 ∧ 5 ≤ to_float day ∧ to_float day ≤ 14)) :
    Machine.cal_to_julian_date year month day jd =
      Call.ret MeeusError_Success (reference_julian_date year month (to_float day)) := by
  rw [machine_cal_to_julian_date_float_arg year month day (to_float day) jd rfl
    (to_float_idem day)]
  exact reference_formula_float_day year month (to_float day) jd hy hyb hm hm' (to_float_idem day)
    hd hd' hmiss

theorem C2_reference_formula_float_witness :
    Machine.cal_to_julian_date 2000 1 1.5 0 = Call.ret MeeusError_Success 2451545.0 ∧
    Machine.cal_to_julian_date (-1000) 2 29.0 0 = Call.ret MeeusError_Success 1355866.5 ∧
    Machine.cal_to_julian_date (-4712) 1 1.5 0 = Call.ret MeeusError_Success 0.0 ∧
    Machine.cal_to_julian_date 1957 10 4.81 0 =
      Call.ret MeeusError_Success (5108906191749 / 2097152) := by
  have f15 : to_float 1.5 = 1.5 := to_float_of_scaled _ 1 3 (by norm_num) (by norm_num)
  have f29 : to_float 29.0 = 29.0 := to_float_of_scaled _ 0 29 (by norm_num) (by norm_num)
  have e2 : reference_julian_date 2000 1 (to_float 1.5) = 2451545.0 := by
    rw [f15]
    norm_num [reference_julian_date]
  have e4 : reference_julian_date (-1000) 2 (to_float 29.0) = 1355866.5 := by
    rw [f29]
    norm_num [reference_julian_date]
  have e5 : reference_julian_date (-4712) 1 (to_float 1.5) = 0.0 := by
    rw [f15]
    norm_num [reference_julian_date]
  have e1 : reference_julian_date 1957 10 (to_float 4.81) = 5108906191749 / 2097152 := by
    rw [to_float_481.1]
    norm_num [reference_julian_date]
  refine ⟨?_, ?_, ?_, ?_⟩
  · rw [← e2]
    exact C2_reference_formula_float 2000 1 1.5 0 (by norm_num) (by norm_num) (by norm_num)
      (by norm_num) (by rw [f15]; norm_num) (by rw [f15]; norm_num) (by norm_num)
  · rw [← e4]
    exact C2_reference_formula_float (-1000) 2 29.0 0 (by norm_num) (by norm_num)
      (by norm_num) (by norm_num) (by rw [f29]; norm_num) (by rw [f29]; norm_num) (by norm_num)
  · rw [← e5]
    exact C2_reference_formula_float (-4712) 1 1.5 0 (by norm_num) (by norm_num)
      (by norm_num) (by norm_num) (by rw [f15]; norm_num) (by rw [f15]; norm_num) (by norm_num)
  · rw [← e1]
    exact C2_reference_formula_float 1957 10 4.81 0 (by norm_num) (by norm_num)
      (by norm_num) (by norm_num) (by rw [to_float_481.1]; norm_num)
      (by rw [to_float_481.1]; norm_num) (by norm_num)

/-- C2 counterexample: for 4.81 October 1957 the code returns
5108906191749/2097152 (about 2436116.3099999428), not the reference value
2436116.31, because the day is stored as a `float`; for 1 October 2935028 with
the `float` day 1 + 2^-23 it returns 1073718297.5, not the reference value
1073718297.5 + 2^-23, because the binary64 sum drops the fraction. -/
theorem C2_counterexample :
    Machine.cal_to_julian_date 1957 10 4.81 0 =
      Call.ret MeeusError_Success (5108906191749 / 2097152) ∧
    reference_julian_date 1957 10 4.81 = 2436116.31 ∧
    (5108906191749 / 2097152 : ℚ) ≠ 2436116.31 ∧
    to_float (1 + 1 / 8388608) = 1 + 1 / 8388608 ∧
    Machine.cal_to_julian_date 2935028 10 (1 + 1 / 8388608) 0 =
      Call.ret MeeusError_Success (2147436595 / 2) ∧
    reference_julian_date 2935028 10 (1 + 1 / 8388608) = 2147436595 / 2 + 1 / 8388608 := by
  refine ⟨machine_cal_to_julian_date_1957 0, by norm_num [reference_julian_date], by norm_num,
    to_float_one_ulp, machine_cal_to_julian_date_2935028 0, ?_⟩
  norm_num [reference_julian_date]

/-! ## Transition gap (C3) -/

theorem to_float_gap_edges :
    to_float 4.9 = 10276045 / 2097152 ∧ to_float (10276045 / 2097152) = 10276045 / 2097152 ∧
    to_float 15.1 = 7916749 / 524288 ∧ to_float (7916749 / 524288) = 7916749 / 524288 ∧
    to_float 4.99999999 = 5 := by
  refine ⟨?_, ?_, ?_, ?_, ?_⟩
  · exact to_float_eval 4.9 _ 2 10276045 (by norm_num) (by norm_num)
      (by norm_num [round_half_even]) (by norm_num)
  · exact to_float_of_scaled _ 21 10276045 (by norm_num) (by norm_num)
  · exact to_float_eval 15.1 _ 3 15833498 (by norm_num) (by norm_num)
      (by norm_num [round_half_even]) (by norm_num)
  · exact to_float_of_scaled _ 19 7916749 (by norm_num) (by norm_num)
  · exact to_float_eval 4.99999999 _ 2 10485760 (by norm_num) (by norm_num)
      (by norm_num [round_half_even]) (by norm_num)

theorem machine_cal_to_julian_date_gap_edges (jd : ℚ) :
    Machine.cal_to_julian_date 1582 10 4.9 jd =
      Call.ret MeeusError_Success (4821688831181 / 2097152) ∧
    Machine.cal_to_julian_date 1582 10 15.1 jd =
      Call.ret MeeusError_Success (1205422312653 / 524288) := by
  obtain ⟨h1, h2, h3, h4, -⟩ := to_float_gap_edges
  constructor
  · rw [machine_cal_to_julian_date_float_arg 1582 10 4.9 _ jd h1 h2,
      machine_cal_to_julian_date_eq 1582 10 _ jd 21 10276045 (by norm_num) (by norm_num) h2
        (by norm_num) (by norm_num) (by norm_num) (by norm_num) (by norm_num) (by norm_num)
        (is_missing_false_of_not_gap _ _ _ (by norm_num))]
    have hp : is_pre_gregorian (shifted_year 1582 10) (shifted_month 10) (10276045 / 2097152)
        = true :=
      (is_pre_gregorian_shifted 1582 10 _ (by norm_num) (by norm_num) (by norm_num)
        (by norm_num)).mpr (by norm_num)
    rw [day_number_base, hp]
    norm_num [shifted_year, shifted_month]
  · rw [machine_cal_to_julian_date_float_arg 1582 10 15.1 _ jd h3 h4,
      machine_cal_to_julian_date_eq 1582 10 _ jd 19 7916749 (by norm_num) (by norm_num) h4
        (by norm_num) (by norm_num) (by norm_num) (by norm_num) (by norm_num) (by norm_num)
        (is_missing_false_of_not_gap _ _ _ (by norm_num))]
    have hp : is_pre_gregorian (shifted_year 1582 10) (shifted_month 10) (7916749 / 524288)
        = false := by
      rw [← Bool.not_eq_true, is_pre_gregorian_shifted 1582 10 _ (by norm_num)
        (by norm_num) (by norm_num) (by norm_num)]
      norm_num
    rw [day_number_base, hp]
    norm_num [shifted_year, shifted_month]

/-- C3 (amended): transition gap rejection in machine arithmetic. For every
year >= -4712, every month and every real day, with d the day converted to
`float`, `cal_to_julian_date` returns `MeeusError_InvalidDate` if and only if
year = 1582, month = 10 and 5 <= d <= 14, and returns `MeeusError_Success`
otherwise; it fails for every whole day 5..14 of October 1582 and succeeds for
day 4.9 with JD 4821688831181/2097152 and for day 15.1 with JD
1205422312653/524288. -/
theorem C3_transition_gap_float (year month : Int) (day jd : ℚ) (hy : -4712 ≤ year) :
    ((Machine.cal_to_julian_date year month day jd).status = some MeeusError_InvalidDate ↔
      (year = 1582 ∧ month = 10 ∧ 5 ≤ to_float day ∧ to_float day ≤ 14)) ∧
    (¬ (year = 1582 ∧ month = 10 ∧ 5 ≤ to_float day ∧ to_float day ≤ 14) →
      (Machine.cal_to_julian_date year month day jd).status = some MeeusError_Success) ∧
    (∀ d : Int, 5 ≤ d → d ≤ 14 →
      (Machine.cal_to_julian_date 1582 10 (d : ℚ) jd).status = some MeeusError_InvalidDate) ∧
    Machine.cal_to_julian_date 1582 10 4.9 jd =
      Call.ret MeeusError_Success (4821688831181 / 2097152) ∧
    Machine.cal_to_julian_date 1582 10 15.1 jd =
      Call.ret MeeusError_Success (1205422312653 / 524288) := by
  refine ⟨?_, ?_, ?_, (machine_cal_to_julian_date_gap_edges jd).1,
    (machine_cal_to_julian_date_gap_edges jd).2⟩
  · by_cases h : year = 1582 ∧ month = 10 ∧ 5 ≤ to_float day ∧ to_float day ≤ 14
    · rw [machine_cal_to_julian_date_missing year month day jd hy
        (is_missing_true_of_gap _ _ _ h)]
      simp [Call.status, h]
    · rw [machine_cal_to_julian_date_status year month day jd hy
        (is_missing_false_of_not_gap _ _ _ h)]
      simp [h]
  · intro h
    exact machine_cal_to_julian_date_status year month day jd hy
      (is_missing_false_of_not_gap _ _ _ h)
  · intro d h5 h14
    have h5q : (5 : ℚ) ≤ (d : ℚ) := by exact_mod_cast h5
    have h14q : (d : ℚ) ≤ 14 := by exact_mod_cast h14
    have hd : to_float (d : ℚ) = (d : ℚ) :=
      to_float_intCast d (by rw [abs_of_nonneg (by linarith)]; linarith)
    rw [machine_cal_to_julian_date_missing 1582 10 (d : ℚ) jd (by norm_num)
      (is_missing_true_of_gap _ _ _ ⟨rfl, rfl, by rw [hd]; exact h5q, by rw [hd]; exact h14q⟩)]
    rfl

theorem C3_transition_gap_float_witness :
    (-4712 : Int) ≤ 1582 ∧
    (Machine.cal_to_julian_date 1582 10 5 0).status = some MeeusError_InvalidDate ∧
    (Machine.cal_to_julian_date 1582 10 14 0).status = some MeeusError_InvalidDate ∧
    (Machine.cal_to_julian_date 1582 10 15 0).status = some MeeusError_Success := by
  have f5 : to_float 5 = 5 := to_float_of_scaled _ 0 5 (by norm_num) (by norm_num)
  have f14 : to_float 14 = 14 := to_float_of_scaled _ 0 14 (by norm_num) (by norm_num)
  have f15 : to_float 15 = 15 := to_float_of_scaled _ 0 15 (by norm_num) (by norm_num)
  exact ⟨by decide,
    (C3_transition_gap_float 1582 10 5 0 (by decide)).1.mpr
      ⟨rfl, rfl, by rw [f5], by rw [f5]; norm_num⟩,
    (C3_transition_gap_float 1582 10 14 0 (by decide)).1.mpr
      ⟨rfl, rfl, by rw [f14]; norm_num, by rw [f14]⟩,
    (C3_transition_gap_float 1582 10 15 0 (by decide)).2.1 (by rw [f15]; norm_num)⟩

/-- C3 counterexample: for day 4.9 of October 1582 the code succeeds with
4821688831181/2097152 (about 2299160.4000001), not 2299160.4, and for day 15.1
with 1205422312653/524288 (about 2299160.6000004), not 2299160.6; and the real
day 4.99999999, which is below 5, is rejected with InvalidDate because it is
stored as the `float` 5. -/
theorem C3_counterexample :
    Machine.cal_to_julian_date 1582 10 4.9 0 =
      Call.ret MeeusError_Success (4821688831181 / 2097152) ∧
    (4821688831181 / 2097152 : ℚ) ≠ 2299160.4 ∧
    Machine.cal_to_julian_date 1582 10 15.1 0 =
      Call.ret MeeusError_Success (1205422312653 / 524288) ∧
    (1205422312653 / 524288 : ℚ) ≠ 2299160.6 ∧
    (Machine.cal_to_julian_date 1582 10 4.99999999 0).status = some MeeusError_InvalidDate ∧
    ¬ ((5 : ℚ) ≤ 4.99999999) := by
  refine ⟨(machine_cal_to_julian_date_gap_edges 0).1, by norm_num,
    (machine_cal_to_julian_date_gap_edges 0).2, by norm_num, ?_, by norm_num⟩
  rw [machine_cal_to_julian_date_missing 1582 10 4.99999999 0 (by norm_num)
    (is_missing_true_of_gap _ _ _ ⟨rfl, rfl, by rw [to_float_gap_edges.2.2.2.2],
      by rw [to_float_gap_edges.2.2.2.2]; norm_num⟩)]
  rfl

/-! ## Day of the week (C9, C10) -/

theorem machine_cal_to_julian_date_5874898 (jd : ℚ) :
    Machine.cal_to_julian_date 5874898 6 ((3 : Int) : ℚ) jd =
      Call.ret MeeusError_Success (((2147483647 : Int) : ℚ) - 1 / 2) ∧
    Machine.cal_to_julian_date 5874898 6 ((4 : Int) : ℚ) jd =
      Call.ret MeeusError_Success (((2147483648 : Int) : ℚ) - 1 / 2) := by
  constructor
  · rw [machine_cal_to_julian_date_whole 5874898 6 3 jd (by norm_num) (by norm_num) (by norm_num)
      (by norm_num) (by norm_num) (by norm_num) (by norm_num)]
    norm_num [day_number_base, shifted_year, shifted_month, is_pre_gregorian]
  · rw [machine_cal_to_julian_date_whole 5874898 6 4 jd (by norm_num) (by norm_num) (by norm_num)
      (by norm_num) (by norm_num) (by norm_num) (by norm_num)]
    norm_num [day_number_base, shifted_year, shifted_month, is_pre_gregorian]

theorem machine_cal_to_julian_date_2015 (jd : ℚ) :
    Machine.cal_to_julian_date 2015 10 ((25 : Int) : ℚ) jd =
      Call.ret MeeusError_Success (((2457321 : Int) : ℚ) - 1 / 2) ∧
    Machine.cal_to_julian_date 2015 10 ((26 : Int) : ℚ) jd =
      Call.ret MeeusError_Success (((2457322 : Int) : ℚ) - 1 / 2) ∧
    Machine.cal_to_julian_date 1954 6 ((30 : Int) : ℚ) jd =
      Call.ret MeeusError_Success (((2434924 : Int) : ℚ) - 1 / 2) := by
  refine ⟨?_, ?_, ?_⟩
  · rw [machine_cal_to_julian_date_whole 2015 10 25 jd (by norm_num) (by norm_num) (by norm_num)
      (by norm_num) (by norm_num) (by norm_num) (by norm_num)]
    norm_num [day_number_base, shifted_year, shifted_month, is_pre_gregorian]
  · rw [machine_cal_to_julian_date_whole 2015 10 26 jd (by norm_num) (by norm_num) (by norm_num)
      (by norm_num) (by norm_num) (by norm_num) (by norm_num)]
    norm_num [day_number_base, shifted_year, shifted_month, is_pre_gregorian]
  · rw [machine_cal_to_julian_date_whole 1954 6 30 jd (by norm_num) (by norm_num) (by norm_num)
      (by norm_num) (by norm_num) (by norm_num) (by norm_num)]
    norm_num [day_number_base, shifted_year, shifted_month, is_pre_gregorian]

/-- C9 (amended): in machine arithmetic `day_of_week` returns the weekday of
the stored date, whatever the time of day. For every year in -4712..5874898,
month in 1..12 and real day with 1 <= day < days_in_month + 1, not on 5..14
October 1582, with d the day converted to `float`, if the Julian Date at 0h,
JD0 = cal_to_julian_date(year, month, floor(d)), satisfies 0 <= JD0 and
JD0 + 1.5 < 2^31, then JD0 + 1.5 is a whole number N and `day_of_week` returns
Success with code N mod 7; a date in the same range whose Julian Date at 0h is
JD0 + 1 gets the next code modulo 7. -/
theorem C9_day_of_week_int32 (year month : Int) (day s JD0 : ℚ) (L t dow : Int)
    (hy : -4712 ≤ year) (hyb : year ≤ 5874898) (hm : 1 ≤ month) (hm' : month ≤ 12)
    (hL : days_in_month year month t = (MeeusError_Success, L))
    (hd : 1 ≤ day) (hd' : day < (L : ℚ) + 1)
    (hgap : ¬ (year = 1582 ∧ month = 10 ∧ 5 ≤ day ∧ day < 15))
    (hJD0 : Machine.cal_to_julian_date year month ((Int.floor (to_float day) : Int) : ℚ) s =
      Call.ret MeeusError_Success JD0)
    (hpos : 0 ≤ JD0) (hmax : JD0 + 1.5 < 2147483648) :
    ∃ N : Int, (N : ℚ) = JD0 + 1.5 ∧
      Machine.day_of_week year month day dow = Call.ret MeeusError_Success (N % 7) ∧
      0 ≤ N % 7 ∧ N % 7 ≤ 6 ∧
      ∀ (year2 month2 : Int) (day2 s2 JD2 : ℚ) (dow2 : Int),
        year2 ≤ 5874898 → 1 ≤ month2 → month2 ≤ 12 → 1 ≤ day2 → day2 < 32 →
        Machine.cal_to_julian_date year2 month2 ((Int.floor (to_float day2) : Int) : ℚ) s2 =
          Call.ret MeeusError_Success JD2 →
        JD2 = JD0 + 1 → JD2 + 1.5 < 2147483648 →
        Machine.day_of_week year2 month2 day2 dow2 =
          Call.ret MeeusError_Success ((N % 7 + 1) % 7) := by
  have hL2 := hL
  rw [days_in_month_eq year month t hm hm'] at hL2
  have hLm : L = month_length year month := by
    rw [month_length_eq year month hm hm']
    exact (Prod.mk.inj hL2).2.symm
  obtain ⟨-, hL31⟩ := month_length_bounds year month hm hm'
  rw [← hLm] at hL31
  have hd32 : day < 32 := by
    have : (L : ℚ) ≤ 31 := by exact_mod_cast hL31
    linarith
  have key : ∀ (y mo : Int) (x s1 J : ℚ) (dw : Int), y ≤ 5874898 → 1 ≤ mo → mo ≤ 12 →
      1 ≤ x → x < 32 →
      Machine.cal_to_julian_date y mo ((Int.floor (to_float x) : Int) : ℚ) s1 =
        Call.ret MeeusError_Success J →
      0 ≤ J → J + 1.5 < 2147483648 →
      ((day_number_base y mo ((Int.floor (to_float x) : Int) : ℚ) + Int.floor (to_float x) - 1523
        : Int) : ℚ) = J + 1.5 ∧
      Machine.day_of_week y mo x dw = Call.ret MeeusError_Success
        ((day_number_base y mo ((Int.floor (to_float x) : Int) : ℚ) + Int.floor (to_float x)
          - 1523) % 7) := by
    intro y mo x s1 J dw hyb1 hm1 hm1' hx hx' hJ hJpos hJmax
    have hd0 : 0 ≤ to_float x := to_float_nonneg x (by linarith)
    have hdub : to_float x < 2147483648 := by
      have := to_float_le x (by linarith)
      linarith
    obtain ⟨hJe, hbr⟩ := machine_day_of_week_exact y mo (to_float x) s1 J dw hyb1 hm1 hm1'
      (to_float_idem x) hd0 hdub hJ hJmax
    obtain ⟨hN, hw⟩ := day_of_week_eq y mo (to_float x) s1 J dw hd0 hJe hJpos
    exact ⟨hN, by rw [machine_day_of_week_float_arg, hbr]; exact hw⟩
  obtain ⟨hN, hw⟩ := key year month day s JD0 dow hyb hm hm' hd hd32 hJD0 hpos hmax
  refine ⟨_, hN, hw, by omega, by omega, ?_⟩
  intro year2 month2 day2 s2 JD2 dow2 hyb2 hm2 hm2' hd2 hd2' hJD2 hnx hmax2
  obtain ⟨hN2, hw2⟩ := key year2 month2 day2 s2 JD2 dow2 hyb2 hm2 hm2' hd2 hd2' hJD2
    (by linarith) hmax2
  rw [hw2]
  have hq : ((day_number_base year2 month2 ((Int.floor (to_float day2) : Int) : ℚ) +
      Int.floor (to_float day2) - 1523 : Int) : ℚ) =
      ((day_number_base year month ((Int.floor (to_float day) : Int) : ℚ) +
        Int.floor (to_float day) - 1523 + 1 : Int) : ℚ) := by
    rw [hN2, hnx]
    push_cast
    rw [Int.cast_sub, Int.cast_add] at hN
    norm_num at hN ⊢
    linarith
  have hz : day_number_base year2 month2 ((Int.floor (to_float day2) : Int) : ℚ) +
      Int.floor (to_float day2) - 1523 =
      day_number_base year month ((Int.floor (to_float day) : Int) : ℚ) +
        Int.floor (to_float day) - 1523 + 1 := by
    exact_mod_cast hq
  rw [hz]
  congr 1
  omega

theorem C9_day_of_week_int32_witness :
    Machine.day_of_week 1954 6 30 0 = Call.ret MeeusError_Success 3 ∧
    Machine.day_of_week 2015 10 25 0 = Call.ret MeeusError_Success 0 ∧
    Machine.day_of_week 2015 10 26 0 = Call.ret MeeusError_Success 1 := by
  have g30 : to_float 30 = 30 := to_float_of_scaled _ 0 30 (by norm_num) (by norm_num)
  have g25 : to_float 25 = 25 := to_float_of_scaled _ 0 25 (by norm_num) (by norm_num)
  have g26 : to_float 26 = 26 := to_float_of_scaled _ 0 26 (by norm_num) (by norm_num)
  have hf30 : ((Int.floor (to_float 30) : Int) : ℚ) = ((30 : Int) : ℚ) := by rw [g30]; norm_num
  have hf25 : ((Int.floor (to_float 25) : Int) : ℚ) = ((25 : Int) : ℚ) := by rw [g25]; norm_num
  have hf26 : ((Int.floor (to_float 26) : Int) : ℚ) = ((26 : Int) : ℚ) := by rw [g26]; norm_num
  obtain ⟨N, hN, hw, -, -, -⟩ := C9_day_of_week_int32 1954 6 30 0
    (((2434924 : Int) : ℚ) - 1 / 2) 30 0 0
    (by norm_num) (by norm_num) (by norm_num) (by norm_num) (by decide) (by norm_num)
    (by norm_num) (by norm_num) (by rw [hf30]; exact (machine_cal_to_julian_date_2015 0).2.2)
    (by norm_num) (by norm_num)
  obtain ⟨N2, hN2, hw2, -, -, hnext⟩ := C9_day_of_week_int32 2015 10 25 0
    (((2457321 : Int) : ℚ) - 1 / 2) 31 0 0
    (by norm_num) (by norm_num) (by norm_num) (by norm_num) (by decide) (by norm_num)
    (by norm_num) (by norm_num) (by rw [hf25]; exact (machine_cal_to_julian_date_2015 0).1)
    (by norm_num) (by norm_num)
  have h3 := hnext 2015 10 26 0 (((2457322 : Int) : ℚ) - 1 / 2) 0 (by norm_num) (by norm_num)
    (by norm_num) (by norm_num) (by norm_num)
    (by rw [hf26]; exact (machine_cal_to_julian_date_2015 0).2.1) (by norm_num) (by norm_num)
  have e1 : N = 2434925 := by
    have : (N : ℚ) = ((2434925 : Int) : ℚ) := by rw [hN]; norm_num
    exact_mod_cast this
  have e2 : N2 = 2457322 := by
    have : (N2 : ℚ) = ((2457322 : Int) : ℚ) := by rw [hN2]; norm_num
    exact_mod_cast this
  subst e1
  subst e2
  exact ⟨hw, hw2, h3⟩

/-- C9 counterexample: 4 June 5874898 has JD0 = 2147483647.5, so
N = JD0 + 1.5 = 2147483649 and N mod 7 = 3, but `(int)jd + 2` wraps in 32 bits
and the code returns -1; and for the real day 25.99999999 of October 2015,
whose floor is 25 (a Sunday, code 0), the day is stored as the `float` 26 and
the code returns 1. -/
theorem C9_counterexample :
    days_in_month 5874898 6 0 = (MeeusError_Success, 30) ∧
    Int.floor (4 : ℚ) = 4 ∧
    Machine.cal_to_julian_date 5874898 6 ((4 : Int) : ℚ) 0 =
      Call.ret MeeusError_Success (4294967295 / 2) ∧
    ((2147483649 : Int) : ℚ) = 4294967295 / 2 + 1.5 ∧ (2147483649 : Int) % 7 = 3 ∧
    Machine.day_of_week 5874898 6 4 0 = Call.ret MeeusError_Success (-1) ∧
    Int.floor (25.99999999 : ℚ) = 25 ∧
    Machine.cal_to_julian_date 2015 10 ((25 : Int) : ℚ) 0 =
      Call.ret MeeusError_Success 2457320.5 ∧
    ((2457322 : Int) : ℚ) = 2457320.5 + 1.5 ∧ (2457322 : Int) % 7 = 0 ∧
    Machine.day_of_week 2015 10 25.99999999 0 = Call.ret MeeusError_Success 1 := by
  have h26 : to_float 25.99999999 = ((26 : Int) : ℚ) := by
    rw [to_float_eval 25.99999999 26 4 13631488 (by norm_num) (by norm_num)
      (by norm_num [round_half_even]) (by norm_num)]
    norm_num
  have h4 : to_float 4 = ((4 : Int) : ℚ) := by
    have := to_float_small_int 4 (by norm_num) (by norm_num)
    norm_num at this ⊢
    exact this
  refine ⟨by decide, by norm_num, ?_, by norm_num, by decide, ?_, ?_, ?_, by norm_num,
    by decide, ?_⟩
  · have h := (machine_cal_to_julian_date_5874898 0).2
    norm_num at h ⊢
    exact h
  · exact machine_day_of_week_eval 5874898 6 4 4 2147483648 0 h4 (by decide)
      (to_float_small_int 4 (by norm_num) (by norm_num)) (machine_cal_to_julian_date_5874898 0).2
      (by norm_num)
  · rw [Int.floor_eq_iff]
    norm_num
  · have h := (machine_cal_to_julian_date_2015 0).1
    norm_num at h ⊢
    exact h
  · exact machine_day_of_week_eval 2015 10 25.99999999 26 2457322 0 h26 (by decide)
      (to_float_small_int 26 (by norm_num) (by norm_num)) (machine_cal_to_julian_date_2015 0).2.1
      (by norm_num)

/-- C10 (amended): in machine arithmetic the weekday code is in 0..6 as long as
the 32-bit `int` arithmetic does not overflow. For every year in
-4712..5874898, month in 1..12 and real day >= 0, with d the day converted to
`float`, if d < 2^31 and the Julian Date at 0h,
JD0 = cal_to_julian_date(year, month, floor(d)), satisfies JD0 + 1.5 < 2^31,
then a code w returned by `day_of_week` with Success satisfies 0 <= w <= 6. -/
theorem C10_weekday_code_range_int32 (year month : Int) (day s JD0 : ℚ) (dow w : Int)
    (hy : -4712 ≤ year) (hyb : year ≤ 5874898) (hm : 1 ≤ month) (hm' : month ≤ 12)
    (hd : 0 ≤ day) (hd31 : to_float day < 2147483648)
    (hJD0 : Machine.cal_to_julian_date year month ((Int.floor (to_float day) : Int) : ℚ) s =
      Call.ret MeeusError_Success JD0)
    (hmax : JD0 + 1.5 < 2147483648)
    (h : Machine.day_of_week year month day dow = Call.ret MeeusError_Success w) :
    0 ≤ w ∧ w ≤ 6 := by
  have hd0 : 0 ≤ to_float day := to_float_nonneg day hd
  obtain ⟨-, hbr⟩ := machine_day_of_week_exact year month (to_float day) s JD0 dow hyb hm hm'
    (to_float_idem day) hd0 hd31 hJD0 hmax
  rw [machine_day_of_week_float_arg, hbr] at h
  exact weekday_code_range_exact year month (to_float day) dow w hy hm hm' hd0 h

theorem C10_weekday_code_range_int32_witness :
    Machine.day_of_week (-4712) 1 0 0 = Call.ret MeeusError_Success 1 ∧
    (0 : Int) ≤ 1 ∧ (1 : Int) ≤ 6 := by
  have hc : Machine.cal_to_julian_date (-4712) 1 ((0 : Int) : ℚ) 0 =
      Call.ret MeeusError_Success (((-1 : Int) : ℚ) - 1 / 2) := by
    rw [machine_cal_to_julian_date_whole (-4712) 1 0 0 (by norm_num) (by norm_num) (by norm_num)
      (by norm_num) (by norm_num) (by norm_num) (by norm_num)]
    norm_num [day_number_base, shifted_year, shifted_month, is_pre_gregorian]
  have g0 : to_float 0 = 0 := to_float_of_scaled _ 0 0 (by norm_num) (by norm_num)
  have h0 : to_float 0 = ((0 : Int) : ℚ) := by
    rw [g0]
    norm_num
  have hf0 : ((Int.floor (to_float 0) : Int) : ℚ) = ((0 : Int) : ℚ) := by rw [g0]; norm_num
  have h : Machine.day_of_week (-4712) 1 0 0 = Call.ret MeeusError_Success 1 := by
    simp only [Machine.day_of_week, h0, truncToInt_intCast, (by decide : to_int32 0 = 0),
      to_float_small_int 0 (by norm_num) (by norm_num), hc, Machine.day_of_week_jd,
      truncToInt_sub_half]
    decide
  exact ⟨h, C10_weekday_code_range_int32 (-4712) 1 0 0 (((-1 : Int) : ℚ) - 1 / 2) 0 1
    (by norm_num) (by norm_num) (by norm_num) (by norm_num) (by norm_num)
    (by rw [g0]; norm_num) (by rw [hf0]; exact hc) (by norm_num) h⟩

/-- C10 counterexample: for 3 June 5874898 the call succeeds and `(int)jd + 2`
wraps in 32 bits to a negative `z`, so the returned code is -2. -/
theorem C10_counterexample :
    Machine.day_of_week 5874898 6 3 0 = Call.ret MeeusError_Success (-2) ∧
    ¬ ((0 : Int) ≤ -2) := by
  have h3 : to_float 3 = ((3 : Int) : ℚ) := by
    have := to_float_small_int 3 (by norm_num) (by norm_num)
    norm_num at this ⊢
    exact this
  exact ⟨machine_day_of_week_eval 5874898 6 3 3 2147483647 0 h3 (by decide)
    (to_float_small_int 3 (by norm_num) (by norm_num)) (machine_cal_to_julian_date_5874898 0).1
    (by norm_num), by decide⟩

/-! ## Month ends (C15) -/

theorem whole_day_sharp_bounds (year month : Int) (day : ℚ) (hy : -4712 ≤ year)
    (hsb : shifted_year year month ≤ 6165091887646) (hyb : year ≤ 6165091887647)
    (hm : 1 ≤ month) (hm' : month ≤ 12) (hd : 0 ≤ day) (hd' : day < 32) :
    1461 * ((shifted_year year month : ℚ) + 4716) < 9007199254740992 ∧
    ((((1461 * (shifted_year year month + 4716)) / 4 +
      (306001 * (shifted_month month + 1)) / 10000 : Int) : ℚ) + day) * (2 : ℚ) ^ (1 : Nat)
        < 9007199254740992 ∧
    (1525 : ℚ) * (2 : ℚ) ^ (1 : Nat) < 9007199254740992 := by
  obtain ⟨hN4, -⟩ := day_number_floors_le year month hm hm'
  have h1 : (year : ℚ) ≤ 6165091887647 := by exact_mod_cast hyb
  have h2 : (-4712 : ℚ) ≤ (year : ℚ) := by exact_mod_cast hy
  have hYq : (shifted_year year month : ℚ) ≤ 6165091887646 := by exact_mod_cast hsb
  have hN4q : 4 * (((1461 * (shifted_year year month + 4716)) / 4 +
      (306001 * (shifted_month month + 1)) / 10000 : Int) : ℚ) ≤
      1461 * ((year : ℚ) + 4716) + 1588 := by exact_mod_cast hN4
  have h21 : (2 : ℚ) ^ (1 : Nat) = 2 := by norm_num
  rw [h21]
  refine ⟨by linarith, by linarith, by norm_num⟩

/-- C15 (amended): in machine arithmetic Julian Dates are continuous across
month and year ends and agree with `days_in_month`. For every year in
-4712..6165091887646 and month in 1..12, with L = days_in_month(year, month)
and (year', month') the following month, both
`cal_to_julian_date year month L` and `cal_to_julian_date year' month' 1`
succeed and the second Julian Date is the first plus 1. -/
theorem C15_month_end_continuity_bounded (year month L t : Int) (s s' : ℚ)
    (hy : -4712 ≤ year) (hyb : year ≤ 6165091887646) (hm : 1 ≤ month) (hm' : month ≤ 12)
    (hL : days_in_month year month t = (MeeusError_Success, L)) :
    ∃ jdL jd1 : ℚ,
      Machine.cal_to_julian_date year month (L : ℚ) s = Call.ret MeeusError_Success jdL ∧
      Machine.cal_to_julian_date (if month < 12 then year else year + 1)
        (if month < 12 then month + 1 else 1) 1 s' = Call.ret MeeusError_Success jd1 ∧
      jd1 = jdL + 1 := by
  have hL2 := hL
  rw [days_in_month_eq year month t hm hm'] at hL2
  have hLm : L = month_length year month := by
    rw [month_length_eq year month hm hm']
    exact (Prod.mk.inj hL2).2.symm
  obtain ⟨hL28, hL31⟩ := month_length_bounds year month hm hm'
  rw [← hLm] at hL28 hL31
  have hLq0 : (0 : ℚ) ≤ (L : ℚ) := by exact_mod_cast (by omega : (0 : Int) ≤ L)
  have hLq32 : (L : ℚ) < 32 := by exact_mod_cast (by omega : L < 32)
  obtain ⟨jdL, jd1, e1, e2, e3⟩ := month_end_continuity_exact year month L t s s' hy hm hm' hL
  have hs1 : shifted_year year month ≤ 6165091887646 := by
    have := (day_number_floors_le year month hm hm').2
    omega
  have hnext : -4712 ≤ (if month < 12 then year else year + 1) ∧
      (if month < 12 then year else year + 1) ≤ 6165091887647 ∧
      1 ≤ (if month < 12 then month + 1 else 1) ∧ (if month < 12 then month + 1 else 1) ≤ 12 ∧
      shifted_year (if month < 12 then year else year + 1)
        (if month < 12 then month + 1 else 1) ≤ 6165091887646 := by
    unfold shifted_year
    split <;> split <;> omega
  obtain ⟨hy2, hyb2, hm2, hm2', hs2⟩ := hnext
  generalize (if month < 12 then year else year + 1) = y2 at hy2 hyb2 hs2 e2 ⊢
  generalize (if month < 12 then month + 1 else 1) = m2 at hm2 hm2' hs2 e2 ⊢
  obtain ⟨hA1, hS1, hC1⟩ := whole_day_sharp_bounds year month (L : ℚ) hy hs1 (by omega) hm hm'
    hLq0 hLq32
  obtain ⟨hA2, hS2, hC2⟩ := whole_day_sharp_bounds y2 m2 1 hy2 hs2 hyb2 hm2 hm2'
    (by norm_num) (by norm_num)
  refine ⟨jdL, jd1, ?_, ?_, e3⟩
  · rw [machine_cal_to_julian_date_exact_core year month (L : ℚ) s 1 (2 * L) (by norm_num)
      (by push_cast; ring) (to_float_small_int L (by omega) hL31) hLq0 hm hm' hA1 hS1 hC1]
    exact e1
  · rw [machine_cal_to_julian_date_exact_core y2 m2 1 s' 1 2 (by norm_num) (by norm_num)
      (to_float_of_scaled _ 0 1 (by norm_num) (by norm_num)) (by norm_num) hm2 hm2' hA2 hS2 hC2]
    exact e2

theorem C15_month_end_continuity_bounded_witness :
    ∃ jdL jd1 : ℚ,
      Machine.cal_to_julian_date 1582 12 31 0 = Call.ret MeeusError_Success jdL ∧
      Machine.cal_to_julian_date 1583 1 1 0 = Call.ret MeeusError_Success jd1 ∧
      jd1 = jdL + 1 := by
  have h := C15_month_end_continuity_bounded 1582 12 31 0 0 0 (by decide) (by decide)
    (by decide) (by decide) (by decide)
  simpa using h

theorem machine_cal_to_julian_date_threshold (jd : ℚ) :
    Machine.cal_to_julian_date 6165091887647 2 28 jd =
      Call.ret MeeusError_Success (4503507150990055 / 2) ∧
    Machine.cal_to_julian_date 6165091887647 3 1 jd =
      Call.ret MeeusError_Success (4503507150990059 / 2) := by
  have hb : to_double ((-46238189155 : Int) : ℚ) = ((-46238189155 : Int) : ℚ) :=
    to_double_intCast _ (by norm_num)
  have hsy : shifted_year 6165091887647 2 = 6165091887646 ∧
      shifted_year 6165091887647 3 = 6165091887647 ∧ shifted_month 2 = 14 ∧
      shifted_month 3 = 3 := by decide
  have hp1 : is_pre_gregorian 6165091887646 14 28 = false := by simp [is_pre_gregorian]
  have hp2 : is_pre_gregorian 6165091887647 3 1 = false := by simp [is_pre_gregorian]
  have hbv1 : (2 - 6165091887646 / 100 + 6165091887646 / 100 / 4 : Int) = -46238189155 := by
    decide
  have hbv2 : (2 - 6165091887647 / 100 + 6165091887647 / 100 / 4 : Int) = -46238189155 := by
    decide
  have hsum1 : (6165091887646 + 4716 : Int) = 6165091892362 := by decide
  have hsum2 : (6165091887647 + 4716 : Int) = 6165091892363 := by decide
  have hq1 : (306001 * (14 + 1) / 10000 : Int) = 459 := by decide
  have hq2 : (306001 * (3 + 1) / 10000 : Int) = 122 := by decide
  constructor
  · rw [machine_cal_to_julian_date_unfold 6165091887647 2 28 jd
      (to_float_of_scaled _ 0 28 (by norm_num) (by norm_num)) (by norm_num) (by norm_num)
      (by norm_num) (by norm_num) (is_missing_false_of_not_gap _ _ _ (by norm_num))]
    rw [hsy.2.2.1, hsy.1, hp1]
    simp only [Bool.false_eq_true, if_false, hbv1, hsum1, hq1]
    rw [cal_sum_steps 6165091892362 459 (-46238189155) 28 (4503599627370441 / 2)
      2251799813685220 2251799813685679 2251799813685707 2251753575496552
      (4503507150990055 / 2)
      (to_double_intCast _ (by norm_num))
      (to_double_eval _ _ 50 9007199254740882 (by norm_num) (by norm_num)
        (by norm_num [round_half_even]) (by norm_num))
      (by norm_num [floor])
      (to_double_eval _ _ 51 4503599627371358 (by norm_num) (by norm_num)
        (by norm_num [round_half_even]) (by norm_num))
      (to_double_eval _ _ 51 4503599627371414 (by norm_num) (by norm_num)
        (by norm_num [round_half_even]) (by norm_num)) hb
      (to_double_eval _ _ 50 9007014301986208 (by norm_num) (by norm_num)
        (by norm_num [round_half_even]) (by norm_num))
      (to_double_eval _ _ 50 9007014301980110 (by norm_num) (by norm_num)
        (by norm_num [round_half_even]) (by norm_num))]
  · rw [machine_cal_to_julian_date_unfold 6165091887647 3 1 jd
      (to_float_of_scaled _ 0 1 (by norm_num) (by norm_num)) (by norm_num) (by norm_num)
      (by norm_num) (by norm_num) (is_missing_false_of_not_gap _ _ _ (by norm_num))]
    rw [hsy.2.2.2, hsy.2.1, hp2]
    simp only [Bool.false_eq_true, if_false, hbv2, hsum2, hq2]
    rw [cal_sum_steps 6165091892363 122 (-46238189155) 1 2251799813685586
      2251799813685586 2251799813685708 2251799813685709 2251753575496554
      (4503507150990059 / 2)
      (to_double_intCast _ (by norm_num))
      (to_double_eval _ _ 51 4503599627371172 (by norm_num) (by norm_num)
        (by norm_num [round_half_even]) (by norm_num))
      (by norm_num [floor])
      (to_double_eval _ _ 51 4503599627371416 (by norm_num) (by norm_num)
        (by norm_num [round_half_even]) (by norm_num))
      (to_double_eval _ _ 51 4503599627371418 (by norm_num) (by norm_num)
        (by norm_num [round_half_even]) (by norm_num)) hb
      (to_double_eval _ _ 50 9007014301986216 (by norm_num) (by norm_num)
        (by norm_num [round_half_even]) (by norm_num))
      (to_double_eval _ _ 50 9007014301980118 (by norm_num) (by norm_num)
        (by norm_num [round_half_even]) (by norm_num))]

/-- C15 counterexample: in year 6165091887647, the first year in which
365.25 * (year + 4716) is no longer a binary64 number, the product for 1 March
is rounded up to a whole number, and the Julian Dates of 28 February (the last
day of the month) and 1 March differ by 2 instead of 1. -/
theorem C15_counterexample :
    days_in_month 6165091887647 2 0 = (MeeusError_Success, 28) ∧
    Machine.cal_to_julian_date 6165091887647 2 28 0 =
      Call.ret MeeusError_Success (4503507150990055 / 2) ∧
    Machine.cal_to_julian_date 6165091887647 3 1 0 =
      Call.ret MeeusError_Success (4503507150990059 / 2) ∧
    (4503507150990059 / 2 : ℚ) ≠ 4503507150990055 / 2 + 1 :=
  ⟨by decide, (machine_cal_to_julian_date_threshold 0).1,
    (machine_cal_to_julian_date_threshold 0).2, by norm_num⟩

/-! ## Reverse round trip (C16) -/

theorem year_le_of_day_number (y mo n : Int) (hv : valid_date y mo n) :
    364 * (y + 4716) ≤ day_number_int y mo n + 2000 := by
  obtain ⟨hy, hm, hm', hn, -, -⟩ := hv
  unfold day_number_int
  split_ifs <;> omega

theorem correction_le_of_day_number (y mo n : Int) (hv : valid_date y mo n) :
    145600 * ((1461 * (shifted_year y mo + 4716)) / 4 + (306001 * (shifted_month mo + 1)) / 10000
      + n - 1524 - day_number_int y mo n) ≤ 3 * (day_number_int y mo n + 2000) ∧
    0 ≤ (1461 * (shifted_year y mo + 4716)) / 4 + (306001 * (shifted_month mo + 1)) / 10000 := by
  obtain ⟨hy, hm, hm', hn, -, -⟩ := hv
  unfold day_number_int shifted_year shifted_month
  split_ifs <;> constructor <;> omega

/-- C16 (amended): reverse round trip Julian Date -> calendar -> Julian Date
in machine arithmetic. For every jd with 0 <= jd <= 17179500000 that is a whole
multiple of 2^-19 day, `julian_date_to_cal jd` succeeds with some
(year, month, day) and `cal_to_julian_date year month day` returns Success
with exactly jd. -/
theorem C16_reverse_round_trip_float (jd s : ℚ) (y0 m0 : Int) (d0 : ℚ) (m : Int)
    (hjd : 0 ≤ jd) (hjdb : jd ≤ 17179500000) (hgrid : jd * 524288 = (m : ℚ)) :
    (Machine.julian_date_to_cal jd y0 m0 d0).1 = MeeusError_Success ∧
    Machine.cal_to_julian_date (Machine.julian_date_to_cal jd y0 m0 d0).2.1
      (Machine.julian_date_to_cal jd y0 m0 d0).2.2.1
      (Machine.julian_date_to_cal jd y0 m0 d0).2.2.2 s =
      Call.ret MeeusError_Success jd := by
  obtain ⟨y, mo, n, f, hv, hf0, hf1, hjdn, hcal⟩ := julian_date_to_cal_valid jd hjd y0 m0 d0
  have hrt := (reverse_round_trip_exact jd s y0 m0 d0 hjd).2
  have hyear := year_le_of_day_number y mo n hv
  obtain ⟨hcorr, hN0⟩ := correction_le_of_day_number y mo n hv
  obtain ⟨hy, hm, hm', hn, hnL, hgap⟩ := hv
  obtain ⟨-, hL31⟩ := month_length_bounds y mo hm hm'
  obtain ⟨-, hYle⟩ := day_number_floors_le y mo hm hm'
  have hn1 : (1 : ℚ) ≤ (n : ℚ) := by exact_mod_cast hn
  have hn31 : (n : ℚ) ≤ 31 := by exact_mod_cast (by omega : n ≤ 31)
  have h19 : (2 : ℚ) ^ (19 : Nat) = 524288 := by norm_num
  have hM := machine_julian_date_to_cal_exact jd 19 m (by norm_num)
    (by rw [h19]; exact hgrid) hjd (by linarith) (by rw [h19]; linarith) y0 m0 d0
  have hdgrid : ((n : ℚ) + f) * (2 : ℚ) ^ (19 : Nat) =
      ((n * 524288 + (m - day_number_int y mo n * 524288 + 262144) : Int) : ℚ) := by
    have hf : f = jd - ((day_number_int y mo n : Int) : ℚ) + 1 / 2 := by linarith
    push_cast
    rw [← hgrid, hf]
    norm_num
    ring
  have hdfl : to_float ((n : ℚ) + f) = (n : ℚ) + f := by
    apply to_float_of_scaled _ 19 _ hdgrid
    rw [← hdgrid, abs_of_nonneg (by positivity)]
    norm_num
    linarith
  have hyq : 364 * ((y : ℚ) + 4716) ≤ ((day_number_int y mo n : Int) : ℚ) + 2000 := by
    exact_mod_cast hyear
  have hYq : (shifted_year y mo : ℚ) ≤ (y : ℚ) := by exact_mod_cast hYle
  have hcq : 145600 * ((((1461 * (shifted_year y mo + 4716)) / 4 +
      (306001 * (shifted_month mo + 1)) / 10000 : Int) : ℚ) + (n : ℚ) - 1524 -
      ((day_number_int y mo n : Int) : ℚ)) ≤ 3 * (((day_number_int y mo n : Int) : ℚ) + 2000) := by
    exact_mod_cast hcorr
  have hyq' : (-4712 : ℚ) ≤ (y : ℚ) := by exact_mod_cast hy
  rw [hcal] at hrt
  simp only at hrt
  rw [hM, hcal]
  refine ⟨rfl, ?_⟩
  simp only [hdfl]
  rw [machine_cal_to_julian_date_exact_core y mo ((n : ℚ) + f) s 19 _ (by norm_num) hdgrid hdfl
    (by linarith) hm hm' (by linarith) (by rw [h19]; linarith) (by norm_num)]
  exact hrt

theorem C16_reverse_round_trip_float_witness :
    Machine.julian_date_to_cal 2451545.0 0 0 0 = (MeeusError_Success, 2000, 1, 1.5) ∧
    Machine.cal_to_julian_date 2000 1 1.5 0 = Call.ret MeeusError_Success 2451545.0 := by
  have h1 : Machine.julian_date_to_cal 2451545.0 0 0 0 = (MeeusError_Success, 2000, 1, 1.5) := by
    have h := machine_julian_date_to_cal_at 2451545 (1 / 2) 1.5 1 1 2000 1 1 (by norm_num)
      (by norm_num) (by norm_num) (by norm_num) (by norm_num) (by norm_num) (by norm_num)
      (by decide) (by
        have := to_float_of_scaled 1.5 1 3 (by norm_num) (by norm_num)
        norm_num at this ⊢
        exact this) 0 0 0
    norm_num at h ⊢
    exact h
  have h2 := (C16_reverse_round_trip_float 2451545.0 0 0 0 0 1285315624960 (by norm_num)
    (by norm_num) (by norm_num)).2
  rw [h1] at h2
  exact ⟨h1, h2⟩

theorem machine_cal_to_julian_date_47031202 (jd : ℚ) :
    Machine.cal_to_julian_date 47031202 3 (7077889 / 524288) jd =
      Call.ret MeeusError_Success 17179514928 := by
  rw [machine_cal_to_julian_date_unfold 47031202 3 _ jd
    (to_float_of_scaled _ 19 7077889 (by norm_num) (by norm_num)) (by norm_num)
    (by norm_num) (by norm_num) (by norm_num) (is_missing_false_of_not_gap _ _ _ (by norm_num))]
  have hs : shifted_year 47031202 3 = 47031202 ∧ shifted_month 3 = 3 := by decide
  have hp : is_pre_gregorian 47031202 3 (7077889 / 524288) = false := by
    simp [is_pre_gregorian]
  have hbv : (2 - 47031202 / 100 + 47031202 / 100 / 4 : Int) = -352732 := by decide
  have hsum : (47031202 + 4716 : Int) = 47035918 := by decide
  have hq : (306001 * (3 + 1) / 10000 : Int) = 122 := by decide
  rw [hs.1, hs.2, hp]
  simp only [Bool.false_eq_true, if_false, hbv, hsum, hq]
  rw [cal_sum_steps 47035918 122 (-352732) (7077889 / 524288) (34359738099 / 2) 17179869049
    17179869171 (34359738369 / 2) (34359032905 / 2) 17179514928
    (to_double_intCast _ (by norm_num))
    (to_double_eval _ _ 33 9007199184224256 (by norm_num) (by norm_num)
      (by norm_num [round_half_even]) (by norm_num))
    (by norm_num [floor])
    (to_double_eval _ _ 33 9007199247925248 (by norm_num) (by norm_num)
      (by norm_num [round_half_even]) (by norm_num))
    (to_double_eval _ _ 34 4503599627501568 (by norm_num) (by norm_num)
      (by norm_num [round_half_even]) (by norm_num))
    (to_double_intCast _ (by norm_num))
    (to_double_eval _ _ 33 9007014321848320 (by norm_num) (by norm_num)
      (by norm_num [round_half_even]) (by norm_num))
    (to_double_eval _ _ 33 9007013522571264 (by norm_num) (by norm_num)
      (by norm_num [round_half_even]) (by norm_num))]

/-- C16 counterexample: the binary64 number nearest to 2436116.31,
jd = 5231519940351099 / 2^31, converts to 4.81 October 1957 with the day
stored as the `float` 10087301/2097152, and converting that date back gives
5108906191749/2097152 (about 2436116.3099999428), not jd; and
jd = 17179514928 + 2^-19, a multiple of 2^-19 day, converts to day
13.5 + 2^-19 of March 47031202, and converting that date back gives
17179514928, because the binary64 sum of eq. 7-1 passes 2^34 and drops the
last bit. -/
theorem C16_counterexample :
    (0 : ℚ) ≤ 5231519940351099 / 2147483648 ∧
    to_double (5231519940351099 / 2147483648) = 5231519940351099 / 2147483648 ∧
    Machine.julian_date_to_cal (5231519940351099 / 2147483648) 0 0 0 =
      (MeeusError_Success, 1957, 10, 10087301 / 2097152) ∧
    Machine.cal_to_julian_date 1957 10 (10087301 / 2097152) 0 =
      Call.ret MeeusError_Success (5108906191749 / 2097152) ∧
    (5108906191749 / 2097152 : ℚ) ≠ 5231519940351099 / 2147483648 ∧
    (9007013522571265 / 524288 : ℚ) * 524288 = ((9007013522571265 : Int) : ℚ) ∧
    to_double (9007013522571265 / 524288) = 9007013522571265 / 524288 ∧
    Machine.julian_date_to_cal (9007013522571265 / 524288) 0 0 0 =
      (MeeusError_Success, 47031202, 3, 7077889 / 524288) ∧
    Machine.cal_to_julian_date 47031202 3 (7077889 / 524288) 0 =
      Call.ret MeeusError_Success 17179514928 ∧
    (17179514928 : ℚ) ≠ 9007013522571265 / 524288 := by
  refine ⟨by norm_num, to_double_of_scaled _ 31 5231519940351099 (by norm_num) (by norm_num),
    ?_, machine_cal_to_julian_date_1957_float 0, by norm_num, by norm_num,
    to_double_of_scaled _ 19 9007013522571265 (by norm_num) (by norm_num), ?_,
    machine_cal_to_julian_date_47031202 0, by norm_num⟩
  · have h := machine_julian_date_to_cal_at 2436116 (1739461755 / 2147483648)
      (10087301 / 2097152) 31 1739461755 1957 10 4 (by norm_num) (by norm_num) (by norm_num)
      (by norm_num) (by norm_num) (by norm_num) (by norm_num) (by decide)
      (to_float_eval _ _ 2 10087301 (by norm_num) (by norm_num) (by norm_num [round_half_even])
        (by norm_num)) 0 0 0
    norm_num at h ⊢
    exact h
  · have h := machine_julian_date_to_cal_at 17179514928 (262145 / 524288) (7077889 / 524288) 19
      262145 47031202 3 13 (by norm_num) (by norm_num) (by norm_num) (by norm_num) (by norm_num)
      (by norm_num) (by norm_num) (by decide)
      (by
        have := to_float_of_scaled (7077889 / 524288) 19 7077889 (by norm_num) (by norm_num)
        norm_num at this ⊢
        exact this) 0 0 0
    norm_num at h ⊢
    exact h

/-! ## Dates returned by `julian_date_to_cal` (C17) -/

/-- C17: `julian_date_to_cal` returns dates that do not exist. The binary64
Julian Date 4937409577877483 / 2^31 (about 2299160.4999999902, still
4 October 1582) is returned as 5.0 October 1582, one of the missing days, and
5264651726094315 / 2^31 (about 2451544.4999999902, still 31 December 1999) is
returned as day 32.0 of December 1999, because the day is computed in binary64
and stored in a `float`, which rounds it up to the next whole number while
month and year stay. -/
theorem C17_nonexistent_date_returned :
    (0 : ℚ) ≤ 4937409577877483 / 2147483648 ∧
    to_double (4937409577877483 / 2147483648) = 4937409577877483 / 2147483648 ∧
    (4937409577877483 / 2147483648 : ℚ) < 2299160.5 ∧
    Machine.julian_date_to_cal (4937409577877483 / 2147483648) 0 0 0 =
      (MeeusError_Success, 1582, 10, 5) ∧
    (0 : ℚ) ≤ 5264651726094315 / 2147483648 ∧
    to_double (5264651726094315 / 2147483648) = 5264651726094315 / 2147483648 ∧
    Machine.julian_date_to_cal (5264651726094315 / 2147483648) 0 0 0 =
      (MeeusError_Success, 1999, 12, 32) ∧
    days_in_month 1999 12 0 = (MeeusError_Success, 31) := by
  refine ⟨by norm_num, to_double_of_scaled _ 31 4937409577877483 (by norm_num) (by norm_num),
    by norm_num, ?_, by norm_num,
    to_double_of_scaled _ 31 5264651726094315 (by norm_num) (by norm_num), ?_, by decide⟩
  · have h := machine_julian_date_to_cal_at 2299160 (2147483627 / 2147483648) 5 31 2147483627
      1582 10 4 (by norm_num) (by norm_num) (by norm_num) (by norm_num) (by norm_num)
      (by norm_num) (by norm_num) (by decide)
      (to_float_eval _ _ 2 10485760 (by norm_num) (by norm_num) (by norm_num [round_half_even])
        (by norm_num)) 0 0 0
    norm_num at h ⊢
    exact h
  · have h := machine_julian_date_to_cal_at 2451544 (2147483627 / 2147483648) 32 31 2147483627
      1999 12 31 (by norm_num) (by norm_num) (by norm_num) (by norm_num) (by norm_num)
      (by norm_num) (by norm_num) (by decide)
      (to_float_eval _ _ 4 16777216 (by norm_num) (by norm_num) (by norm_num [round_half_even])
        (by norm_num)) 0 0 0
    norm_num at h ⊢
    exact h

end Meeus
